import Mathlib

/-!
# Spend-log: the backend controllers and the pages that read them

A shallow embedding of the handlers of
`backend/controllers/transactionController.js` (`getTransactionStats`,
`getTransactions`, and the handlers by id),
`backend/controllers/budgetController.js` (`getBudgets`, `setBudget`,
`deleteBudget`, `getBudgetRecommendations`) and
`backend/controllers/savingsController.js` (`getSavingsGoal`, `setSavingsGoal`,
`updateSavingsGoal`, `getSavingsProgress`), and of the computations of the pages
`Export`, `Budgets`, `Dashboard` and `CalendarView` of the frontend.

Conventions of the embedding.

* A JavaScript `Number` that holds an amount of money is a rational number.
  The handlers are modelled with exact arithmetic first, which gives the
  formulas of their outputs.  Where the grouping of additions or the rounding of
  a quotient decides a statement (the sums of `dailySpending`, the flag
  `isOnTrack`), the operations are modelled in binary64: every result is rounded
  by `toDouble`, to nearest with ties to even; overflow is not modelled.  `NaN`
  and the infinities are explicit values of `JSVal`.
* A `Date` is its time value, an integer number of milliseconds since the
  epoch, or `none` for an Invalid Date.  The server's time zone is a fixed
  offset `tz` in milliseconds (local time = UTC + `tz`); daylight saving is not
  modelled.
* The text `d.toISOString().split('T')[0]` names the UTC day of `d`.  It is
  represented by the day number `Day t` of ECMAScript, of which the text
  `YYYY-MM-DD` is a one-to-one rendering; `new Date(text)` of such a text is
  midnight UTC of that day.
* A plain object `{}` is the list of its own properties in insertion order,
  and a property read that finds no own property continues in
  `Object.prototype`.
-/

namespace SpendLog

/-! ## ECMAScript time arithmetic -/

/-- Milliseconds in a day (`msPerDay`). -/
def msPerDay : Int := 86400000

/-- Largest magnitude of a time value; beyond it `TimeClip` gives `NaN`. -/
def maxTime : Int := 8640000000000000

/-- ECMAScript `Day(t)`: the day number of a time value. -/
def Day (t : Int) : Int := t / msPerDay

/-- ECMAScript `TimeWithinDay(t)`. -/
def TimeWithinDay (t : Int) : Int := t % msPerDay

/-- ECMAScript `DaysInYear(y)`. -/
def DaysInYear (y : Int) : Int :=
  if y % 4 ≠ 0 then 365
  else if y % 100 ≠ 0 then 366
  else if y % 400 ≠ 0 then 365
  else 366

/-- ECMAScript `DayFromYear(y)`: day number of 1 January of year `y`. -/
def DayFromYear (y : Int) : Int :=
  365 * (y - 1970) + (y - 1969) / 4 - (y - 1901) / 100 + (y - 1601) / 400

/-- ECMAScript `InLeapYear`, as 0 or 1, for a year. -/
def InLeapYear (y : Int) : Int := if DaysInYear y = 366 then 1 else 0

/-- Day within the year of the first day of month `mn` (0 = January), the
table behind ECMAScript `MonthFromTime`. -/
def dayOfMonthStart (leap mn : Int) : Int :=
  if mn = 0 then 0
  else if mn = 1 then 31
  else if mn = 2 then 59 + leap
  else if mn = 3 then 90 + leap
  else if mn = 4 then 120 + leap
  else if mn = 5 then 151 + leap
  else if mn = 6 then 181 + leap
  else if mn = 7 then 212 + leap
  else if mn = 8 then 243 + leap
  else if mn = 9 then 273 + leap
  else if mn = 10 then 304 + leap
  else 334 + leap

/-- ECMAScript `MakeDay(year, month, date)`: months outside 0..11 carry into
the year, and the date counts on from the first of the month. -/
def MakeDay (year month date : Int) : Int :=
  let ym := year + month / 12
  let mn := month % 12
  DayFromYear ym + dayOfMonthStart (InLeapYear ym) mn + date - 1

/-- ECMAScript `MakeDate(day, time)`. -/
def MakeDate (day time : Int) : Int := day * msPerDay + time

/-- ECMAScript `TimeClip`: `none` is `NaN`, the time value of an Invalid Date. -/
def TimeClip (t : Int) : Option Int :=
  if |t| ≤ maxTime then some t else none

/-- The constructor call `new Date(year, monthIndex, date)`: a year from 0 to 99
means 1900 + year, the fields are local time, and the result is clipped. -/
def newDate (tz year monthIndex date : Int) : Option Int :=
  let yr := if 0 ≤ year ∧ year ≤ 99 then 1900 + year else year
  TimeClip (MakeDate (MakeDay yr monthIndex date) 0 - tz)

/-- The text `toISOString().split('T')[0]` of a date, represented by the UTC day
number it names. -/
abbrev IsoDate := Int

/-- The value of `date.toISOString().split('T')[0]`. -/
def isoDate (t : Int) : IsoDate := Day t

/-- The value of `new Date(text)` for the text of an `IsoDate`: midnight UTC. -/
def parseIsoDate (d : IsoDate) : Int := MakeDate d 0

/-- The call `currentDate.setDate(currentDate.getDate() + 1)`: in local time the
day is advanced by one (`MakeDay` of the date's own year, month and day-of-month
plus one is `Day` plus one), the time within the day is kept, and the result is
clipped. -/
def setDateNext (tz t : Int) : Option Int :=
  TimeClip (MakeDate (Day (t + tz) + 1) (TimeWithinDay (t + tz)) - tz)

/-! ## JavaScript values and plain objects -/

/-- The JavaScript values that the aggregation code can produce. -/
inductive JSVal where
  /-- The value `undefined`. -/
  | undefined
  /-- A finite number. -/
  | num (q : ℚ)
  /-- The number `NaN`. -/
  | nan
  /-- The numbers `Infinity` (`neg = false`) and `-Infinity`. -/
  | inf (neg : Bool)
  /-- A function inherited from `Object.prototype`, by property name. -/
  | builtin (name : String)
  /-- The object `Object.prototype`, the value of the inherited `__proto__`. -/
  | protoObject
  /-- A text made by `+` from the text of the inherited member `source`
  followed by the texts of the numbers `appended`, in order. -/
  | text (source : String) (appended : List ℚ)
  deriving DecidableEq, Repr

/-- The property names of `Object.prototype`. -/
def objectPrototypeKeys : List String :=
  ["constructor", "__defineGetter__", "__defineSetter__", "hasOwnProperty",
   "__lookupGetter__", "__lookupSetter__", "isPrototypeOf",
   "propertyIsEnumerable", "toString", "valueOf", "__proto__", "toLocaleString"]

/-- A plain object: its own properties in insertion order.  (JavaScript
enumerates keys that are array indices first; no statement below depends on the
order of the keys of an object with such keys.) -/
abbrev JSObject := List (String × JSVal)

/-- Writes an own property: in place when the key exists, else at the end. -/
def setOwn {κ α : Type} [DecidableEq κ] : List (κ × α) → κ → α → List (κ × α)
  | [], k, v => [(k, v)]
  | (k', v') :: rest, k, v =>
    if k' = k then (k, v) :: rest else (k', v') :: setOwn rest k v

/-- Reads an own property. -/
def getOwn {κ α : Type} [DecidableEq κ] : List (κ × α) → κ → Option α
  | [], _ => none
  | (k', v') :: rest, k => if k' = k then some v' else getOwn rest k

/-- A property read that reaches `Object.prototype`: the inherited member of
that name, else `undefined`. -/
def protoLookup (key : String) : JSVal :=
  if key = "__proto__" then JSVal.protoObject
  else if key ∈ objectPrototypeKeys then JSVal.builtin key
  else JSVal.undefined

/-- The read `obj[key]` on a plain object: an own property, else what
`Object.prototype` has under that name. -/
def JSObject.get (obj : JSObject) (key : String) : JSVal :=
  match getOwn obj key with
  | some v => v
  | none => protoLookup key

/-- The write `obj[key] = v` of a primitive value on a plain object.  The key
`__proto__` reaches the inherited setter, which ignores a primitive; any other
key becomes an own property. -/
def JSObject.set (obj : JSObject) (key : String) (v : JSVal) : JSObject :=
  if key = "__proto__" then obj else setOwn obj key v

/-- JavaScript `ToBoolean`. -/
def JSVal.truthy : JSVal → Bool
  | .undefined => false
  | .num q => q ≠ 0
  | .nan => false
  | .inf _ => true
  | .builtin _ => true
  | .protoObject => true
  | .text _ _ => true

/-- JavaScript `ToNumber`: the text of a function or of an object is not a
numeral. -/
def JSVal.toNumber : JSVal → JSVal
  | .num q => .num q
  | .inf s => .inf s
  | _ => .nan

/-- The expression `v + x` for a number `x`: numeric addition, or text
concatenation when `v` is an object, a function or a text. -/
def JSVal.addNum : JSVal → ℚ → JSVal
  | .undefined, _ => .nan
  | .num q, x => .num (q + x)
  | .nan, _ => .nan
  | .inf s, _ => .inf s
  | .builtin name, x => .text name [x]
  | .protoObject, x => .text "__proto__" [x]
  | .text source xs, x => .text source (xs ++ [x])

/-- The expression `a - b` after `ToNumber`. -/
def JSVal.sub (a b : JSVal) : JSVal :=
  match a.toNumber, b.toNumber with
  | .num x, .num y => .num (x - y)
  | .num _, .inf s => .inf (!s)
  | .inf s, .num _ => .inf s
  | .inf s, .inf s' => if s = s' then .nan else .inf s
  | _, _ => .nan

/-- The expression `a / b` after `ToNumber`; a zero divisor gives `NaN` or an
infinity. -/
def JSVal.div (a b : JSVal) : JSVal :=
  match a.toNumber, b.toNumber with
  | .num x, .num y =>
    if y = 0 then (if x = 0 then .nan else .inf (decide (x < 0))) else .num (x / y)
  | .num _, .inf _ => .num 0
  | .inf s, .num y => .inf (if y < 0 then !s else s)
  | _, _ => .nan

/-- The expression `a * b` after `ToNumber`. -/
def JSVal.mul (a b : JSVal) : JSVal :=
  match a.toNumber, b.toNumber with
  | .num x, .num y => .num (x * y)
  | .num x, .inf s => if x = 0 then .nan else .inf (if x < 0 then !s else s)
  | .inf s, .num y => if y = 0 then .nan else .inf (if y < 0 then !s else s)
  | .inf s, .inf s' => .inf (s != s')
  | _, _ => .nan

/-- The comparison `a > b` after `ToNumber`; it is false when a side is `NaN`. -/
def JSVal.gt (a b : JSVal) : Bool :=
  match a.toNumber, b.toNumber with
  | .num x, .num y => decide (y < x)
  | .num _, .inf s => s
  | .inf s, .num _ => !s
  | .inf s, .inf s' => !s && s'
  | _, _ => false

/-- The call `Math.max(a, b)`. -/
def JSVal.max (a b : JSVal) : JSVal :=
  match a.toNumber, b.toNumber with
  | .num x, .num y => .num (Max.max x y)
  | .num x, .inf s => if s then .num x else .inf false
  | .inf s, .num y => if s then .num y else .inf false
  | .inf s, .inf s' => .inf (s && s')
  | _, _ => .nan

/-- The expression `a || b`. -/
def JSVal.or (a b : JSVal) : JSVal := if a.truthy then a else b

/-- A `Set` built from a list: the distinct elements in order of first
insertion.  Its `size` is the length. -/
def jsSetAdd {α : Type} [DecidableEq α] (s : List α) (x : α) : List α :=
  if x ∈ s then s else s ++ [x]

/-- The call `new Set(xs)`. -/
def jsSet {α : Type} [DecidableEq α] (xs : List α) : List α :=
  xs.foldl jsSetAdd []

/-! ## Transactions and `getTransactionStats` -/

/-- The `type` of a transaction (`enum: ['expense', 'income']`). -/
inductive TransactionType where
  | income
  | expense
  deriving DecidableEq, Repr

/-- A transaction document, with the fields the statistics read. -/
structure Transaction where
  /-- The owner. -/
  userId : Nat
  /-- The amount of money. -/
  amount : ℚ
  /-- Income or expense. -/
  type : TransactionType
  /-- The category, free text. -/
  category : String
  /-- The time value of the `date`. -/
  date : Int
  deriving DecidableEq, Repr

/-- One element of the `dailySpending` array. -/
structure DailyEntry where
  /-- The day, as the text of an ISO date. -/
  date : IsoDate
  /-- The amount spent on that day. -/
  amount : ℚ
  deriving DecidableEq, Repr

/-- The `totals` object of the statistics. -/
structure Totals where
  /-- Total income. -/
  income : ℚ
  /-- Total expenses. -/
  expenses : ℚ
  /-- Income minus expenses. -/
  netSavings : ℚ
  /-- Net savings as a share of income, in percent. -/
  savingsRate : JSVal
  deriving DecidableEq, Repr

/-- The `data` object of the statistics response. -/
structure StatsData where
  /-- The totals. -/
  totals : Totals
  /-- Expense amount by category. -/
  categorySpending : JSObject
  /-- Expense amount by day, ascending. -/
  dailySpending : List DailyEntry
  /-- Days of the window without an expense. -/
  noSpendDays : Int
  /-- The size of `allDays`. -/
  daysInMonth : Nat
  /-- The size of `expenseDates`. -/
  expenseDays : Nat
  deriving DecidableEq, Repr

/-- The expenses: `transactions.filter(t => t.type === 'expense')`. -/
def expensesOf (transactions : List Transaction) : List Transaction :=
  transactions.filter (fun t => t.type = TransactionType.expense)

/-- The incomes: `transactions.filter(t => t.type === 'income')`. -/
def incomesOf (transactions : List Transaction) : List Transaction :=
  transactions.filter (fun t => t.type = TransactionType.income)

/-- The reduction `.reduce((sum, t) => sum + t.amount, 0)`. -/
def sumAmounts (ts : List Transaction) : ℚ :=
  ts.foldl (fun sum t => sum + t.amount) 0

/-- The reducer of `categorySpending`:
`if (!acc[category]) acc[category] = 0; acc[category] += transaction.amount`. -/
def categoryStep (acc : JSObject) (transaction : Transaction) : JSObject :=
  let category := transaction.category
  let acc1 := if !(acc.get category).truthy then acc.set category (JSVal.num 0) else acc
  acc1.set category ((acc1.get category).addNum transaction.amount)

/-- The object `categorySpending`. -/
def categorySpendingOf (transactions : List Transaction) : JSObject :=
  (expensesOf transactions).foldl categoryStep []

/-- The reducer of `dailySpending`:
`if (!acc[date]) acc[date] = 0; acc[date] += transaction.amount`.  The key is the
text of a date, which names no member of `Object.prototype`, so a read finds an
own property or `undefined`; `!acc[date]` holds for `undefined` and for 0.  The
sum is exact here; `dailyStepDouble` is the reducer with the sum rounded. -/
def dailyStep (acc : List (IsoDate × ℚ)) (transaction : Transaction) :
    List (IsoDate × ℚ) :=
  let date := isoDate transaction.date
  let acc1 :=
    match getOwn acc date with
    | none => setOwn acc date 0
    | some v => if v = 0 then setOwn acc date 0 else acc
  match getOwn acc1 date with
  | some v => setOwn acc1 date (v + transaction.amount)
  | none => acc1

/-- The object `dailySpending`, as its entries in insertion order. -/
def dailySpendingOf (transactions : List Transaction) : List (IsoDate × ℚ) :=
  (expensesOf transactions).foldl dailyStep []

/-- The array `dailySpendingArray`: the entries as `{ date, amount }`, sorted by
`new Date(a.date) - new Date(b.date)`. -/
def dailySpendingArrayOf (transactions : List Transaction) : List DailyEntry :=
  ((dailySpendingOf transactions).map (fun e => DailyEntry.mk e.1 e.2)).insertionSort
    (fun a b => parseIsoDate a.date ≤ parseIsoDate b.date)

/-- The set `expenseDates`. -/
def expenseDatesOf (transactions : List Transaction) : List IsoDate :=
  jsSet ((expensesOf transactions).map (fun t => isoDate t.date))

/-- The loop `while (currentDate < endDate) { allDays.add(...);
currentDate.setDate(currentDate.getDate() + 1) }`, for at most `fuel` rounds.
When `setDate` leaves an Invalid Date the next comparison is false. -/
def allDaysLoop (tz endDate : Int) : Nat → Int → List IsoDate → List IsoDate
  | 0, _, allDays => allDays
  | fuel + 1, currentDate, allDays =>
    if currentDate < endDate then
      let allDays1 := jsSetAdd allDays (isoDate currentDate)
      match setDateNext tz currentDate with
      | some next => allDaysLoop tz endDate fuel next allDays1
      | none => allDays1
    else allDays

/-- A number of rounds that the loop from `startDate` to `endDate` cannot
exceed: every round advances the date by a day. -/
def allDaysFuel (startDate endDate : Int) : Nat :=
  ((endDate - startDate) / msPerDay + 1).toNat

/-- The set `allDays`. -/
def allDaysOf (tz startDate endDate : Int) : List IsoDate :=
  allDaysLoop tz endDate (allDaysFuel startDate endDate) startDate []

/-- The body of `getTransactionStats` after the query (lines 233 to 304): the
`data` object computed from the window and the transactions found. -/
def transactionStats (tz startDate endDate : Int) (transactions : List Transaction) :
    StatsData :=
  let totalIncome := sumAmounts (incomesOf transactions)
  let totalExpenses := sumAmounts (expensesOf transactions)
  let netSavings := totalIncome - totalExpenses
  let categorySpending := categorySpendingOf transactions
  let dailySpendingArray := dailySpendingArrayOf transactions
  let expenseDates := expenseDatesOf transactions
  let allDays := allDaysOf tz startDate endDate
  let noSpendDays : Int := (allDays.length : Int) - (expenseDates.length : Int)
  { totals :=
      { income := totalIncome
        expenses := totalExpenses
        netSavings := netSavings
        savingsRate :=
          if totalIncome > 0 then
            ((JSVal.num netSavings).div (JSVal.num totalIncome)).mul (JSVal.num 100)
          else JSVal.num 0 }
    categorySpending := categorySpending
    dailySpending := dailySpendingArray
    noSpendDays := noSpendDays
    daysInMonth := allDays.length
    expenseDays := expenseDates.length }

/-- The handler `getTransactionStats` for a month and a year already parsed, on
the list `transactions` that the query returns.  The window is
`[new Date(year, month - 1, 1), new Date(year, month, 1))`; with an Invalid Date
as a bound the query is rejected and the handler answers 500 (`none`). -/
def getTransactionStats (tz currentMonth currentYear : Int)
    (transactions : List Transaction) : Option StatsData :=
  match newDate tz currentYear (currentMonth - 1) 1, newDate tz currentYear currentMonth 1 with
  | some startDate, some endDate => some (transactionStats tz startDate endDate transactions)
  | _, _ => none

/-! ## Budgets and `getBudgets` -/

/-- A budget document, with the fields the handlers read and write. -/
structure Budget where
  /-- The owner. -/
  userId : Nat
  /-- The category, free text. -/
  category : String
  /-- The budgeted amount. -/
  amount : ℚ
  /-- The month, 1 to 12. -/
  month : Int
  /-- The year. -/
  year : Int
  /-- The colour shown for the budget. -/
  color : String
  deriving DecidableEq, Repr

/-- One row of the aggregation `$group: { _id: '$category', totalSpent: ... }`. -/
structure ExpenseRow where
  /-- The category of the group. -/
  _id : String
  /-- The sum of the amounts of the group. -/
  totalSpent : ℚ
  deriving DecidableEq, Repr

/-- The plain object `expenseMap`; its own properties hold numbers. -/
abbrev ExpenseMap := List (String × ℚ)

/-- The read `expenseMap[key]`. -/
def ExpenseMap.get (obj : ExpenseMap) (key : String) : JSVal :=
  match getOwn obj key with
  | some v => JSVal.num v
  | none => protoLookup key

/-- The write `acc[key] = v` of a number; the key `__proto__` reaches the
inherited setter, which ignores a number. -/
def ExpenseMap.set (obj : ExpenseMap) (key : String) (v : ℚ) : ExpenseMap :=
  if key = "__proto__" then obj else setOwn obj key v

/-- The object `expenseMap`:
`expenses.reduce((acc, item) => { acc[item._id] = item.totalSpent; return acc }, {})`. -/
def expenseMapOf (expenses : List ExpenseRow) : ExpenseMap :=
  expenses.foldl (fun acc item => acc.set item._id item.totalSpent) []

/-- An element of `budgetsWithUsage`. -/
structure BudgetWithUsage where
  /-- The budget document (`...budget.toObject()`). -/
  budget : Budget
  /-- The amount spent in the category. -/
  spent : JSVal
  /-- What is left of the budget. -/
  remaining : JSVal
  /-- The share of the budget that is spent, in percent. -/
  usagePercent : JSVal
  /-- Whether more is spent than budgeted. -/
  isOverBudget : Bool
  deriving DecidableEq, Repr

/-- The callback of `budgets.map` (lines 46 to 59). -/
def budgetUsage (expenseMap : ExpenseMap) (budget : Budget) : BudgetWithUsage :=
  let spent := (expenseMap.get budget.category).or (JSVal.num 0)
  let remaining := ((JSVal.num budget.amount).sub spent).max (JSVal.num 0)
  let usagePercent :=
    if budget.amount > 0 then (spent.div (JSVal.num budget.amount)).mul (JSVal.num 100)
    else JSVal.num 0
  let isOverBudget := spent.gt (JSVal.num budget.amount)
  { budget := budget
    spent := spent
    remaining := remaining
    usagePercent := usagePercent
    isOverBudget := isOverBudget }

/-- The `summary` object of the budgets response. -/
structure BudgetSummary where
  /-- The sum of the budget amounts. -/
  totalBudget : ℚ
  /-- The sum of the values of `expenseMap`. -/
  totalSpent : ℚ
  /-- What is left of the total budget. -/
  totalRemaining : ℚ
  /-- The share of the total budget that is spent, in percent. -/
  overallUsage : JSVal
  deriving DecidableEq, Repr

/-- The `data` object of the budgets response. -/
structure BudgetsData where
  /-- The budgets with their usage. -/
  budgets : List BudgetWithUsage
  /-- The summary. -/
  summary : BudgetSummary
  deriving DecidableEq, Repr

/-- The body of `getBudgets` after the two queries (lines 40 to 76), on the
budgets found and the rows of the expense aggregation. -/
def getBudgets (budgets : List Budget) (expenses : List ExpenseRow) : BudgetsData :=
  let expenseMap := expenseMapOf expenses
  let budgetsWithUsage := budgets.map (budgetUsage expenseMap)
  let totalBudget := budgets.foldl (fun sum budget => sum + budget.amount) 0
  let totalSpent := (expenseMap.map (fun e => e.2)).foldl (fun sum amount => sum + amount) 0
  { budgets := budgetsWithUsage
    summary :=
      { totalBudget := totalBudget
        totalSpent := totalSpent
        totalRemaining := Max.max (totalBudget - totalSpent) 0
        overallUsage :=
          if totalBudget > 0 then
            ((JSVal.num totalSpent).div (JSVal.num totalBudget)).mul (JSVal.num 100)
          else JSVal.num 0 } }

/-! ## Reference notions used in the statements -/

/-- The sum of the amounts of a list of transactions. -/
def amountSum (ts : List Transaction) : ℚ := (ts.map (fun t => t.amount)).sum

/-- The expenses of a category. -/
def expensesOfCategory (category : String) (transactions : List Transaction) :
    List Transaction :=
  transactions.filter
    (fun t => decide (t.type = TransactionType.expense) && decide (t.category = category))

/-- The expenses of a UTC day. -/
def expensesOfDay (day : IsoDate) (transactions : List Transaction) : List Transaction :=
  transactions.filter
    (fun t => decide (t.type = TransactionType.expense) && decide (isoDate t.date = day))

/-- The numeric values among the values of an object; a value that is not a
finite number contributes nothing. -/
def numericValues (obj : JSObject) : List ℚ :=
  obj.filterMap (fun e => match e.2 with | JSVal.num q => some q | _ => none)

/-- Leap years of the Gregorian calendar. -/
def isLeapYear (y : Int) : Bool :=
  (y % 4 = 0 ∧ y % 100 ≠ 0) ∨ y % 400 = 0

/-- The number of days of month `m` (1 to 12) of year `y`. -/
def daysInCalendarMonth (y m : Int) : Nat :=
  if m = 2 then (if isLeapYear y then 29 else 28)
  else if m = 4 ∨ m = 6 ∨ m = 9 ∨ m = 11 then 30
  else 31

/-- The year that the `Date` constructor gives to a year argument. -/
def fullYear (year : Int) : Int :=
  if 0 ≤ year ∧ year ≤ 99 then 1900 + year else year

/-- The number of rounds of a loop that starts at `startDate`, advances by one
day, and runs while the date is before `endDate`. -/
def windowDayCount (startDate endDate : Int) : Nat :=
  if startDate < endDate then ((endDate - startDate - 1) / msPerDay + 1).toNat else 0

/-- Adds `x` to the value under key `k`, creating the key with value `x` when it
is absent. -/
def groupAdd {κ : Type} [DecidableEq κ] (acc : List (κ × ℚ)) (k : κ) (x : ℚ) :
    List (κ × ℚ) :=
  setOwn acc k ((getOwn acc k).getD 0 + x)

/-- Sums `val` by `key`, keys in order of first occurrence. -/
def groupSums {τ κ : Type} [DecidableEq κ] (key : τ → κ) (val : τ → ℚ) (ts : List τ) :
    List (κ × ℚ) :=
  ts.foldl (fun acc t => groupAdd acc (key t) (val t)) []

/-- The sum of `val` over the elements with a given key. -/
def sumWithKey {τ κ : Type} [DecidableEq κ] (key : τ → κ) (val : τ → ℚ) (k : κ)
    (ts : List τ) : ℚ :=
  ((ts.filter (fun t => decide (key t = k))).map val).sum

/-- Scenario A of the specification, with the three transactions at the times
`t1`, `t2` and `t3`: an income of 100, an expense of 40 in Food, an expense of
20 in Food. -/
def scenarioAOn (t1 t2 t3 : Int) : List Transaction :=
  [Transaction.mk 1 100 TransactionType.income "Salary" t1,
   Transaction.mk 1 40 TransactionType.expense "Food" t2,
   Transaction.mk 1 20 TransactionType.expense "Food" t3]

/-- Scenario A with the transactions at midnight UTC of 2024-01-01, 2024-01-01
and 2024-01-03. -/
def scenarioA : List Transaction :=
  scenarioAOn (MakeDate (MakeDay 2024 0 1) 0) (MakeDate (MakeDay 2024 0 1) 0)
    (MakeDate (MakeDay 2024 0 3) 0)

/-- The days that the loop adds from `cur` on: one per round, consecutive. -/
def loopDays (cur endDate : Int) : List IsoDate :=
  (List.range (windowDayCount cur endDate)).map (fun i : Nat => isoDate cur + (i : Int))

/-- The order of the comparator of `dailySpendingArray`. -/
def dailyLe (a b : DailyEntry) : Prop := parseIsoDate a.date ≤ parseIsoDate b.date

instance dailyLe_decidable : DecidableRel dailyLe := fun a b =>
  inferInstanceAs (Decidable (parseIsoDate a.date ≤ parseIsoDate b.date))

instance dailyLe_total : IsTotal DailyEntry dailyLe :=
  ⟨fun a b => le_total (parseIsoDate a.date) (parseIsoDate b.date)⟩

instance dailyLe_trans : IsTrans DailyEntry dailyLe :=
  ⟨fun _ _ _ h1 h2 => le_trans h1 h2⟩

/-- An object whose own properties are the numbers of `acc`. -/
def liftNum (acc : List (String × ℚ)) : JSObject :=
  acc.map (fun e => (e.1, JSVal.num e.2))

/-! ## Calendar fields of a time value -/

/-- ECMAScript `YearFromTime(t)`: the year `y` with
`DayFromYear y ≤ Day t < DayFromYear (y + 1)`, found from the estimate
`1970 + Day t / 365.2425`, which is off by at most one. -/
def YearFromTime (t : Int) : Int :=
  let d := Day t
  let y := 1970 + (d * 400) / 146097
  if DayFromYear (y + 1) ≤ d then y + 1
  else if DayFromYear y ≤ d then y
  else y - 1

/-- ECMAScript `DayWithinYear(t)`. -/
def DayWithinYear (t : Int) : Int := Day t - DayFromYear (YearFromTime t)

/-- ECMAScript `MonthFromTime(t)`, 0 for January. -/
def MonthFromTime (t : Int) : Int :=
  let d := DayWithinYear t
  let leap := InLeapYear (YearFromTime t)
  if d < 31 then 0
  else if d < 59 + leap then 1
  else if d < 90 + leap then 2
  else if d < 120 + leap then 3
  else if d < 151 + leap then 4
  else if d < 181 + leap then 5
  else if d < 212 + leap then 6
  else if d < 243 + leap then 7
  else if d < 273 + leap then 8
  else if d < 304 + leap then 9
  else if d < 334 + leap then 10
  else 11

/-- The call `Math.ceil(x / d)` for integers `x` and `d > 0`, with the quotient
taken exactly. -/
def ceilDiv (x d : Int) : Int := -((-x) / d)

/-- The call `Math.round(x)`: the nearest integer, a half rounding up.  The
factor `1.1` of the recommendations is the rational 11/10. -/
def jsRound (x : ℚ) : Int := Int.floor (x + 1 / 2)

/-- The comparison `a <= b` after `ToNumber`; it is false when a side is `NaN`. -/
def JSVal.le (a b : JSVal) : Bool :=
  match a.toNumber, b.toNumber with
  | .num x, .num y => decide (x ≤ y)
  | .num _, .inf s => !s
  | .inf s, .num _ => s
  | .inf s, .inf s' => s || !s'
  | _, _ => false

/-- The call `Math.min(a, b)`. -/
def JSVal.min (a b : JSVal) : JSVal :=
  match a.toNumber, b.toNumber with
  | .num x, .num y => .num (Min.min x y)
  | .num x, .inf s => if s then .inf true else .num x
  | .inf s, .num y => if s then .inf true else .num y
  | .inf s, .inf s' => .inf (s || s')
  | _, _ => .nan

/-! ## Aggregation stages -/

/-- The stage `$group` of an aggregation: one group per distinct key, with the
rows of that key.  (The order of the groups is not specified by the database;
they are listed by first occurrence.) -/
def mongoGroup {τ κ : Type} [DecidableEq κ] (key : τ → κ) (rows : List τ) :
    List (κ × List τ) :=
  (jsSet (rows.map key)).map (fun k => (k, rows.filter (fun r => decide (key r = k))))

/-- The accumulator `$avg` over a group. -/
def mongoAvg (xs : List ℚ) : ℚ := xs.sum / (xs.length : ℚ)

/-! ## Savings goal: `getSavingsGoal` and `getSavingsProgress` -/

/-- A savings goal document, with the fields the handlers read and write. -/
structure SavingsGoal where
  /-- The owner; one goal per user. -/
  userId : Nat
  /-- The amount to reach. -/
  goalAmount : ℚ
  /-- The amount saved so far. -/
  currentAmount : ℚ
  /-- The time value of the target date. -/
  targetDate : Int
  /-- Whether the goal has been reached. -/
  isCompleted : Bool
  deriving DecidableEq, Repr

/-- The query `SavingsGoal.findOne({ userId })`. -/
def findGoal (goals : List SavingsGoal) (userId : Nat) : Option SavingsGoal :=
  goals.find? (fun g => decide (g.userId = userId))

/-- Writes a goal document back in place of the stored one of its user. -/
def replaceGoal : List SavingsGoal → SavingsGoal → List SavingsGoal
  | [], _ => []
  | g :: rest, g' => if g.userId = g'.userId then g' :: rest else g :: replaceGoal rest g'

/-- The schema hook `pre('save')`: a goal whose current amount reaches the goal
amount is marked completed.  (The timestamp `updatedAt` is not modelled.) -/
def preSave (goal : SavingsGoal) : SavingsGoal :=
  if goal.currentAmount ≥ goal.goalAmount then { goal with isCompleted := true } else goal

/-- One row of the aggregation `$group: { _id: '$type', total: { $sum: '$amount' } }`. -/
structure TypeTotal where
  /-- The type of the group. -/
  _id : TransactionType
  /-- The sum of the amounts of the group. -/
  total : ℚ
  deriving DecidableEq, Repr

/-- The aggregation `savingsData`: the transactions of the user dated at or
after `startOfYear`, summed by type. -/
def savingsDataOf (transactions : List Transaction) (userId : Nat) (startOfYear : Int) :
    List TypeTotal :=
  (mongoGroup (fun t : Transaction => t.type)
      (transactions.filter (fun t => decide (t.userId = userId) && decide (startOfYear ≤ t.date)))).map
    (fun g => TypeTotal.mk g.1 (g.2.map (fun t => t.amount)).sum)

/-- The expression `savingsData.find(d => d._id === type)?.total || 0`: 0 stands
in for a missing row (and for a total of 0). -/
def totalOfType (savingsData : List TypeTotal) (type : TransactionType) : ℚ :=
  match savingsData.find? (fun d => decide (d._id = type)) with
  | some d => d.total
  | none => 0

/-- The `data` object of the savings response: the goal document and the derived
fields. -/
structure SavingsGoalData where
  /-- The saved document (`...savingsGoal.toObject()`). -/
  goal : SavingsGoal
  /-- The share of the goal that is reached, in percent. -/
  progress : JSVal
  /-- Days left until the target date. -/
  daysRemaining : Int
  /-- What is missing to the goal. -/
  amountNeeded : ℚ
  /-- What has to be saved per day. -/
  dailySavingsNeeded : JSVal
  /-- Whether the required pace is within the pace so far. -/
  isOnTrack : Bool
  deriving DecidableEq, Repr

/-- The value `currentSavings` of `getSavingsGoal` (lines 38 to 40). -/
def currentSavingsOf (transactions : List Transaction) (userId : Nat) (startOfYear : Int) : ℚ :=
  let savingsData := savingsDataOf transactions userId startOfYear
  let income := totalOfType savingsData TransactionType.income
  let expenses := totalOfType savingsData TransactionType.expense
  Max.max (income - expenses) 0

/-- The goal document after lines 42 to 48 of `getSavingsGoal`: the current amount
is overwritten and the goal is completed when reached. -/
def updatedGoal (currentSavings : ℚ) (savingsGoal : SavingsGoal) : SavingsGoal :=
  let goal1 := { savingsGoal with currentAmount := currentSavings }
  if currentSavings ≥ goal1.goalAmount then { goal1 with isCompleted := true } else goal1

/-- The response data of `getSavingsGoal` (lines 52 to 73) for the saved goal, at
the time `now` of `new Date()`, with exact differences and quotients.  The flag
`isOnTrack` with the difference and the two quotients rounded, as the handler
compares them, is `isOnTrackDouble`. -/
def savingsGoalData (now : Int) (currentSavings : ℚ) (savingsGoal : SavingsGoal) :
    SavingsGoalData :=
  let progress :=
    if savingsGoal.goalAmount > 0 then
      ((JSVal.num savingsGoal.currentAmount).div (JSVal.num savingsGoal.goalAmount)).mul
        (JSVal.num 100)
    else JSVal.num 0
  let daysRemaining := ceilDiv (savingsGoal.targetDate - now) (1000 * 60 * 60 * 24)
  let amountNeeded := Max.max (savingsGoal.goalAmount - savingsGoal.currentAmount) 0
  let dailySavingsNeeded :=
    if daysRemaining > 0 then (JSVal.num amountNeeded).div (JSVal.num (daysRemaining : ℚ))
    else JSVal.num amountNeeded
  { goal := savingsGoal
    progress := progress.min (JSVal.num 100)
    daysRemaining := Max.max daysRemaining 0
    amountNeeded := amountNeeded
    dailySavingsNeeded := dailySavingsNeeded.max (JSVal.num 0)
    isOnTrack :=
      dailySavingsNeeded.le
        ((JSVal.num currentSavings).div (JSVal.num ((Max.max daysRemaining 1 : Int) : ℚ))) }

/-- The time value of
`startOfYear = new Date(currentDate.getFullYear(), 0, 1)` for `currentDate` at
`now`. -/
def startOfYearOf (tz now : Int) : Option Int :=
  newDate tz (YearFromTime (now + tz)) 0 1

/-- The handler `getSavingsGoal` at the time `now`, with `startOfYear` the time
value of the start of the current year: the new store of goals and the `data` of
the response (`none` for `data: null`, when the user has no goal).  The call
`savingsGoal.save()` runs the hook and writes the document back; stored goals
have passed the schema validators, which the overwritten amount passes too.  The
pipeline matches on `req.user._id`, which names the user of `req.user.id`. -/
def getSavingsGoal (now startOfYear : Int) (goals : List SavingsGoal)
    (transactions : List Transaction) (userId : Nat) :
    List SavingsGoal × Option SavingsGoalData :=
  match findGoal goals userId with
  | none => (goals, none)
  | some savingsGoal =>
    let currentSavings := currentSavingsOf transactions userId startOfYear
    let saved := preSave (updatedGoal currentSavings savingsGoal)
    (replaceGoal goals saved, some (savingsGoalData now currentSavings saved))

/-- A sequence of calls of `getSavingsGoal` by one user, each with its time, its
start of year and the transactions stored at that time. -/
def getSavingsGoalCalls (userId : Nat) :
    List (Int × Int × List Transaction) → List SavingsGoal → List SavingsGoal
  | [], goals => goals
  | (now, startOfYear, transactions) :: rest, goals =>
    getSavingsGoalCalls userId rest
      (getSavingsGoal now startOfYear goals transactions userId).1

/-- One row of the aggregation `monthlySavings`:
`{ period: { year, month }, savings }`. -/
structure MonthlySavingsRow where
  /-- The field `period.year`. -/
  year : Int
  /-- The field `period.month`. -/
  month : Int
  /-- Income minus expenses of the month. -/
  savings : ℚ
  deriving DecidableEq, Repr

/-- One element of `progressData`. -/
structure ProgressEntry where
  /-- The year. -/
  year : Int
  /-- The month. -/
  month : Int
  /-- The savings of the month. -/
  savings : ℚ
  /-- The running total, not below 0. -/
  cumulativeSavings : ℚ
  /-- The share of the goal that is reached, in percent. -/
  progress : JSVal
  deriving DecidableEq, Repr

/-- The callback of `monthlySavings.map` with the variable `cumulative` threaded
through (lines 286 to 297). -/
def progressDataFrom (goalAmount : ℚ) : ℚ → List MonthlySavingsRow → List ProgressEntry
  | _, [] => []
  | cumulative, month :: rest =>
    let cumulative1 := cumulative + month.savings
    { year := month.year
      month := month.month
      savings := month.savings
      cumulativeSavings := Max.max cumulative1 0
      progress :=
        if goalAmount > 0 then
          (((JSVal.num (Max.max cumulative1 0)).div (JSVal.num goalAmount)).mul
            (JSVal.num 100)).min (JSVal.num 100)
        else JSVal.num 0 } :: progressDataFrom goalAmount cumulative1 rest

/-- The handler `getSavingsProgress` on the rows `monthlySavings` of the
aggregation: the `data` of the response. -/
def getSavingsProgress (goals : List SavingsGoal) (userId : Nat)
    (monthlySavings : List MonthlySavingsRow) : List ProgressEntry :=
  match findGoal goals userId with
  | none => []
  | some savingsGoal => progressDataFrom savingsGoal.goalAmount 0 monthlySavings

/-! ## Budget recommendations: `getBudgetRecommendations` -/

/-- The bounds `threeMonthsAgo` and `endDate` of the window of
`getBudgetRecommendations`. -/
def recommendationWindow (tz currentMonth currentYear : Int) : Option Int × Option Int :=
  (newDate tz currentYear (currentMonth - 4) 1, newDate tz currentYear currentMonth 1)

/-- The stage `$match` of the recommendations: the expenses of the user in the
window. -/
def matchedExpenses (threeMonthsAgo endDate : Int) (transactions : List Transaction)
    (userId : Nat) : List Transaction :=
  transactions.filter (fun t =>
    decide (t.userId = userId) && decide (t.type = TransactionType.expense)
      && decide (threeMonthsAgo ≤ t.date) && decide (t.date < endDate))

/-- The key of the first `$group`:
`{ category: '$category', month: { $month: '$date' }, year: { $year: '$date' } }`,
the month from 1 to 12, both in UTC. -/
def monthlyKey (t : Transaction) : String × Int × Int :=
  (t.category, MonthFromTime t.date + 1, YearFromTime t.date)

/-- One row of the first `$group`. -/
structure MonthlySpentRow where
  /-- The key `{ category, month, year }`. -/
  _id : String × Int × Int
  /-- The sum of the amounts of the group. -/
  monthlySpent : ℚ
  deriving DecidableEq, Repr

/-- One row of the second `$group`. -/
structure AverageRow where
  /-- The category. -/
  _id : String
  /-- The average of the monthly sums of the category. -/
  avgSpending : ℚ
  deriving DecidableEq, Repr

/-- The rows of the first `$group`: the sum of the amounts by category, month and
year. -/
def monthlySpentRows (expenses : List Transaction) : List MonthlySpentRow :=
  (mongoGroup monthlyKey expenses).map
    (fun g => MonthlySpentRow.mk g.1 (g.2.map (fun t => t.amount)).sum)

/-- The aggregation `averageSpending`: the average of the monthly sums by
category. -/
def averageSpendingOf (expenses : List Transaction) : List AverageRow :=
  (mongoGroup (fun r : MonthlySpentRow => r._id.1) (monthlySpentRows expenses)).map
    (fun g => AverageRow.mk g.1 (mongoAvg (g.2.map (fun r => r.monthlySpent))))

/-- One element of `recommendations`. -/
structure Recommendation where
  /-- The category. -/
  category : String
  /-- The average with a buffer of 10%, rounded. -/
  recommendedAmount : Int
  /-- The average of the monthly sums. -/
  historicalAverage : ℚ
  deriving DecidableEq, Repr

/-- The body of `getBudgetRecommendations` after the bounds of the window (lines
194 to 225). -/
def budgetRecommendations (threeMonthsAgo endDate : Int) (transactions : List Transaction)
    (userId : Nat) : List Recommendation :=
  (averageSpendingOf (matchedExpenses threeMonthsAgo endDate transactions userId)).map
    (fun item =>
      { category := item._id
        recommendedAmount := jsRound (item.avgSpending * (11 / 10))
        historicalAverage := item.avgSpending })

/-! ## Transactions and budgets by id -/

/-- A stored document: its `_id`, a well-formed object id, and its fields. -/
structure Stored (α : Type) where
  /-- The identifier. -/
  _id : Nat
  /-- The fields. -/
  fields : α
  deriving DecidableEq, Repr

/-- A response: 200 with data, or a status with a message. -/
inductive Response (α : Type) where
  /-- The response `res.json({ success: true, data })`. -/
  | success (data : α)
  /-- The response `res.status(status).json({ success: false, message })`. -/
  | failure (status : Nat) (message : String)
  deriving DecidableEq, Repr

/-- The body of an update request: the fields it carries. -/
structure UpdateBody where
  /-- The field `userId`. -/
  userId : Option Nat
  /-- The field `amount`. -/
  amount : Option ℚ
  /-- The field `type`. -/
  type : Option TransactionType
  /-- The field `category`. -/
  category : Option String
  /-- The field `date`. -/
  date : Option Int
  deriving DecidableEq, Repr

/-- The query `findOne({ _id: id, userId })`. -/
def findOwned {α : Type} (owner : α → Nat) (store : List (Stored α)) (id userId : Nat) :
    Option (Stored α) :=
  store.find? (fun d => decide (d._id = id) && decide (owner d.fields = userId))

/-- The call `findByIdAndDelete(id)`: removes the document of that id. -/
def deleteById {α : Type} : List (Stored α) → Nat → List (Stored α)
  | [], _ => []
  | d :: rest, id => if d._id = id then rest else d :: deleteById rest id

/-- The fields of a transaction after `$set` of the fields of the body. -/
def applyUpdate (body : UpdateBody) (t : Transaction) : Transaction :=
  { userId := body.userId.getD t.userId
    amount := body.amount.getD t.amount
    type := body.type.getD t.type
    category := body.category.getD t.category
    date := body.date.getD t.date }

/-- The update validators (`runValidators: true`) on the fields of the body: the
amount is at least 0.01 and the category is not empty. -/
def validUpdate (body : UpdateBody) : Bool :=
  (match body.amount with
    | some a => decide ((1 : ℚ) / 100 ≤ a)
    | none => true)
  && (match body.category with
    | some c => decide (c ≠ "")
    | none => true)

/-- The call `findByIdAndUpdate(id, body, { new: true, runValidators: true })` on
a store: the new store and the updated document, if there is one of that id. -/
def updateById : List (Stored Transaction) → Nat → UpdateBody →
    List (Stored Transaction) × Option (Stored Transaction)
  | [], _, _ => ([], none)
  | d :: rest, id, body =>
    if d._id = id then
      (Stored.mk d._id (applyUpdate body d.fields) :: rest,
        some (Stored.mk d._id (applyUpdate body d.fields)))
    else ((d :: (updateById rest id body).1), (updateById rest id body).2)

/-- The handler `getTransaction`. -/
def getTransaction (store : List (Stored Transaction)) (userId id : Nat) :
    Response (Stored Transaction) :=
  match findOwned (fun t : Transaction => t.userId) store id userId with
  | none => Response.failure 404 "Transaction not found"
  | some transaction => Response.success transaction

/-- The handler `updateTransaction`: the new store and the response.  A body that
fails validation makes the update throw, which is answered with 500. -/
def updateTransaction (store : List (Stored Transaction)) (userId id : Nat)
    (body : UpdateBody) :
    List (Stored Transaction) × Response (Option (Stored Transaction)) :=
  match findOwned (fun t : Transaction => t.userId) store id userId with
  | none => (store, Response.failure 404 "Transaction not found")
  | some _ =>
    if validUpdate body then
      ((updateById store id body).1, Response.success (updateById store id body).2)
    else (store, Response.failure 500 "Error updating transaction")

/-- The handler `deleteTransaction`: the new store and the response. -/
def deleteTransaction (store : List (Stored Transaction)) (userId id : Nat) :
    List (Stored Transaction) × Response Unit :=
  match findOwned (fun t : Transaction => t.userId) store id userId with
  | none => (store, Response.failure 404 "Transaction not found")
  | some _ => (deleteById store id, Response.success ())

/-- The handler `deleteBudget`: the new store and the response. -/
def deleteBudget (store : List (Stored Budget)) (userId id : Nat) :
    List (Stored Budget) × Response Unit :=
  match findOwned (fun b : Budget => b.userId) store id userId with
  | none => (store, Response.failure 404 "Budget not found")
  | some _ => (deleteById store id, Response.success ())

/-! ## Reference notions for the savings and recommendation statements -/

/-- The running total that is clamped at 0 after every step:
`r 0 = 0`, `r k = max (r (k - 1) + d k) 0`. -/
def clampedRunning : ℚ → List ℚ → List ℚ
  | _, [] => []
  | r, d :: rest => Max.max (r + d) 0 :: clampedRunning (Max.max (r + d) 0) rest

/-- The transactions of a user, of a type, dated at or after a time. -/
def transactionsSince (transactions : List Transaction) (userId : Nat)
    (type : TransactionType) (since : Int) : List Transaction :=
  transactions.filter (fun t =>
    decide (t.userId = userId) && decide (t.type = type) && decide (since ≤ t.date))

/-- The months, as `(month, year)`, in which a category has an expense. -/
def monthsOfCategory (category : String) (expenses : List Transaction) : Finset (Int × Int) :=
  ((expenses.filter (fun t => decide (t.category = category))).map
    (fun t => (MonthFromTime t.date + 1, YearFromTime t.date))).toFinset

/-- The sum of the expenses of a category in a month. -/
def monthlySumOf (category : String) (month : Int × Int) (expenses : List Transaction) : ℚ :=
  ((expenses.filter (fun t => decide (monthlyKey t = (category, month.1, month.2)))).map
    (fun t => t.amount)).sum

/-- The keys of a category among the groups of the first stage. -/
def keysOfCategory (c : String) (expenses : List Transaction) : List (String × Int × Int) :=
  (jsSet (expenses.map monthlyKey)).filter (fun k => decide (k.1 = c))

/-! ## Budgets: `setBudget` -/

/-- A numeric field of a request body, by what a handler observes of the raw
value: its truth value (`!field` is its negation) and the result of
`parseFloat(field)` or `parseInt(field)`, with `none` for `NaN`.  (A field that
parses to an infinity is not modelled.) -/
structure RawNumber (α : Type) where
  /-- The truth value of the raw value. -/
  truthy : Bool
  /-- The number parsed from the raw value. -/
  parsed : Option α
  deriving DecidableEq, Repr

/-- A field sent as the JSON number `q`: the number 0 is falsy. -/
def RawNumber.ofNumber {α : Type} [DecidableEq α] [Zero α] (q : α) : RawNumber α :=
  { truthy := decide (q ≠ 0), parsed := some q }

/-- A field sent as the JSON string `s`, with the number that the parsing
function of the language reads from `s`: only the empty string is falsy. -/
def RawNumber.ofText {α : Type} (s : String) (value : Option α) : RawNumber α :=
  { truthy := decide (s ≠ ""), parsed := value }

/-- A field that is absent from the body. -/
def RawNumber.missing {α : Type} : RawNumber α := { truthy := false, parsed := none }

/-- The body of `POST /api/budgets`.  The category is a text, the empty text also
standing for an absent one; the colour is optional. -/
structure BudgetRequest where
  /-- The category. -/
  category : String
  /-- The amount. -/
  amount : RawNumber ℚ
  /-- The month. -/
  month : RawNumber Int
  /-- The year. -/
  year : RawNumber Int
  /-- The colour, when given. -/
  color : Option String
  deriving DecidableEq, Repr

/-- The fields of the unique index of the budget collection. -/
def budgetKey (b : Budget) : Nat × String × Int × Int := (b.userId, b.category, b.month, b.year)

/-- The validators of the budget schema on the fields of the update. -/
def validBudgetFields (amount : ℚ) (month year : Int) : Bool :=
  decide (0 ≤ amount) && decide (1 ≤ month) && decide (month ≤ 12) &&
    decide (2020 ≤ year) && decide (year ≤ 2030)

/-- The expression `color || '#667eea'`. -/
def colorOrDefault (color : Option String) : String :=
  match color with
  | some c => if c = "" then "#667eea" else c
  | none => "#667eea"

/-- The call `Budget.findOneAndUpdate(filter, update, { new: true, upsert: true })`
where `update` carries every field of `budget` and `filter` its key: the first
document with that key gets the fields, and when there is none a document with
the identifier `newId` is inserted.  The result is the new store and the document
as it is after the update. -/
def upsertBudget : List (Stored Budget) → Budget → Nat → List (Stored Budget) × Stored Budget
  | [], budget, newId => ([Stored.mk newId budget], Stored.mk newId budget)
  | d :: rest, budget, newId =>
    if budgetKey d.fields = budgetKey budget then
      (Stored.mk d._id budget :: rest, Stored.mk d._id budget)
    else
      let r := upsertBudget rest budget newId
      (d :: r.1, r.2)

/-- The handler `setBudget` for the user `userId`; `newId` is the identifier that
an inserted document gets.  A field that parses to `NaN` cannot be cast and a
field that fails a validator is refused by the update, both with status 500. -/
def setBudget (store : List (Stored Budget)) (userId : Nat) (req : BudgetRequest)
    (newId : Nat) : List (Stored Budget) × Response (Stored Budget) :=
  if req.category = "" ∨ req.amount.truthy = false ∨ req.month.truthy = false ∨
      req.year.truthy = false then
    (store, Response.failure 400 "Category, amount, month, and year are required")
  else
    match req.amount.parsed, req.month.parsed, req.year.parsed with
    | some amount, some month, some year =>
      if validBudgetFields amount month year then
        let r := upsertBudget store
          (Budget.mk userId req.category amount month year (colorOrDefault req.color)) newId
        (r.1, Response.success r.2)
      else (store, Response.failure 500 "Error setting budget")
    | _, _, _ => (store, Response.failure 500 "Error setting budget")

/-- The keys of the stored budgets. -/
def budgetKeys (store : List (Stored Budget)) : List (Nat × String × Int × Int) :=
  store.map (fun d => budgetKey d.fields)

/-! ## Listing transactions: `getTransactions` and the Export page -/

/-- The query string of `GET /api/transactions`.  The handler reads `month`,
`year`, `type`, `category`, `page` and `limit`; the Export page sends `startDate`
and `endDate`.  The month and the year are numerals; the category filter is given
by the test of the regular expression `new RegExp(category, 'i')`. -/
structure TransactionsQuery where
  /-- The parameter `month`. -/
  month : Option Int
  /-- The parameter `year`. -/
  year : Option Int
  /-- The parameter `type`. -/
  type : Option String
  /-- The test of the pattern of the parameter `category`. -/
  category : Option (String → Bool)
  /-- The parameter `page`, parsed; 1 when absent. -/
  page : Nat
  /-- The parameter `limit`, parsed; 50 when absent. -/
  limit : Nat
  /-- The parameter `startDate`. -/
  startDate : Option IsoDate
  /-- The parameter `endDate`. -/
  endDate : Option IsoDate

/-- The body of the response of `getTransactions`. -/
structure TransactionsPage where
  /-- The number of transactions on the page. -/
  count : Nat
  /-- The number of transactions that match the query. -/
  total : Nat
  /-- The transactions of the page. -/
  data : List (Stored Transaction)
  deriving DecidableEq, Repr

/-- The name of a transaction type in a query. -/
def TransactionType.name : TransactionType → String
  | TransactionType.income => "income"
  | TransactionType.expense => "expense"

/-- The filter `query` that `getTransactions` builds (lines 12 to 29), as a test
on a stored transaction; `none` when a bound of the month window is an Invalid
Date, which the database layer refuses. -/
def transactionsFilter (tz : Int) (userId : Nat) (q : TransactionsQuery) :
    Option (Stored Transaction → Bool) :=
  let byType : Stored Transaction → Bool :=
    match q.type with
    | some type =>
      if type ∈ ["income", "expense"] then fun d => decide (d.fields.type.name = type)
      else fun _ => true
    | none => fun _ => true
  let byCategory : Stored Transaction → Bool :=
    match q.category with
    | some test => fun d => test d.fields.category
    | none => fun _ => true
  match q.month, q.year with
  | some month, some year =>
    match newDate tz year (month - 1) 1, newDate tz year month 1 with
    | some startDate, some endDate =>
      some (fun d => decide (d.fields.userId = userId) &&
        (decide (startDate ≤ d.fields.date) && decide (d.fields.date < endDate)) &&
        byType d && byCategory d)
    | _, _ => none
  | _, _ => some (fun d => decide (d.fields.userId = userId) && byType d && byCategory d)

/-- The handler `getTransactions` (lines 7 to 62): the matching transactions,
latest first, cut to the page.  A page 0 asks for a negative skip, which the
database refuses, as it refuses an Invalid Date (status 500); a limit 0 sets no
limit. -/
def getTransactions (tz : Int) (store : List (Stored Transaction)) (userId : Nat)
    (q : TransactionsQuery) : Response TransactionsPage :=
  match transactionsFilter tz userId q with
  | none => Response.failure 500 "Error fetching transactions"
  | some query =>
    if q.page = 0 then Response.failure 500 "Error fetching transactions"
    else
      let found := (store.filter query).insertionSort (fun a b => b.fields.date ≤ a.fields.date)
      let skipped := found.drop ((q.page - 1) * q.limit)
      let transactions := if q.limit = 0 then skipped else skipped.take q.limit
      Response.success
        { count := transactions.length, total := (store.filter query).length, data := transactions }

/-- The request of `exportToCSV` and of `exportToJSON`:
`transactionAPI.getAll({ startDate, endDate })`. -/
def exportQuery (startDate endDate : IsoDate) : TransactionsQuery :=
  { month := none, year := none, type := none, category := none, page := 1, limit := 50,
    startDate := some startDate, endDate := some endDate }

/-- The transactions that the Export page writes to the file
`spend_log_<startDate>_to_<endDate>`: the `data` of the response, and nothing when
the request fails. -/
def exportedTransactions (tz : Int) (store : List (Stored Transaction)) (userId : Nat)
    (startDate endDate : IsoDate) : List (Stored Transaction) :=
  match getTransactions tz store userId (exportQuery startDate endDate) with
  | Response.success page => page.data
  | Response.failure _ _ => []

/-! ## Savings goal: `setSavingsGoal` and `updateSavingsGoal` -/

/-- The body of `POST /api/savings`, with a valid name: the goal amount and the
time value of the target date (`none` when absent). -/
structure GoalRequest where
  /-- The goal amount. -/
  goalAmount : RawNumber ℚ
  /-- The target date. -/
  targetDate : Option Int
  deriving DecidableEq, Repr

/-- The call `SavingsGoal.findOneAndUpdate({ userId }, goal, { upsert: true })`. -/
def upsertGoal : List SavingsGoal → SavingsGoal → List SavingsGoal
  | [], goal => [goal]
  | g :: rest, goal => if g.userId = goal.userId then goal :: rest else g :: upsertGoal rest goal

/-- The handler `setSavingsGoal`: the goal of the user is created or replaced,
with the current amount 0 and not completed; the answer has status 201.  An
amount that is `NaN` or below the minimum 1 of the schema is refused by the
update (status 500). -/
def setSavingsGoal (goals : List SavingsGoal) (userId : Nat) (req : GoalRequest) :
    List SavingsGoal × Response SavingsGoal :=
  match req.goalAmount.truthy, req.targetDate with
  | true, some targetDate =>
    match req.goalAmount.parsed with
    | some goalAmount =>
      if 1 ≤ goalAmount then
        let goal := SavingsGoal.mk userId goalAmount 0 targetDate false
        (upsertGoal goals goal, Response.success goal)
      else (goals, Response.failure 500 "Error setting savings goal")
    | none => (goals, Response.failure 500 "Error setting savings goal")
  | _, _ => (goals, Response.failure 400 "Goal amount, target date, and name are required")

/-- The body of `PUT /api/savings`: each field is absent (`none`) or present; a
present amount is given by what `parseFloat` reads, `none` for `NaN`. -/
structure GoalUpdateBody where
  /-- The goal amount. -/
  goalAmount : Option (Option ℚ)
  /-- The time value of the target date. -/
  targetDate : Option Int
  /-- The current amount. -/
  currentAmount : Option (Option ℚ)
  deriving DecidableEq, Repr

/-- The object `updateData` applied to a goal (`$set` of the present fields). -/
def applyGoalUpdate (goalAmount : Option ℚ) (targetDate : Option Int)
    (currentAmount : Option ℚ) (goal : SavingsGoal) : SavingsGoal :=
  { goal with
    goalAmount := goalAmount.getD goal.goalAmount
    targetDate := targetDate.getD goal.targetDate
    currentAmount := currentAmount.getD goal.currentAmount }

/-- The time value of `today` after `today.setHours(0, 0, 0, 0)`: the local
midnight of the day of `now`. -/
def startOfToday (tz now : Int) : Int := Day (now + tz) * msPerDay - tz

/-- The validator `min` of the schema on a field of the update: an absent field
is not validated. -/
def belowMin (min : ℚ) : Option ℚ → Bool
  | some a => decide (a < min)
  | none => false

/-- The test `target < today` of `updateSavingsGoal`, for a present target date. -/
def targetInPast (tz now : Int) : Option Int → Bool
  | some target => decide (target < startOfToday tz now)
  | none => false

/-- The handler `updateSavingsGoal` at the time `now`.  The update is
`findOneAndUpdate` with `runValidators`: the present fields are validated (goal
amount at least 1, current amount at least 0) and written; no document is saved,
so the hook `pre('save')` does not run. -/
def updateSavingsGoal (tz now : Int) (goals : List SavingsGoal) (userId : Nat)
    (body : GoalUpdateBody) : List SavingsGoal × Response SavingsGoal :=
  if targetInPast tz now body.targetDate then
    (goals, Response.failure 400 "Target date must be today or in the future")
  else if body.goalAmount = some none ∨ body.currentAmount = some none then
    (goals, Response.failure 500 "Error updating savings goal")
  else
    let goalAmount : Option ℚ := body.goalAmount.join
    let currentAmount : Option ℚ := body.currentAmount.join
    if belowMin 1 goalAmount || belowMin 0 currentAmount then
      (goals, Response.failure 400 "Validation error")
    else
      match findGoal goals userId with
      | none => (goals, Response.failure 404 "Savings goal not found")
      | some goal =>
        let savingsGoal := applyGoalUpdate goalAmount body.targetDate currentAmount goal
        (replaceGoal goals savingsGoal, Response.success savingsGoal)

/-! ## Pages: Budgets, Dashboard and CalendarView -/

/-- The comparison `a < b` after `ToNumber`; it is false when a side is `NaN`. -/
def JSVal.lt (a b : JSVal) : Bool :=
  match a.toNumber, b.toNumber with
  | .num x, .num y => decide (x < y)
  | .num _, .inf s => !s
  | .inf s, .num _ => s
  | .inf s, .inf s' => s && !s'
  | _, _ => false

/-- The call `Math.abs(a)`. -/
def JSVal.abs (a : JSVal) : JSVal :=
  match a.toNumber with
  | .num x => .num |x|
  | .inf _ => .inf false
  | _ => .nan

/-- The number that an arithmetic operator of a page reads from a field of a
response: a finite number arrives as it is, `NaN` and the infinities arrive as
`null`, which reads as 0, and anything else reads as `NaN`. -/
def receivedNumber : JSVal → JSVal
  | .num q => .num q
  | .nan => .num 0
  | .inf _ => .num 0
  | _ => .nan

/-- The amount of the notice `Over budget by ...` of the Budgets page:
`Math.abs(budget.remaining)`. -/
def overBudgetBy (budget : BudgetWithUsage) : JSVal := (receivedNumber budget.remaining).abs

/-- The test `budget.remaining < 0` of the Budgets page, which colours the
remaining amount red. -/
def remainingIsNegative (budget : BudgetWithUsage) : Bool :=
  (receivedNumber budget.remaining).lt (JSVal.num 0)

/-- The abstract operation `DateFromTime`: the day of the month. -/
def DateFromTime (t : Int) : Int :=
  DayWithinYear t - dayOfMonthStart (InLeapYear (YearFromTime t)) (MonthFromTime t) + 1

/-- The abstract operation `WeekDay`: 0 for Sunday to 6 for Saturday. -/
def WeekDay (t : Int) : Int := (Day t + 4) % 7

/-- The values that the Dashboard derives from the statistics. -/
structure DashboardInsights where
  /-- The day of the month of the current date. -/
  daysElapsed : Int
  /-- The expenses per elapsed day. -/
  avgDailySpend : JSVal
  /-- The average projected on the month. -/
  projectedSpend : JSVal
  /-- The share shown under the no-spend days, in percent (before `toFixed(0)`). -/
  noSpendShare : JSVal
  deriving DecidableEq, Repr

/-- Lines 96 to 99 and 121 of the Dashboard, rendered at the time `now` in a
browser with the zone offset `tz`. -/
def dashboardInsights (tz now : Int) (stats : StatsData) : DashboardInsights :=
  let daysElapsed := DateFromTime (now + tz)
  let avgDailySpend := (JSVal.num stats.totals.expenses).div (JSVal.num (daysElapsed : ℚ))
  { daysElapsed := daysElapsed
    avgDailySpend := avgDailySpend
    projectedSpend := avgDailySpend.mul (JSVal.num (stats.daysInMonth : ℚ))
    noSpendShare :=
      ((JSVal.num (stats.noSpendDays : ℚ)).div (JSVal.num (daysElapsed : ℚ))).mul (JSVal.num 100) }

/-- The function `getDaysInMonth` of CalendarView: `new Date(year, month, 0).getDate()`,
with `none` for `NaN`. -/
def getDaysInMonth (tz month year : Int) : Option Int :=
  (newDate tz year month 0).map (fun t => DateFromTime (t + tz))

/-- The function `getFirstDayOfMonth` of CalendarView:
`new Date(year, month - 1, 1).getDay()`, with `none` for `NaN`. -/
def getFirstDayOfMonth (tz month year : Int) : Option Int :=
  (newDate tz year (month - 1) 1).map (fun t => WeekDay (t + tz))

/-- The income and the expense of a day. -/
structure DayTotals where
  /-- The income. -/
  income : ℚ
  /-- The expense. -/
  expense : ℚ
  deriving DecidableEq, Repr

/-- The callback of `transactions.forEach` in `getDailyTotals`. -/
def dailyTotalsStep (dailyTotals : List (IsoDate × DayTotals)) (transaction : Transaction) :
    List (IsoDate × DayTotals) :=
  let date := isoDate transaction.date
  let totals := (getOwn dailyTotals date).getD (DayTotals.mk 0 0)
  if transaction.type = TransactionType.income then
    setOwn dailyTotals date { totals with income := totals.income + transaction.amount }
  else
    setOwn dailyTotals date { totals with expense := totals.expense + transaction.amount }

/-- The function `getDailyTotals` of CalendarView. -/
def getDailyTotals (transactions : List Transaction) : List (IsoDate × DayTotals) :=
  transactions.foldl dailyTotalsStep []

/-- The day that the text `dateString` of a cell names as a key of `dailyTotals`:
the keys are ISO dates, which the text made of the year, the month and the day
equals only for a year of four digits. -/
def dateStringDay (year month day : Int) : Option IsoDate :=
  if 1000 ≤ year ∧ year ≤ 9999 ∧ 1 ≤ month ∧ month ≤ 12 then some (MakeDay year (month - 1) day)
  else none

/-- A cell of the calendar. -/
structure CalendarCell where
  /-- The day of the month; `none` for `null`. -/
  day : Option Int
  /-- The income of the day. -/
  income : ℚ
  /-- The expense of the day. -/
  expense : ℚ
  /-- The year, the month and the day of `dateString`, when the cell has one. -/
  date : Option (Int × Int × Int)
  deriving DecidableEq, Repr

/-- The cell of the day `day` (lines 73 to 81). -/
def dayCell (dailyTotals : List (IsoDate × DayTotals)) (selectedMonth selectedYear day : Int) :
    CalendarCell :=
  let totals :=
    match dateStringDay selectedYear selectedMonth day with
    | some key => (getOwn dailyTotals key).getD (DayTotals.mk 0 0)
    | none => DayTotals.mk 0 0
  { day := some day, income := totals.income, expense := totals.expense,
    date := some (selectedYear, selectedMonth, day) }

/-- The function `generateCalendar` of CalendarView.  A loop bounded by `NaN` does
not run. -/
def generateCalendar (tz : Int) (transactions : List Transaction)
    (selectedMonth selectedYear : Int) : List CalendarCell :=
  let daysInMonth := getDaysInMonth tz selectedMonth selectedYear
  let firstDay := getFirstDayOfMonth tz selectedMonth selectedYear
  let dailyTotals := getDailyTotals transactions
  let empty := List.replicate (firstDay.getD 0).toNat (CalendarCell.mk none 0 0 none)
  let days := (List.range (daysInMonth.getD 0).toNat).map
    (fun i : Nat => dayCell dailyTotals selectedMonth selectedYear ((i : Int) + 1))
  empty ++ days

/-- The sum of the savings of the first `k` rows, not clamped. -/
def savingsThrough (rows : List MonthlySavingsRow) (k : Nat) : ℚ :=
  ((rows.take k).map (fun r => r.savings)).sum

/-- Twenty-nine expenses of 10, the first on 31 January 2023 at 19:00 UTC and the
next ones 23 hours and a half apart, the last on 28 February 2023 at 05:00 UTC. -/
def februaryExpenses : List Transaction :=
  (List.range 29).map (fun k : Nat =>
    Transaction.mk 1 10 TransactionType.expense "Food" (1675191600000 + (k : Int) * 84600000))

/-! ## Binary64 arithmetic -/

/-- Rounding of a rational to the nearest integer, a tie going to the even
one. -/
def roundHalfEven (q : ℚ) : Int :=
  if q - (⌊q⌋ : ℚ) < 1 / 2 then ⌊q⌋
  else if 1 / 2 < q - (⌊q⌋ : ℚ) then ⌊q⌋ + 1
  else if ⌊q⌋ % 2 = 0 then ⌊q⌋
  else ⌊q⌋ + 1

/-- The exponent of the unit in the last place of the binary64 numbers of the
size of `x`: 52 below the exponent of `x`, and -1074 for the subnormal ones. -/
def ulpExponent (x : ℚ) : Int := Max.max (Int.log 2 |x|) (-1022) - 52

/-- The binary64 number that a result `x` is rounded to (round to nearest, ties
to even).  Overflow to an infinity, at 2^1024, is not modelled. -/
def toDouble (x : ℚ) : ℚ :=
  (roundHalfEven (x / (2 : ℚ) ^ ulpExponent x) : ℚ) * (2 : ℚ) ^ ulpExponent x

/-- The expression `a + b` on two numbers. -/
def addDouble (a b : ℚ) : ℚ := toDouble (a + b)

/-- The reduction `.reduce((sum, t) => sum + t.amount, 0)` in binary64: the
amounts are added from the left, and every sum is rounded. -/
def sumAmountsDouble (ts : List Transaction) : ℚ :=
  ts.foldl (fun sum t => addDouble sum t.amount) 0

/-- The reducer of `dailySpending` in binary64:
`if (!acc[date]) acc[date] = 0; acc[date] += transaction.amount`. -/
def dailyStepDouble (acc : List (IsoDate × ℚ)) (transaction : Transaction) :
    List (IsoDate × ℚ) :=
  let date := isoDate transaction.date
  let acc1 :=
    match getOwn acc date with
    | none => setOwn acc date 0
    | some v => if v = 0 then setOwn acc date 0 else acc
  match getOwn acc1 date with
  | some v => setOwn acc1 date (addDouble v transaction.amount)
  | none => acc1

/-- The object `dailySpending` in binary64, as its entries in insertion order. -/
def dailySpendingDouble (transactions : List Transaction) : List (IsoDate × ℚ) :=
  (expensesOf transactions).foldl dailyStepDouble []

/-- The array `dailySpendingArray` of the response in binary64. -/
def dailySpendingArrayDouble (transactions : List Transaction) : List DailyEntry :=
  ((dailySpendingDouble transactions).map (fun e => DailyEntry.mk e.1 e.2)).insertionSort
    (fun a b => parseIsoDate a.date ≤ parseIsoDate b.date)

/-- The field `totals.expenses` of the response in binary64 (lines 238 to 240). -/
def totalExpensesDouble (transactions : List Transaction) : ℚ :=
  sumAmountsDouble (expensesOf transactions)

/-- The value `currentSavings` of `getSavingsGoal` in binary64 (line 40), from
the totals `income` and `expenses` that the aggregation returns. -/
def currentSavingsDouble (income expenses : ℚ) : ℚ :=
  Max.max (toDouble (income - expenses)) 0

/-- The value `amountNeeded` of `getSavingsGoal` in binary64 (line 61). -/
def amountNeededDouble (savingsGoal : SavingsGoal) : ℚ :=
  Max.max (toDouble (savingsGoal.goalAmount - savingsGoal.currentAmount)) 0

/-- The flag `isOnTrack` of `getSavingsGoal` in binary64 (lines 58 to 72), for the
saved goal at the time `now`: the two quotients are rounded before they are
compared.  The number of days is an integer, which is exact. -/
def isOnTrackDouble (now : Int) (currentSavings : ℚ) (savingsGoal : SavingsGoal) : Bool :=
  let daysRemaining := ceilDiv (savingsGoal.targetDate - now) (1000 * 60 * 60 * 24)
  let amountNeeded := amountNeededDouble savingsGoal
  let dailySavingsNeeded :=
    if daysRemaining > 0 then toDouble (amountNeeded / (daysRemaining : ℚ)) else amountNeeded
  decide (dailySavingsNeeded
    ≤ toDouble (currentSavings / ((Max.max daysRemaining 1 : Int) : ℚ)))

/-- The flag `isOnTrack` in the response of `getSavingsGoal` at the time `now`,
in binary64, from the totals `income` and `expenses` of the aggregation; `none`
when the user has no goal.  The goal is saved with `currentAmount` set to the
current savings. -/
def getSavingsGoalOnTrack (now : Int) (goals : List SavingsGoal) (userId : Nat)
    (income expenses : ℚ) : Option Bool :=
  match findGoal goals userId with
  | none => none
  | some savingsGoal =>
    let currentSavings := currentSavingsDouble income expenses
    some (isOnTrackDouble now currentSavings
      { savingsGoal with currentAmount := currentSavings })

/-- The expenses of a user dated in a window, as a reference for the
recommendations: the transactions `t` with `t.userId = userId`, of type expense,
and `since ≤ t.date < before`. -/
def userExpensesBetween (since before : Int) (transactions : List Transaction)
    (userId : Nat) : List Transaction :=
  transactions.filter (fun t =>
    decide (t.userId = userId ∧ t.type = TransactionType.expense ∧ since ≤ t.date ∧
      t.date < before))

/-! ## Totals -/

theorem foldl_add_amount (ts : List Transaction) (init : ℚ) :
    ts.foldl (fun sum t => sum + t.amount) init = init + amountSum ts := by
  induction ts generalizing init with
  | nil => simp [amountSum]
  | cons t ts ih =>
    rw [List.foldl_cons, ih]
    simp [amountSum, add_assoc]

theorem sumAmounts_eq (ts : List Transaction) : sumAmounts ts = amountSum ts := by
  unfold sumAmounts
  rw [foldl_add_amount, zero_add]

theorem amountSum_nonneg (ts : List Transaction) (h : ∀ t ∈ ts, 0 < t.amount) :
    0 ≤ amountSum ts := by
  unfold amountSum
  apply List.sum_nonneg
  intro x hx
  obtain ⟨t, ht, rfl⟩ := List.mem_map.1 hx
  exact le_of_lt (h t ht)

/-- C1: the totals of `getTransactionStats`: `income` is the sum of the amounts
of the income transactions, `expenses` the sum of the amounts of the expense
transactions, and `netSavings` is `income - expenses`. -/
theorem transactionStats_totals (tz startDate endDate : Int) (transactions : List Transaction) :
    (transactionStats tz startDate endDate transactions).totals.income
        = ((transactions.filter (fun t => t.type = TransactionType.income)).map
            (fun t => t.amount)).sum
      ∧ (transactionStats tz startDate endDate transactions).totals.expenses
        = ((transactions.filter (fun t => t.type = TransactionType.expense)).map
            (fun t => t.amount)).sum
      ∧ (transactionStats tz startDate endDate transactions).totals.netSavings
        = (transactionStats tz startDate endDate transactions).totals.income
          - (transactionStats tz startDate endDate transactions).totals.expenses := by
  refine ⟨?_, ?_, rfl⟩
  · exact sumAmounts_eq _
  · exact sumAmounts_eq _

/-- C2: with positive amounts, `savingsRate` is `netSavings / income * 100` when
the income is not 0 and is 0 when the income is 0; in both cases it is a finite
number, so no division by zero is evaluated. -/
theorem transactionStats_savingsRate (tz startDate endDate : Int)
    (transactions : List Transaction) (hpos : ∀ t ∈ transactions, 0 < t.amount) :
    ((transactionStats tz startDate endDate transactions).totals.income ≠ 0 →
        (transactionStats tz startDate endDate transactions).totals.savingsRate
          = JSVal.num
              ((transactionStats tz startDate endDate transactions).totals.netSavings
                / (transactionStats tz startDate endDate transactions).totals.income * 100))
      ∧ ((transactionStats tz startDate endDate transactions).totals.income = 0 →
        (transactionStats tz startDate endDate transactions).totals.savingsRate
          = JSVal.num 0) := by
  have hnn : 0 ≤ sumAmounts (incomesOf transactions) := by
    rw [sumAmounts_eq]
    apply amountSum_nonneg
    intro t ht
    exact hpos t (List.mem_of_mem_filter ht)
  constructor
  · intro hne
    have hne' : sumAmounts (incomesOf transactions) ≠ 0 := hne
    have hgt : sumAmounts (incomesOf transactions) > 0 := lt_of_le_of_ne hnn (Ne.symm hne')
    simp only [transactionStats, if_pos hgt, JSVal.div, JSVal.mul, JSVal.toNumber, if_neg hne']
  · intro hz
    have hz' : sumAmounts (incomesOf transactions) = 0 := hz
    have hngt : ¬ sumAmounts (incomesOf transactions) > 0 := by rw [hz']; exact lt_irrefl 0
    simp only [transactionStats, if_neg hngt]

/-- Witness of C2: one income of 100 and one expense of 40. -/
theorem transactionStats_savingsRate_witness :
    (∀ t ∈ [Transaction.mk 1 100 TransactionType.income "Salary" 0,
            Transaction.mk 1 40 TransactionType.expense "Food" 0], 0 < t.amount)
      ∧ (transactionStats 0 0 86400000
          [Transaction.mk 1 100 TransactionType.income "Salary" 0,
           Transaction.mk 1 40 TransactionType.expense "Food" 0]).totals.savingsRate
        = JSVal.num 60 := by
  have hpos : ∀ t ∈ [Transaction.mk 1 100 TransactionType.income "Salary" 0,
            Transaction.mk 1 40 TransactionType.expense "Food" 0], 0 < t.amount := by
    intro t ht
    simp only [List.mem_cons, List.mem_singleton, List.not_mem_nil, or_false] at ht
    rcases ht with rfl | rfl <;> norm_num
  refine ⟨hpos, ?_⟩
  have h := (transactionStats_savingsRate 0 0 86400000 _ hpos).1
  have hinc : (transactionStats 0 0 86400000
          [Transaction.mk 1 100 TransactionType.income "Salary" 0,
           Transaction.mk 1 40 TransactionType.expense "Food" 0]).totals.income = 100 := by
    simp [transactionStats, sumAmounts, incomesOf]
  have hnet : (transactionStats 0 0 86400000
          [Transaction.mk 1 100 TransactionType.income "Salary" 0,
           Transaction.mk 1 40 TransactionType.expense "Food" 0]).totals.netSavings = 60 := by
    simp [transactionStats, sumAmounts, incomesOf, expensesOf]
    norm_num
  rw [h (by rw [hinc]; norm_num), hnet, hinc]
  norm_num


/-! ## Own properties -/

theorem getOwn_setOwn {κ α : Type} [DecidableEq κ] (l : List (κ × α)) (k k' : κ) (v : α) :
    getOwn (setOwn l k v) k' = if k = k' then some v else getOwn l k' := by
  induction l with
  | nil => simp [setOwn, getOwn]
  | cons e l ih =>
    obtain ⟨a, b⟩ := e
    by_cases h : a = k
    · subst h
      by_cases h' : a = k'
      · simp [setOwn, getOwn, h']
      · simp [setOwn, getOwn, h']
    · by_cases h' : a = k'
      · subst h'
        have hne : ¬ k = a := fun hc => h hc.symm
        simp [setOwn, getOwn, h, hne]
      · simp [setOwn, getOwn, h, h', ih]

theorem setOwn_setOwn {κ α : Type} [DecidableEq κ] (l : List (κ × α)) (k : κ) (v w : α) :
    setOwn (setOwn l k v) k w = setOwn l k w := by
  induction l with
  | nil => simp [setOwn]
  | cons e l ih =>
    obtain ⟨a, b⟩ := e
    by_cases h : a = k
    · subst h
      simp [setOwn]
    · simp [setOwn, h, ih]

theorem getOwn_eq_none_iff {κ α : Type} [DecidableEq κ] (l : List (κ × α)) (k : κ) :
    getOwn l k = none ↔ k ∉ l.map (fun e => e.1) := by
  induction l with
  | nil => simp [getOwn]
  | cons e l ih =>
    obtain ⟨a, b⟩ := e
    by_cases h : a = k
    · subst h
      simp [getOwn]
    · simp [getOwn, h, ih, Ne.symm h]

theorem mem_of_getOwn_eq_some {κ α : Type} [DecidableEq κ] (l : List (κ × α)) (k : κ) (v : α)
    (h : getOwn l k = some v) : (k, v) ∈ l := by
  induction l with
  | nil => simp [getOwn] at h
  | cons e l ih =>
    obtain ⟨a, b⟩ := e
    by_cases hk : a = k
    · subst hk
      simp [getOwn] at h
      simp [h]
    · simp [getOwn, hk] at h
      exact List.mem_cons_of_mem _ (ih h)

theorem getOwn_eq_some_of_mem {κ α : Type} [DecidableEq κ] (l : List (κ × α)) (k : κ) (v : α)
    (hnd : (l.map (fun e => e.1)).Nodup) (h : (k, v) ∈ l) : getOwn l k = some v := by
  induction l with
  | nil => simp at h
  | cons e l ih =>
    obtain ⟨a, b⟩ := e
    simp only [List.map_cons, List.nodup_cons] at hnd
    rcases List.mem_cons.1 h with heq | hmem
    · cases heq
      simp [getOwn]
    · have hne : a ≠ k := by
        intro hak
        apply hnd.1
        subst hak
        exact List.mem_map.2 ⟨(a, v), hmem, rfl⟩
      simp [getOwn, hne, ih hnd.2 hmem]

theorem keys_setOwn {κ α : Type} [DecidableEq κ] (l : List (κ × α)) (k : κ) (v : α) :
    (setOwn l k v).map (fun e => e.1)
      = if k ∈ l.map (fun e => e.1) then l.map (fun e => e.1)
        else l.map (fun e => e.1) ++ [k] := by
  induction l with
  | nil => simp [setOwn]
  | cons e l ih =>
    obtain ⟨a, b⟩ := e
    by_cases h : a = k
    · subst h
      simp [setOwn]
    · simp only [setOwn, h, if_false, List.map_cons, ih, List.mem_cons, Ne.symm h, false_or]
      split <;> simp

theorem nodup_keys_setOwn {κ α : Type} [DecidableEq κ] (l : List (κ × α)) (k : κ) (v : α)
    (h : (l.map (fun e => e.1)).Nodup) : ((setOwn l k v).map (fun e => e.1)).Nodup := by
  rw [keys_setOwn]
  split
  · exact h
  · rename_i hk
    rw [List.nodup_append]
    refine ⟨h, List.nodup_singleton k, ?_⟩
    intro a ha hb
    simp only [List.mem_singleton] at hb
    subst hb
    exact hk ha

theorem sum_values_setOwn {κ : Type} [DecidableEq κ] (l : List (κ × ℚ)) (k : κ) (v : ℚ) :
    ((setOwn l k v).map (fun e => e.2)).sum
      = (l.map (fun e => e.2)).sum - (getOwn l k).getD 0 + v := by
  induction l with
  | nil => simp [setOwn, getOwn]
  | cons e l ih =>
    obtain ⟨a, b⟩ := e
    by_cases h : a = k
    · subst h
      simp [setOwn, getOwn]
      ring
    · simp only [setOwn, h, if_false, List.map_cons, List.sum_cons, ih, getOwn]
      ring

/-! ## Sums by key -/

theorem sumWithKey_nil {τ κ : Type} [DecidableEq κ] (key : τ → κ) (val : τ → ℚ) (k : κ) :
    sumWithKey key val k [] = 0 := by
  simp [sumWithKey]

theorem sumWithKey_cons {τ κ : Type} [DecidableEq κ] (key : τ → κ) (val : τ → ℚ) (k : κ)
    (t : τ) (ts : List τ) :
    sumWithKey key val k (t :: ts)
      = (if key t = k then val t else 0) + sumWithKey key val k ts := by
  unfold sumWithKey
  by_cases h : key t = k
  · simp [List.filter_cons, h]
  · simp [List.filter_cons, h]

/-- The state of a grouping after a fold, from any starting state. -/
theorem foldl_groupAdd_getOwn {τ κ : Type} [DecidableEq κ] (key : τ → κ) (val : τ → ℚ)
    (ts : List τ) (acc : List (κ × ℚ)) (k : κ) :
    getOwn (ts.foldl (fun acc t => groupAdd acc (key t) (val t)) acc) k
      = if (getOwn acc k).isSome ∨ ∃ t ∈ ts, key t = k then
          some ((getOwn acc k).getD 0 + sumWithKey key val k ts)
        else none := by
  induction ts generalizing acc with
  | nil =>
    cases h : getOwn acc k <;> simp [sumWithKey_nil, h]
  | cons t ts ih =>
    rw [List.foldl_cons, ih, sumWithKey_cons]
    unfold groupAdd
    rw [getOwn_setOwn]
    by_cases hk : key t = k
    · subst hk
      simp
      ring
    · simp only [if_neg hk, List.mem_cons, exists_eq_or_imp, hk, false_or, zero_add, if_false]

theorem foldl_groupAdd_nodup {τ κ : Type} [DecidableEq κ] (key : τ → κ) (val : τ → ℚ)
    (ts : List τ) (acc : List (κ × ℚ)) (h : (acc.map (fun e => e.1)).Nodup) :
    ((ts.foldl (fun acc t => groupAdd acc (key t) (val t)) acc).map (fun e => e.1)).Nodup := by
  induction ts generalizing acc with
  | nil => exact h
  | cons t ts ih =>
    rw [List.foldl_cons]
    exact ih _ (nodup_keys_setOwn _ _ _ h)

theorem foldl_groupAdd_sum {τ κ : Type} [DecidableEq κ] (key : τ → κ) (val : τ → ℚ)
    (ts : List τ) (acc : List (κ × ℚ)) :
    ((ts.foldl (fun acc t => groupAdd acc (key t) (val t)) acc).map (fun e => e.2)).sum
      = (acc.map (fun e => e.2)).sum + (ts.map val).sum := by
  induction ts generalizing acc with
  | nil => simp
  | cons t ts ih =>
    rw [List.foldl_cons, ih]
    unfold groupAdd
    rw [sum_values_setOwn]
    simp only [List.map_cons, List.sum_cons]
    ring

theorem groupSums_getOwn {τ κ : Type} [DecidableEq κ] (key : τ → κ) (val : τ → ℚ)
    (ts : List τ) (k : κ) :
    getOwn (groupSums key val ts) k
      = if ∃ t ∈ ts, key t = k then some (sumWithKey key val k ts) else none := by
  unfold groupSums
  rw [foldl_groupAdd_getOwn]
  simp [getOwn]

theorem groupSums_nodup {τ κ : Type} [DecidableEq κ] (key : τ → κ) (val : τ → ℚ)
    (ts : List τ) : ((groupSums key val ts).map (fun e => e.1)).Nodup :=
  foldl_groupAdd_nodup key val ts [] (by simp)

theorem groupSums_sum {τ κ : Type} [DecidableEq κ] (key : τ → κ) (val : τ → ℚ)
    (ts : List τ) : ((groupSums key val ts).map (fun e => e.2)).sum = (ts.map val).sum := by
  unfold groupSums
  rw [foldl_groupAdd_sum]
  simp

theorem mem_keys_groupSums {τ κ : Type} [DecidableEq κ] (key : τ → κ) (val : τ → ℚ)
    (ts : List τ) (k : κ) :
    k ∈ (groupSums key val ts).map (fun e => e.1) ↔ ∃ t ∈ ts, key t = k := by
  have h := groupSums_getOwn key val ts k
  have h2 := getOwn_eq_none_iff (groupSums key val ts) k
  by_cases hex : ∃ t ∈ ts, key t = k
  · rw [if_pos hex] at h
    constructor
    · intro _; exact hex
    · intro _
      by_contra hc
      rw [h2.2 hc] at h
      cases h
  · rw [if_neg hex] at h
    constructor
    · intro hm
      exact absurd hm (h2.1 h)
    · intro hm
      exact absurd hm hex

theorem mem_groupSums {τ κ : Type} [DecidableEq κ] (key : τ → κ) (val : τ → ℚ)
    (ts : List τ) (k : κ) (v : ℚ) (h : (k, v) ∈ groupSums key val ts) :
    v = sumWithKey key val k ts := by
  have h1 := getOwn_eq_some_of_mem _ k v (groupSums_nodup key val ts) h
  rw [groupSums_getOwn] at h1
  split at h1
  · exact (Option.some.inj h1).symm
  · cases h1


/-! ## Daily spending -/

theorem dailyStep_eq (acc : List (IsoDate × ℚ)) (t : Transaction) :
    dailyStep acc t = groupAdd acc (isoDate t.date) t.amount := by
  unfold dailyStep groupAdd
  cases h : getOwn acc (isoDate t.date) with
  | none =>
    simp only [h, getOwn_setOwn, if_true, setOwn_setOwn, Option.getD_none]
  | some v =>
    by_cases hv : v = 0
    · subst hv
      simp only [h, if_true, getOwn_setOwn, setOwn_setOwn, Option.getD_some]
    · simp only [h, if_neg hv, Option.getD_some]

theorem dailySpendingOf_eq (transactions : List Transaction) :
    dailySpendingOf transactions
      = groupSums (fun t => isoDate t.date) (fun t => t.amount) (expensesOf transactions) := by
  unfold dailySpendingOf groupSums
  congr 1
  funext acc t
  exact dailyStep_eq acc t

theorem parseIsoDate_eq (a : Int) : parseIsoDate a = a * 86400000 := by
  simp [parseIsoDate, MakeDate, msPerDay]

theorem parseIsoDate_lt_iff (a b : Int) : parseIsoDate a < parseIsoDate b ↔ a < b := by
  rw [parseIsoDate_eq, parseIsoDate_eq]
  constructor <;> intro h <;> omega

theorem parseIsoDate_le_iff (a b : Int) : parseIsoDate a ≤ parseIsoDate b ↔ a ≤ b := by
  rw [parseIsoDate_eq, parseIsoDate_eq]
  constructor <;> intro h <;> omega

theorem dailySpendingArrayOf_perm (transactions : List Transaction) :
    (dailySpendingArrayOf transactions).Perm
      ((dailySpendingOf transactions).map (fun e => DailyEntry.mk e.1 e.2)) :=
  List.perm_insertionSort _ _

theorem dailySpendingArrayOf_sorted (transactions : List Transaction) :
    (dailySpendingArrayOf transactions).Sorted dailyLe :=
  List.sorted_insertionSort dailyLe _

theorem dailySpendingArrayOf_dates_perm (transactions : List Transaction) :
    ((dailySpendingArrayOf transactions).map (fun e => e.date)).Perm
      ((dailySpendingOf transactions).map (fun e => e.1)) := by
  have h := (dailySpendingArrayOf_perm transactions).map (fun e => e.date)
  simpa [List.map_map, Function.comp_def] using h

theorem dailySpendingArrayOf_dates_nodup (transactions : List Transaction) :
    ((dailySpendingArrayOf transactions).map (fun e => e.date)).Nodup := by
  rw [(dailySpendingArrayOf_dates_perm transactions).nodup_iff, dailySpendingOf_eq]
  exact groupSums_nodup _ _ _

theorem mem_dailySpendingArrayOf_dates (transactions : List Transaction) (day : IsoDate) :
    day ∈ (dailySpendingArrayOf transactions).map (fun e => e.date)
      ↔ ∃ t ∈ transactions, t.type = TransactionType.expense ∧ isoDate t.date = day := by
  rw [(dailySpendingArrayOf_dates_perm transactions).mem_iff, dailySpendingOf_eq,
    mem_keys_groupSums]
  unfold expensesOf
  constructor
  · rintro ⟨t, ht, hd⟩
    rw [List.mem_filter] at ht
    exact ⟨t, ht.1, by simpa using ht.2, hd⟩
  · rintro ⟨t, ht, hty, hd⟩
    exact ⟨t, List.mem_filter.2 ⟨ht, by simpa using hty⟩, hd⟩

theorem sumWithKey_expensesOf_day (transactions : List Transaction) (day : IsoDate) :
    sumWithKey (fun t => isoDate t.date) (fun t => t.amount) day (expensesOf transactions)
      = amountSum (expensesOfDay day transactions) := by
  unfold sumWithKey expensesOf expensesOfDay amountSum
  rw [List.filter_filter]
  congr 2
  apply List.filter_congr
  intro t _
  exact Bool.and_comm _ _

/-- C4: `dailySpending` is strictly ascending by date, and a day occurs in it
exactly once when some expense falls on that day and not at all otherwise. -/
theorem dailySpending_days (tz startDate endDate : Int) (transactions : List Transaction) :
    (transactionStats tz startDate endDate transactions).dailySpending.Pairwise
        (fun a b => parseIsoDate a.date < parseIsoDate b.date)
      ∧ ∀ day : IsoDate,
          ((transactionStats tz startDate endDate transactions).dailySpending.map
              (fun e => e.date)).count day
            = if ∃ t ∈ transactions, t.type = TransactionType.expense ∧ isoDate t.date = day
              then 1 else 0 := by
  have hnd := dailySpendingArrayOf_dates_nodup transactions
  constructor
  · show (dailySpendingArrayOf transactions).Pairwise _
    have hs : (dailySpendingArrayOf transactions).Pairwise dailyLe :=
      dailySpendingArrayOf_sorted transactions
    have hne : (dailySpendingArrayOf transactions).Pairwise (fun a b => a.date ≠ b.date) := by
      have := hnd
      rw [List.Nodup, List.pairwise_map] at this
      exact this
    refine (hs.and hne).imp ?_
    intro a b hab
    exact lt_of_le_of_ne hab.1 (fun hc => hab.2 ((parseIsoDate_le_iff _ _).1 hab.1 |>.antisymm
      ((parseIsoDate_le_iff _ _).1 (le_of_eq hc.symm))))
  · intro day
    show ((dailySpendingArrayOf transactions).map (fun e => e.date)).count day = _
    by_cases hex : ∃ t ∈ transactions, t.type = TransactionType.expense ∧ isoDate t.date = day
    · rw [if_pos hex]
      exact List.count_eq_one_of_mem hnd ((mem_dailySpendingArrayOf_dates _ _).2 hex)
    · rw [if_neg hex]
      exact List.count_eq_zero_of_not_mem
        (fun hm => hex ((mem_dailySpendingArrayOf_dates _ _).1 hm))

/-- With exact sums, which leave out the rounding of every addition, the amounts
of `dailySpending` add up to `totals.expenses`, and the amount of each entry is
the sum of the expense amounts of its day. -/
theorem dailySpendingArrayOf_amounts_exact (tz startDate endDate : Int)
    (transactions : List Transaction) :
    ((transactionStats tz startDate endDate transactions).dailySpending.map
        (fun e => e.amount)).sum
        = (transactionStats tz startDate endDate transactions).totals.expenses
      ∧ ∀ e ∈ (transactionStats tz startDate endDate transactions).dailySpending,
          e.amount = amountSum (expensesOfDay e.date transactions) := by
  constructor
  · show ((dailySpendingArrayOf transactions).map (fun e => e.amount)).sum
      = sumAmounts (expensesOf transactions)
    have h := ((dailySpendingArrayOf_perm transactions).map (fun e => e.amount)).sum_eq
    rw [h, sumAmounts_eq, List.map_map, dailySpendingOf_eq]
    have h2 := groupSums_sum (fun t : Transaction => isoDate t.date) (fun t => t.amount)
      (expensesOf transactions)
    simpa [Function.comp_def, amountSum] using h2
  · intro e he
    have he' : e ∈ dailySpendingArrayOf transactions := he
    rw [(dailySpendingArrayOf_perm transactions).mem_iff, dailySpendingOf_eq] at he'
    obtain ⟨p, hp, rfl⟩ := List.mem_map.1 he'
    have := mem_groupSums _ _ _ p.1 p.2 hp
    rw [sumWithKey_expensesOf_day] at this
    exact this


/-! ## Category spending -/

theorem getOwn_liftNum (acc : List (String × ℚ)) (k : String) :
    getOwn (liftNum acc) k = (getOwn acc k).map JSVal.num := by
  induction acc with
  | nil => rfl
  | cons e acc ih =>
    obtain ⟨a, b⟩ := e
    by_cases h : a = k
    · simp [liftNum, getOwn, h]
    · have ih' : getOwn (List.map (fun e => (e.1, JSVal.num e.2)) acc) k
          = (getOwn acc k).map JSVal.num := ih
      simp [liftNum, getOwn, h, ih']

theorem setOwn_liftNum (acc : List (String × ℚ)) (k : String) (v : ℚ) :
    setOwn (liftNum acc) k (JSVal.num v) = liftNum (setOwn acc k v) := by
  induction acc with
  | nil => rfl
  | cons e acc ih =>
    obtain ⟨a, b⟩ := e
    by_cases h : a = k
    · simp [liftNum, setOwn, h]
    · have ih' : setOwn (List.map (fun e => (e.1, JSVal.num e.2)) acc) k (JSVal.num v)
          = List.map (fun e => (e.1, JSVal.num e.2)) (setOwn acc k v) := ih
      simp [liftNum, setOwn, h, ih']

theorem protoLookup_plain (key : String) (h : key ∉ objectPrototypeKeys) :
    protoLookup key = JSVal.undefined := by
  have hne : key ≠ "__proto__" := by
    intro hc
    apply h
    rw [hc]
    decide
  simp [protoLookup, hne, h]

theorem ne_proto_of_plain (key : String) (h : key ∉ objectPrototypeKeys) :
    key ≠ "__proto__" := by
  intro hc
  apply h
  rw [hc]
  decide

/-- On a category that names no member of `Object.prototype`, a step of the
reducer adds the amount to the sum of the category. -/
theorem categoryStep_plain (acc : List (String × ℚ)) (t : Transaction)
    (h : t.category ∉ objectPrototypeKeys) :
    categoryStep (liftNum acc) t = liftNum (groupAdd acc t.category t.amount) := by
  have hne := ne_proto_of_plain _ h
  unfold categoryStep groupAdd
  simp only [JSObject.get, JSObject.set, if_neg hne, getOwn_liftNum]
  cases hget : getOwn acc t.category with
  | none =>
    simp only [Option.map_none', protoLookup_plain _ h, JSVal.truthy, Bool.not_false, if_true,
      setOwn_liftNum, getOwn_liftNum, getOwn_setOwn, Option.map_some', JSVal.addNum,
      setOwn_setOwn, Option.getD_none]
  | some v =>
    by_cases hv : v = 0
    · subst hv
      simp [JSVal.truthy, setOwn_liftNum, getOwn_liftNum, getOwn_setOwn, JSVal.addNum,
        setOwn_setOwn]
    · simp [JSVal.truthy, hv, setOwn_liftNum, getOwn_liftNum, hget, JSVal.addNum]

theorem foldl_categoryStep_plain (ts : List Transaction) (acc : List (String × ℚ))
    (h : ∀ t ∈ ts, t.category ∉ objectPrototypeKeys) :
    ts.foldl categoryStep (liftNum acc)
      = liftNum (ts.foldl (fun acc t => groupAdd acc t.category t.amount) acc) := by
  induction ts generalizing acc with
  | nil => rfl
  | cons t ts ih =>
    rw [List.foldl_cons, List.foldl_cons,
      categoryStep_plain acc t (h t (List.mem_cons_self _ _))]
    exact ih _ (fun t' ht' => h t' (List.mem_cons_of_mem _ ht'))

theorem categorySpendingOf_plain (transactions : List Transaction)
    (h : ∀ t ∈ transactions, t.type = TransactionType.expense →
      t.category ∉ objectPrototypeKeys) :
    categorySpendingOf transactions
      = liftNum (groupSums (fun t => t.category) (fun t => t.amount)
          (expensesOf transactions)) := by
  unfold categorySpendingOf groupSums
  have h' : ∀ t ∈ expensesOf transactions, t.category ∉ objectPrototypeKeys := by
    intro t ht
    unfold expensesOf at ht
    rw [List.mem_filter] at ht
    exact h t ht.1 (by simpa using ht.2)
  exact foldl_categoryStep_plain _ [] h'

theorem numericValues_liftNum (acc : List (String × ℚ)) :
    numericValues (liftNum acc) = acc.map (fun e => e.2) := by
  induction acc with
  | nil => rfl
  | cons e acc ih =>
    have ih' : List.filterMap (fun e => match e.2 with | JSVal.num q => some q | _ => none)
        (List.map (fun e => (e.1, JSVal.num e.2)) acc) = acc.map (fun e => e.2) := ih
    simp [numericValues, liftNum, ih']

theorem sumWithKey_expensesOf_category (transactions : List Transaction) (category : String) :
    sumWithKey (fun t => t.category) (fun t => t.amount) category (expensesOf transactions)
      = amountSum (expensesOfCategory category transactions) := by
  unfold sumWithKey expensesOf expensesOfCategory amountSum
  rw [List.filter_filter]
  congr 2
  apply List.filter_congr
  intro t _
  exact Bool.and_comm _ _

/-- The property of C3 where it holds: when no expense has a category that names
a member of `Object.prototype`, `categorySpending` has exactly the categories of
the expenses, each with the sum of its expense amounts, and its values sum to
`totals.expenses`. -/
theorem categorySpending_of_plain_categories (tz startDate endDate : Int)
    (transactions : List Transaction)
    (h : ∀ t ∈ transactions, t.type = TransactionType.expense →
      t.category ∉ objectPrototypeKeys) :
    (∀ category : String,
        getOwn (transactionStats tz startDate endDate transactions).categorySpending category
          = if ∃ t ∈ transactions, t.type = TransactionType.expense ∧ t.category = category
            then some (JSVal.num (amountSum (expensesOfCategory category transactions)))
            else none)
      ∧ ((transactionStats tz startDate endDate transactions).categorySpending.map
          (fun e => e.1)).Nodup
      ∧ (numericValues (transactionStats tz startDate endDate transactions).categorySpending).sum
        = (transactionStats tz startDate endDate transactions).totals.expenses
      ∧ (numericValues
            (transactionStats tz startDate endDate transactions).categorySpending).length
        = (transactionStats tz startDate endDate transactions).categorySpending.length := by
  have hcs : (transactionStats tz startDate endDate transactions).categorySpending
      = liftNum (groupSums (fun t => t.category) (fun t => t.amount)
          (expensesOf transactions)) := categorySpendingOf_plain transactions h
  have hexp : (transactionStats tz startDate endDate transactions).totals.expenses
      = amountSum (expensesOf transactions) := sumAmounts_eq _
  rw [hcs, hexp]
  refine ⟨?_, ?_, ?_, ?_⟩
  · intro category
    rw [getOwn_liftNum, groupSums_getOwn, sumWithKey_expensesOf_category]
    have hiff : (∃ t ∈ expensesOf transactions, t.category = category)
        ↔ ∃ t ∈ transactions, t.type = TransactionType.expense ∧ t.category = category := by
      unfold expensesOf
      constructor
      · rintro ⟨t, ht, hc⟩
        rw [List.mem_filter] at ht
        exact ⟨t, ht.1, by simpa using ht.2, hc⟩
      · rintro ⟨t, ht, hty, hc⟩
        exact ⟨t, List.mem_filter.2 ⟨ht, by simpa using hty⟩, hc⟩
    by_cases hex : ∃ t ∈ transactions, t.type = TransactionType.expense ∧ t.category = category
    · rw [if_pos hex, if_pos (hiff.2 hex)]
      rfl
    · rw [if_neg hex, if_neg (fun hc => hex (hiff.1 hc))]
      rfl
  · have hk : (liftNum (groupSums (fun t : Transaction => t.category) (fun t => t.amount)
        (expensesOf transactions))).map (fun e => e.1)
        = (groupSums (fun t : Transaction => t.category) (fun t => t.amount)
            (expensesOf transactions)).map (fun e => e.1) := by
      simp [liftNum, List.map_map, Function.comp_def]
    rw [hk]
    exact groupSums_nodup _ _ _
  · rw [numericValues_liftNum, groupSums_sum]
    rfl
  · rw [numericValues_liftNum]
    simp [liftNum]

/-- Witness of the property: the expenses of scenario A. -/
theorem categorySpending_of_plain_categories_witness :
    (numericValues (transactionStats 0 0 0 scenarioA).categorySpending).sum
      = (transactionStats 0 0 0 scenarioA).totals.expenses :=
  (categorySpending_of_plain_categories 0 0 0 scenarioA (by decide)).2.2.1

/-- C3 at a failing input: an expense of 40 whose category is `constructor`.  The
read `acc[category]` finds the inherited function, so the entry is not set to 0
and `+=` makes a text; `categorySpending` then holds no number for the category,
while `totals.expenses` is 40. -/
theorem categorySpending_inherited_name :
    (transactionStats 0 0 0
        [Transaction.mk 1 40 TransactionType.expense "constructor" 0]).categorySpending
        = [("constructor", JSVal.text "constructor" [40])]
      ∧ numericValues (transactionStats 0 0 0
          [Transaction.mk 1 40 TransactionType.expense "constructor" 0]).categorySpending = []
      ∧ (transactionStats 0 0 0
          [Transaction.mk 1 40 TransactionType.expense "constructor" 0]).totals.expenses = 40 := by
  refine ⟨?_, ?_, ?_⟩
  · decide
  · decide
  · simp [transactionStats, sumAmounts, expensesOf]


/-! ## Sets -/

theorem foldl_jsSetAdd_nodup {α : Type} [DecidableEq α] (xs : List α) (s : List α)
    (h : s.Nodup) : (xs.foldl jsSetAdd s).Nodup := by
  induction xs generalizing s with
  | nil => exact h
  | cons x xs ih =>
    rw [List.foldl_cons]
    apply ih
    unfold jsSetAdd
    split
    · exact h
    · rename_i hx
      rw [List.nodup_append]
      refine ⟨h, List.nodup_singleton x, ?_⟩
      intro a ha hb
      simp only [List.mem_singleton] at hb
      subst hb
      exact hx ha

theorem mem_foldl_jsSetAdd {α : Type} [DecidableEq α] (xs : List α) (s : List α) (a : α) :
    a ∈ xs.foldl jsSetAdd s ↔ a ∈ s ∨ a ∈ xs := by
  induction xs generalizing s with
  | nil => simp
  | cons x xs ih =>
    rw [List.foldl_cons, ih]
    unfold jsSetAdd
    by_cases hx : x ∈ s
    · rw [if_pos hx]
      constructor
      · rintro (h | h)
        · exact Or.inl h
        · exact Or.inr (List.mem_cons_of_mem _ h)
      · rintro (h | h)
        · exact Or.inl h
        · rcases List.mem_cons.1 h with rfl | h'
          · exact Or.inl hx
          · exact Or.inr h'
    · rw [if_neg hx]
      simp only [List.mem_append, List.mem_singleton, List.mem_cons]
      tauto

theorem jsSet_nodup {α : Type} [DecidableEq α] (xs : List α) : (jsSet xs).Nodup :=
  foldl_jsSetAdd_nodup xs [] List.nodup_nil

theorem mem_jsSet {α : Type} [DecidableEq α] (xs : List α) (a : α) :
    a ∈ jsSet xs ↔ a ∈ xs := by
  unfold jsSet
  rw [mem_foldl_jsSetAdd]
  simp

/-- The size of a set is the number of distinct elements put into it. -/
theorem length_jsSet {α : Type} [DecidableEq α] (xs : List α) :
    (jsSet xs).length = xs.toFinset.card := by
  rw [← List.toFinset_card_of_nodup (jsSet_nodup xs)]
  congr 1
  ext a
  simp [mem_jsSet]

theorem length_jsSet_of_nodup {α : Type} [DecidableEq α] (xs : List α) (h : xs.Nodup) :
    (jsSet xs).length = xs.length := by
  rw [length_jsSet, List.toFinset_card_of_nodup h]

/-! ## The day loop -/

theorem setDateNext_eq (tz t : Int) : setDateNext tz t = TimeClip (t + msPerDay) := by
  have h : MakeDate (Day (t + tz) + 1) (TimeWithinDay (t + tz)) - tz = t + msPerDay := by
    unfold MakeDate Day TimeWithinDay msPerDay
    omega
  unfold setDateNext
  rw [h]

theorem isoDate_add_day (t : Int) : isoDate (t + msPerDay) = isoDate t + 1 := by
  show ((t + 86400000) / 86400000 : Int) = t / 86400000 + 1
  omega

theorem windowDayCount_of_not_lt (s e : Int) (h : ¬ s < e) : windowDayCount s e = 0 := by
  unfold windowDayCount
  rw [if_neg h]

theorem windowDayCount_of_lt (s e : Int) (h : s < e) :
    windowDayCount s e = windowDayCount (s + msPerDay) e + 1 := by
  unfold windowDayCount msPerDay
  rw [if_pos h]
  split <;> omega

theorem loopDays_of_not_lt (s e : Int) (h : ¬ s < e) : loopDays s e = [] := by
  unfold loopDays
  rw [windowDayCount_of_not_lt s e h]
  rfl

theorem loopDays_of_lt (s e : Int) (h : s < e) :
    loopDays s e = isoDate s :: loopDays (s + msPerDay) e := by
  unfold loopDays
  rw [windowDayCount_of_lt s e h, List.range_succ_eq_map, List.map_cons, List.map_map]
  congr 1
  · simp
  · apply List.map_congr_left
    intro i _
    simp only [Function.comp_apply, isoDate_add_day, Nat.cast_succ]
    ring

theorem allDaysLoop_eq (tz endDate : Int) (hend : endDate ≤ maxTime) (fuel : Nat) :
    ∀ (cur : Int) (allDays : List IsoDate), -maxTime ≤ cur →
      windowDayCount cur endDate ≤ fuel →
      allDaysLoop tz endDate fuel cur allDays = (loopDays cur endDate).foldl jsSetAdd allDays := by
  induction fuel with
  | zero =>
    intro cur allDays _ hfuel
    have h0 : windowDayCount cur endDate = 0 := Nat.le_zero.1 hfuel
    have hnl : ¬ cur < endDate := by
      intro hlt
      rw [windowDayCount_of_lt cur endDate hlt] at h0
      exact Nat.succ_ne_zero _ h0
    rw [loopDays_of_not_lt cur endDate hnl]
    rfl
  | succ fuel ih =>
    intro cur allDays hcur hfuel
    by_cases hlt : cur < endDate
    · rw [loopDays_of_lt cur endDate hlt, List.foldl_cons]
      simp only [allDaysLoop, if_pos hlt, setDateNext_eq]
      by_cases hclip : |cur + msPerDay| ≤ maxTime
      · simp only [TimeClip, if_pos hclip]
        apply ih
        · unfold msPerDay; omega
        · rw [windowDayCount_of_lt cur endDate hlt] at hfuel
          exact Nat.le_of_succ_le_succ hfuel
      · simp only [TimeClip, if_neg hclip]
        have hge : ¬ cur + msPerDay < endDate := by
          intro hc
          apply hclip
          rw [abs_le]
          constructor
          · unfold msPerDay; omega
          · omega
        rw [loopDays_of_not_lt _ _ hge]
        rfl
    · rw [loopDays_of_not_lt cur endDate hlt]
      simp only [allDaysLoop, if_neg hlt]
      rfl

theorem windowDayCount_le_fuel (s e : Int) : windowDayCount s e ≤ allDaysFuel s e := by
  unfold windowDayCount allDaysFuel msPerDay
  split <;> omega

theorem loopDays_nodup (s e : Int) : (loopDays s e).Nodup := by
  unfold loopDays
  apply List.Nodup.map _ (List.nodup_range _)
  intro i j hij
  have h : (i : Int) = (j : Int) := add_left_cancel hij
  exact Int.ofNat.inj h

theorem allDaysOf_eq (tz s e : Int) (hs : -maxTime ≤ s) (he : e ≤ maxTime) :
    allDaysOf tz s e = jsSet (loopDays s e) := by
  unfold allDaysOf jsSet
  exact allDaysLoop_eq tz e he _ s [] hs (windowDayCount_le_fuel s e)

theorem length_allDaysOf (tz s e : Int) (hs : -maxTime ≤ s) (he : e ≤ maxTime) :
    (allDaysOf tz s e).length = windowDayCount s e := by
  rw [allDaysOf_eq tz s e hs he, length_jsSet_of_nodup _ (loopDays_nodup s e)]
  simp [loopDays]

theorem lt_windowDayCount_iff (s e : Int) (k : Nat) :
    k < windowDayCount s e ↔ s + (k : Int) * msPerDay < e := by
  unfold windowDayCount msPerDay
  split <;> omega

/-- C6: for a window of two valid dates, `noSpendDays` is `daysInMonth` minus
`expenseDays`; `daysInMonth` is the number of rounds of the day-by-day loop from
the start to the end of the window (round `k` runs exactly when the start plus
`k` days is before the end), and `expenseDays` is the number of distinct days
with an expense. -/
theorem transactionStats_noSpendDays (tz startDate endDate : Int)
    (transactions : List Transaction)
    (hstart : |startDate| ≤ maxTime) (hend : |endDate| ≤ maxTime) :
    (transactionStats tz startDate endDate transactions).noSpendDays
        = ((transactionStats tz startDate endDate transactions).daysInMonth : Int)
          - ((transactionStats tz startDate endDate transactions).expenseDays : Int)
      ∧ (transactionStats tz startDate endDate transactions).noSpendDays
          + ((transactionStats tz startDate endDate transactions).expenseDays : Int)
        = ((transactionStats tz startDate endDate transactions).daysInMonth : Int)
      ∧ (∀ k : Nat, k < (transactionStats tz startDate endDate transactions).daysInMonth
          ↔ startDate + (k : Int) * msPerDay < endDate)
      ∧ (transactionStats tz startDate endDate transactions).expenseDays
        = (((transactions.filter (fun t => t.type = TransactionType.expense)).map
            (fun t => isoDate t.date)).toFinset).card := by
  refine ⟨rfl, ?_, ?_, ?_⟩
  · show ((allDaysOf tz startDate endDate).length : Int)
        - ((expenseDatesOf transactions).length : Int)
        + ((expenseDatesOf transactions).length : Int)
      = ((allDaysOf tz startDate endDate).length : Int)
    ring
  · intro k
    show k < (allDaysOf tz startDate endDate).length ↔ _
    rw [length_allDaysOf tz startDate endDate (abs_le.1 hstart).1 (abs_le.1 hend).2]
    exact lt_windowDayCount_iff startDate endDate k
  · show (expenseDatesOf transactions).length = _
    unfold expenseDatesOf expensesOf
    exact length_jsSet _


/-- Witness of C6: scenario A in the window January 2024. -/
theorem transactionStats_noSpendDays_witness :
    |(1704067200000 : Int)| ≤ maxTime ∧ |(1706745600000 : Int)| ≤ maxTime
      ∧ (transactionStats 0 1704067200000 1706745600000 scenarioA).noSpendDays
          + ((transactionStats 0 1704067200000 1706745600000 scenarioA).expenseDays : Int)
        = ((transactionStats 0 1704067200000 1706745600000 scenarioA).daysInMonth : Int) :=
  ⟨by decide, by decide,
    (transactionStats_noSpendDays 0 1704067200000 1706745600000 scenarioA
      (by decide) (by decide)).2.1⟩


/-! ## Month windows -/

theorem dayFromYear_succ (y : Int) : DayFromYear (y + 1) = DayFromYear y + DaysInYear y := by
  unfold DayFromYear DaysInYear
  split_ifs <;> omega

theorem daysInYear_eq (y : Int) : DaysInYear y = 365 + InLeapYear y := by
  unfold InLeapYear DaysInYear
  split_ifs <;> omega

theorem inLeapYear_eq (y : Int) : InLeapYear y = if isLeapYear y = true then 1 else 0 := by
  unfold InLeapYear DaysInYear isLeapYear
  by_cases h4 : y % 4 = 0 <;> by_cases h100 : y % 100 = 0 <;>
    by_cases h400 : y % 400 = 0 <;> simp [h4, h100, h400] <;> omega

/-- The first days of two consecutive months are the length of the month apart. -/
theorem makeDay_month_length (yr m : Int) (h1 : 1 ≤ m) (h12 : m ≤ 12) :
    MakeDay yr m 1 - MakeDay yr (m - 1) 1 = (daysInCalendarMonth yr m : Int) := by
  have hleap := inLeapYear_eq yr
  have hyear := dayFromYear_succ yr
  have hdiy := daysInYear_eq yr
  unfold daysInCalendarMonth
  interval_cases m <;> simp [MakeDay, dayOfMonthStart] <;> split_ifs at hleap ⊢ <;> omega


theorem newDate_eq_timeClip (tz year monthIndex date : Int) :
    newDate tz year monthIndex date
      = TimeClip (MakeDay (fullYear year) monthIndex date * msPerDay - tz) := by
  simp only [newDate, fullYear, MakeDate, add_zero]

theorem newDate_eq_some (tz year monthIndex date s : Int)
    (h : newDate tz year monthIndex date = some s) :
    s = MakeDay (fullYear year) monthIndex date * msPerDay - tz ∧ |s| ≤ maxTime := by
  rw [newDate_eq_timeClip] at h
  unfold TimeClip at h
  by_cases hclip : |MakeDay (fullYear year) monthIndex date * msPerDay - tz| ≤ maxTime
  · rw [if_pos hclip] at h
    have hs := Option.some.inj h
    subst hs
    exact ⟨rfl, hclip⟩
  · rw [if_neg hclip] at h
    cases h

theorem transactionStats_nil (tz s e : Int) :
    transactionStats tz s e []
      = { totals := { income := 0, expenses := 0, netSavings := 0, savingsRate := JSVal.num 0 }
          categorySpending := []
          dailySpending := []
          noSpendDays := ((allDaysOf tz s e).length : Int)
          daysInMonth := (allDaysOf tz s e).length
          expenseDays := 0 } := by
  simp [transactionStats, sumAmounts, incomesOf, expensesOf, categorySpendingOf,
    dailySpendingArrayOf, dailySpendingOf, expenseDatesOf, jsSet]

theorem windowDayCount_of_days (s e : Int) (n : Nat) (hn : 1 ≤ n)
    (h : e - s = (n : Int) * msPerDay) : windowDayCount s e = n := by
  unfold windowDayCount
  unfold msPerDay at h ⊢
  split <;> omega

theorem daysInCalendarMonth_pos (y m : Int) : 1 ≤ daysInCalendarMonth y m := by
  unfold daysInCalendarMonth
  split_ifs <;> decide

theorem dayOfMonthStart_bounds (leap mn : Int) (h0 : 0 ≤ leap) (h1 : leap ≤ 1) :
    0 ≤ dayOfMonthStart leap mn ∧ dayOfMonthStart leap mn ≤ 335 := by
  unfold dayOfMonthStart
  by_cases c0 : mn = 0
  · rw [if_pos c0]; omega
  rw [if_neg c0]
  by_cases c1 : mn = 1
  · rw [if_pos c1]; omega
  rw [if_neg c1]
  by_cases c2 : mn = 2
  · rw [if_pos c2]; omega
  rw [if_neg c2]
  by_cases c3 : mn = 3
  · rw [if_pos c3]; omega
  rw [if_neg c3]
  by_cases c4 : mn = 4
  · rw [if_pos c4]; omega
  rw [if_neg c4]
  by_cases c5 : mn = 5
  · rw [if_pos c5]; omega
  rw [if_neg c5]
  by_cases c6 : mn = 6
  · rw [if_pos c6]; omega
  rw [if_neg c6]
  by_cases c7 : mn = 7
  · rw [if_pos c7]; omega
  rw [if_neg c7]
  by_cases c8 : mn = 8
  · rw [if_pos c8]; omega
  rw [if_neg c8]
  by_cases c9 : mn = 9
  · rw [if_pos c9]; omega
  rw [if_neg c9]
  by_cases c10 : mn = 10
  · rw [if_pos c10]; omega
  rw [if_neg c10]
  omega

theorem inLeapYear_bounds (y : Int) : 0 ≤ InLeapYear y ∧ InLeapYear y ≤ 1 := by
  unfold InLeapYear
  split <;> omega

/-- The years from -271820 to 275759 have all their month bounds within the range
of `Date`, for a server offset of at most a day. -/
theorem newDate_isSome_of_year_range (tz year monthIndex : Int) (htz : |tz| ≤ msPerDay)
    (hlo : -271820 ≤ year) (hhi : year ≤ 275759) (hm0 : 0 ≤ monthIndex)
    (hm12 : monthIndex ≤ 12) :
    (newDate tz year monthIndex 1).isSome = true := by
  have hbound := abs_le.1 htz
  rw [newDate_eq_timeClip]
  have hfy : -271820 ≤ fullYear year ∧ fullYear year ≤ 275759 := by
    unfold fullYear
    split <;> omega
  generalize fullYear year = yr at hfy
  have hclip : |MakeDay yr monthIndex 1 * msPerDay - tz| ≤ maxTime := by
    rw [abs_le]
    unfold msPerDay at hbound ⊢
    unfold maxTime
    have hleap := inLeapYear_bounds (yr + monthIndex / 12)
    have hstart := dayOfMonthStart_bounds (InLeapYear (yr + monthIndex / 12)) (monthIndex % 12)
      hleap.1 hleap.2
    have hdiv : 0 ≤ monthIndex / 12 ∧ monthIndex / 12 ≤ 1 := by omega
    have hday : MakeDay yr monthIndex 1
        = DayFromYear (yr + monthIndex / 12)
          + dayOfMonthStart (InLeapYear (yr + monthIndex / 12)) (monthIndex % 12) := by
      unfold MakeDay
      ring
    have hoff : monthIndex / 12 = 1 →
        dayOfMonthStart (InLeapYear (yr + monthIndex / 12)) (monthIndex % 12) = 0 := by
      intro hq
      have hrem : monthIndex % 12 = 0 := by omega
      rw [hrem]
      rfl
    rw [hday]
    generalize dayOfMonthStart (InLeapYear (yr + monthIndex / 12)) (monthIndex % 12) = off at hstart hoff
    unfold DayFromYear
    omega
  simp [TimeClip, hclip]

/-- C8 (amended): on an empty list of transactions, for a month 1 to 12 and a
year for which both bounds of the window are valid dates, the handler returns
income 0, expenses 0, net savings 0, savings rate 0, no category, no day, no
expense day, and `noSpendDays = daysInMonth` = the number of days of that month
in the year that the `Date` constructor gives to the year argument. -/
theorem getTransactionStats_empty (tz month year : Int) (h1 : 1 ≤ month) (h12 : month ≤ 12)
    (hstart : (newDate tz year (month - 1) 1).isSome = true)
    (hend : (newDate tz year month 1).isSome = true) :
    getTransactionStats tz month year []
      = some
          { totals := { income := 0, expenses := 0, netSavings := 0, savingsRate := JSVal.num 0 }
            categorySpending := []
            dailySpending := []
            noSpendDays := (daysInCalendarMonth (fullYear year) month : Int)
            daysInMonth := daysInCalendarMonth (fullYear year) month
            expenseDays := 0 } := by
  obtain ⟨s, hs⟩ := Option.isSome_iff_exists.1 hstart
  obtain ⟨e, he⟩ := Option.isSome_iff_exists.1 hend
  obtain ⟨hs1, hs2⟩ := newDate_eq_some _ _ _ _ _ hs
  obtain ⟨he1, he2⟩ := newDate_eq_some _ _ _ _ _ he
  have hlen := makeDay_month_length (fullYear year) month h1 h12
  have hdiff : e - s = (daysInCalendarMonth (fullYear year) month : Int) * msPerDay := by
    rw [hs1, he1, ← hlen]
    ring
  have hcount : (allDaysOf tz s e).length = daysInCalendarMonth (fullYear year) month := by
    rw [length_allDaysOf tz s e (abs_le.1 hs2).1 (abs_le.1 he2).2]
    exact windowDayCount_of_days s e _ (daysInCalendarMonth_pos _ _) hdiff
  unfold getTransactionStats
  rw [hs, he]
  show some (transactionStats tz s e []) = _
  rw [transactionStats_nil, hcount]

/-- Witness of C8: February 2024 has 29 days. -/
theorem getTransactionStats_empty_witness :
    (getTransactionStats 0 2 2024 []).map (fun r => (r.daysInMonth, r.noSpendDays, r.expenseDays))
      = some (29, 29, 0) := by
  rw [getTransactionStats_empty 0 2 2024 (by decide) (by decide) (by decide) (by decide)]
  decide

/-- Counterexample to C8 as stated: for the year 300000 the bounds of the window
are Invalid Dates and the handler returns no statistics. -/
theorem getTransactionStats_empty_invalid_year :
    newDate 0 300000 0 1 = none ∧ getTransactionStats 0 1 300000 [] = none := by
  decide


/-! ## Scenario A -/

/-- C7: scenario A.  For an income of 100, an expense of 40 in Food on
2024-01-01 and an expense of 20 in Food on 2024-01-03, in the window January
2024, the statistics are income 100, expenses 60, net savings 40, savings rate
40, category spending Food 60, daily spending 40 on 2024-01-01 and 20 on
2024-01-03, 31 days in the month, 2 expense days and 29 no-spend days; this for
every server offset of at most a day and whatever the times of day. -/
theorem getTransactionStats_scenarioA (tz t1 t2 t3 : Int) (htz : |tz| ≤ msPerDay)
    (h2 : isoDate t2 = MakeDay 2024 0 1) (h3 : isoDate t3 = MakeDay 2024 0 3) :
    getTransactionStats tz 1 2024 (scenarioAOn t1 t2 t3)
      = some
          { totals :=
              { income := 100, expenses := 60, netSavings := 40, savingsRate := JSVal.num 40 }
            categorySpending := [("Food", JSVal.num 60)]
            dailySpending :=
              [DailyEntry.mk (MakeDay 2024 0 1) 40, DailyEntry.mk (MakeDay 2024 0 3) 20]
            noSpendDays := 29
            daysInMonth := 31
            expenseDays := 2 } := by
  have hd1 : MakeDay 2024 0 1 = 19723 := by decide
  have hd3 : MakeDay 2024 0 3 = 19725 := by decide
  rw [hd1] at h2
  rw [hd3] at h3
  have hbound := abs_le.1 htz
  unfold msPerDay at hbound
  have hs : newDate tz 2024 (1 - 1) 1 = some (1704067200000 - tz) := by
    have hm : MakeDay (fullYear 2024) (1 - 1) 1 * msPerDay = 1704067200000 := by decide
    have hclip : |(1704067200000 : Int) - tz| ≤ maxTime := by
      rw [abs_le]; unfold maxTime; omega
    rw [newDate_eq_timeClip, hm, TimeClip, if_pos hclip]
  have he : newDate tz 2024 1 1 = some (1706745600000 - tz) := by
    have hm : MakeDay (fullYear 2024) 1 1 * msPerDay = 1706745600000 := by decide
    have hclip : |(1706745600000 : Int) - tz| ≤ maxTime := by
      rw [abs_le]; unfold maxTime; omega
    rw [newDate_eq_timeClip, hm, TimeClip, if_pos hclip]
  have hall : (allDaysOf tz (1704067200000 - tz) (1706745600000 - tz)).length = 31 := by
    rw [length_allDaysOf _ _ _ (by unfold maxTime; omega) (by unfold maxTime; omega)]
    exact windowDayCount_of_days _ _ 31 (by decide) (by unfold msPerDay; push_cast; ring)
  have hexp : (expenseDatesOf (scenarioAOn t1 t2 t3)).length = 2 := by
    simp [expenseDatesOf, expensesOf, scenarioAOn, h2, h3, jsSet, jsSetAdd]
  have hinc : sumAmounts (incomesOf (scenarioAOn t1 t2 t3)) = 100 := by
    simp [sumAmounts, incomesOf, scenarioAOn]
  have hout : sumAmounts (expensesOf (scenarioAOn t1 t2 t3)) = 60 := by
    simp [sumAmounts, expensesOf, scenarioAOn]
    norm_num
  have hcat : categorySpendingOf (scenarioAOn t1 t2 t3) = [("Food", JSVal.num 60)] := by
    simp [categorySpendingOf, expensesOf, scenarioAOn, categoryStep, JSObject.get, JSObject.set,
      getOwn, setOwn, protoLookup, objectPrototypeKeys, JSVal.truthy, JSVal.addNum]
    norm_num
  have hday : dailySpendingArrayOf (scenarioAOn t1 t2 t3)
      = [DailyEntry.mk 19723 40, DailyEntry.mk 19725 20] := by
    simp [dailySpendingArrayOf, dailySpendingOf, expensesOf, scenarioAOn, dailyStep, getOwn,
      setOwn, h2, h3, MakeDate, msPerDay, parseIsoDate, List.insertionSort,
      List.orderedInsert]
  have hrate : (if (100 : ℚ) > 0 then
      ((JSVal.num (100 - 60)).div (JSVal.num 100)).mul (JSVal.num 100) else JSVal.num 0)
      = JSVal.num 40 := by
    norm_num [JSVal.div, JSVal.mul, JSVal.toNumber]
  have hnet : (100 : ℚ) - 60 = 40 := by norm_num
  unfold getTransactionStats
  rw [hs, he]
  show some (transactionStats tz (1704067200000 - tz) (1706745600000 - tz)
    (scenarioAOn t1 t2 t3)) = _
  dsimp only [transactionStats]
  rw [hall, hexp, hinc, hout, hcat, hday, hrate, hd1, hd3, hnet]
  rfl

/-- Witness of C7: the server at UTC and the transactions at midnight UTC. -/
theorem getTransactionStats_scenarioA_witness :
    getTransactionStats 0 1 2024 scenarioA
      = some
          { totals :=
              { income := 100, expenses := 60, netSavings := 40, savingsRate := JSVal.num 40 }
            categorySpending := [("Food", JSVal.num 60)]
            dailySpending :=
              [DailyEntry.mk (MakeDay 2024 0 1) 40, DailyEntry.mk (MakeDay 2024 0 3) 20]
            noSpendDays := 29
            daysInMonth := 31
            expenseDays := 2 } :=
  getTransactionStats_scenarioA 0 _ _ _ (by decide) (by decide) (by decide)

/-! ## Budgets -/

theorem expenseMap_get_plain (expenseMap : ExpenseMap) (key : String)
    (h : key ∉ objectPrototypeKeys) :
    (expenseMap.get key).or (JSVal.num 0) = JSVal.num ((getOwn expenseMap key).getD 0) := by
  unfold ExpenseMap.get JSVal.or
  cases hget : getOwn expenseMap key with
  | none => simp [protoLookup_plain key h, JSVal.truthy]
  | some v =>
    by_cases hv : v = 0
    · simp [JSVal.truthy, hv]
    · simp [JSVal.truthy, hv]

/-- The property of C9 where it holds: for a budget with amount at least 0 whose
category names no member of `Object.prototype`, `spent` is the total of the
category or 0, `remaining` is `max (amount - spent) 0`, `usagePercent` is
`spent / amount * 100` or 0 when the amount is 0, and `isOverBudget` is
`spent > amount`. -/
theorem budgetUsage_of_plain_category (expenseMap : ExpenseMap) (budget : Budget)
    (hcat : budget.category ∉ objectPrototypeKeys) (hamount : 0 ≤ budget.amount) :
    (budgetUsage expenseMap budget).spent
        = JSVal.num ((getOwn expenseMap budget.category).getD 0)
      ∧ (budgetUsage expenseMap budget).remaining
        = JSVal.num (Max.max (budget.amount - (getOwn expenseMap budget.category).getD 0) 0)
      ∧ (budgetUsage expenseMap budget).usagePercent
        = (if budget.amount ≠ 0 then
            JSVal.num ((getOwn expenseMap budget.category).getD 0 / budget.amount * 100)
          else JSVal.num 0)
      ∧ (budgetUsage expenseMap budget).isOverBudget
        = decide (budget.amount < (getOwn expenseMap budget.category).getD 0) := by
  have hspent := expenseMap_get_plain expenseMap budget.category hcat
  refine ⟨hspent, ?_, ?_, ?_⟩
  · show (((JSVal.num budget.amount).sub ((expenseMap.get budget.category).or (JSVal.num 0))).max
        (JSVal.num 0)) = _
    rw [hspent]
    rfl
  · show (if budget.amount > 0 then
        ((((expenseMap.get budget.category).or (JSVal.num 0)).div (JSVal.num budget.amount)).mul
          (JSVal.num 100))
        else JSVal.num 0) = _
    rw [hspent]
    by_cases hz : budget.amount = 0
    · simp [hz]
    · have hgt : budget.amount > 0 := lt_of_le_of_ne hamount (Ne.symm hz)
      simp [hgt, hz, JSVal.div, JSVal.mul, JSVal.toNumber]
  · show ((expenseMap.get budget.category).or (JSVal.num 0)).gt (JSVal.num budget.amount) = _
    rw [hspent]
    rfl

/-- Witness of the property, scenario C: a budget of 0 with 50 spent has usage
0, is over budget, and has nothing remaining. -/
theorem budgetUsage_of_plain_category_witness :
    (budgetUsage [("Food", 50)] (Budget.mk 1 "Food" 0 1 2024 "#667eea")).spent = JSVal.num 50
      ∧ (budgetUsage [("Food", 50)] (Budget.mk 1 "Food" 0 1 2024 "#667eea")).remaining = JSVal.num 0
      ∧ (budgetUsage [("Food", 50)] (Budget.mk 1 "Food" 0 1 2024 "#667eea")).usagePercent = JSVal.num 0
      ∧ (budgetUsage [("Food", 50)] (Budget.mk 1 "Food" 0 1 2024 "#667eea")).isOverBudget = true := by
  have h := budgetUsage_of_plain_category [("Food", 50)] (Budget.mk 1 "Food" 0 1 2024 "#667eea")
    (by decide) (le_refl _)
  obtain ⟨h1, h2, h3, h4⟩ := h
  have hg : (getOwn ([("Food", 50)] : ExpenseMap) "Food").getD 0 = 50 := by
    simp [getOwn]
  rw [hg] at h1 h2 h3 h4
  refine ⟨h1, ?_, ?_, ?_⟩
  · rw [h2]; norm_num
  · rw [h3]; simp
  · rw [h4]; simp

/-- C9 at a failing input: a budget of 100 for the category `toString` in a
month without expenses.  The read `expenseMap[budget.category]` finds the
inherited function, so `spent` is not 0, `remaining` and `usagePercent` are `NaN`
and `isOverBudget` is false. -/
theorem getBudgets_inherited_name :
    (getBudgets [Budget.mk 1 "toString" 100 1 2024 "#667eea"] []).budgets
      = [{ budget := Budget.mk 1 "toString" 100 1 2024 "#667eea"
           spent := JSVal.builtin "toString"
           remaining := JSVal.nan
           usagePercent := JSVal.nan
           isOverBudget := false }] := by
  have hget : (expenseMapOf []).get "toString" = JSVal.builtin "toString" := by decide
  have hpos : (100 : ℚ) > 0 := by norm_num
  show [budgetUsage (expenseMapOf []) (Budget.mk 1 "toString" 100 1 2024 "#667eea")] = _
  simp only [budgetUsage, hget, JSVal.or, JSVal.truthy, if_true, if_pos hpos, JSVal.sub,
    JSVal.div, JSVal.mul, JSVal.max, JSVal.gt, JSVal.toNumber]

theorem setOwn_of_not_mem {κ α : Type} [DecidableEq κ] (l : List (κ × α)) (k : κ) (v : α)
    (h : k ∉ l.map (fun e => e.1)) : setOwn l k v = l ++ [(k, v)] := by
  induction l with
  | nil => rfl
  | cons e l ih =>
    obtain ⟨a, b⟩ := e
    simp only [List.map_cons, List.mem_cons, not_or] at h
    have hne : ¬ a = k := fun hc => h.1 hc.symm
    simp [setOwn, hne, ih h.2]

theorem foldl_expenseMap_set (rows : List ExpenseRow) (acc : ExpenseMap)
    (hnd : (rows.map (fun r => r._id)).Nodup)
    (hproto : ∀ r ∈ rows, r._id ≠ "__proto__")
    (hdis : ∀ r ∈ rows, r._id ∉ acc.map (fun e => e.1)) :
    rows.foldl (fun acc item => ExpenseMap.set acc item._id item.totalSpent) acc
      = acc ++ rows.map (fun r => (r._id, r.totalSpent)) := by
  induction rows generalizing acc with
  | nil => simp
  | cons r rows ih =>
    simp only [List.map_cons, List.nodup_cons] at hnd
    have hr := hproto r (List.mem_cons_self _ _)
    rw [List.foldl_cons]
    have hset : ExpenseMap.set acc r._id r.totalSpent = acc ++ [(r._id, r.totalSpent)] := by
      unfold ExpenseMap.set
      rw [if_neg hr]
      exact setOwn_of_not_mem acc _ _ (hdis r (List.mem_cons_self _ _))
    rw [hset, ih _ hnd.2 (fun r' hr' => hproto r' (List.mem_cons_of_mem _ hr'))]
    · simp
    · intro r' hr' hmem
      simp only [List.map_append, List.map_cons, List.map_nil, List.mem_append,
        List.mem_singleton] at hmem
      rcases hmem with hmem | hmem
      · exact hdis r' (List.mem_cons_of_mem _ hr') hmem
      · apply hnd.1
        rw [← hmem]
        exact List.mem_map.2 ⟨r', hr', rfl⟩

theorem expenseMapOf_of_distinct (rows : List ExpenseRow)
    (hnd : (rows.map (fun r => r._id)).Nodup)
    (hproto : ∀ r ∈ rows, r._id ≠ "__proto__") :
    expenseMapOf rows = rows.map (fun r => (r._id, r.totalSpent)) := by
  unfold expenseMapOf
  rw [foldl_expenseMap_set rows [] hnd hproto (by simp)]
  simp

theorem foldl_add_eq_sum (xs : List ℚ) (init : ℚ) :
    xs.foldl (fun sum amount => sum + amount) init = init + xs.sum := by
  induction xs generalizing init with
  | nil => simp
  | cons x xs ih =>
    rw [List.foldl_cons, ih, List.sum_cons]
    ring

theorem foldl_budget_amount (budgets : List Budget) (init : ℚ) :
    budgets.foldl (fun sum budget => sum + budget.amount) init
      = init + (budgets.map (fun b => b.amount)).sum := by
  induction budgets generalizing init with
  | nil => simp
  | cons b budgets ih =>
    rw [List.foldl_cons, ih, List.map_cons, List.sum_cons]
    ring

/-- The property of C10 where it holds: when the rows of the aggregation have
distinct categories, none of them `__proto__`, and the budget amounts are at
least 0, `totalBudget` is the sum of the budget amounts, `totalSpent` is the sum
of the totals of all rows, and `overallUsage` is
`totalSpent / totalBudget * 100`, or 0 when `totalBudget` is 0. -/
theorem getBudgets_summary_of_plain_rows (budgets : List Budget) (expenses : List ExpenseRow)
    (hnd : (expenses.map (fun r => r._id)).Nodup)
    (hproto : ∀ r ∈ expenses, r._id ≠ "__proto__")
    (hamount : ∀ b ∈ budgets, 0 ≤ b.amount) :
    (getBudgets budgets expenses).summary.totalBudget = (budgets.map (fun b => b.amount)).sum
      ∧ (getBudgets budgets expenses).summary.totalSpent
        = (expenses.map (fun r => r.totalSpent)).sum
      ∧ (getBudgets budgets expenses).summary.overallUsage
        = (if (getBudgets budgets expenses).summary.totalBudget ≠ 0 then
            JSVal.num ((getBudgets budgets expenses).summary.totalSpent
              / (getBudgets budgets expenses).summary.totalBudget * 100)
          else JSVal.num 0) := by
  have hB : (getBudgets budgets expenses).summary.totalBudget
      = (budgets.map (fun b => b.amount)).sum := by
    show budgets.foldl (fun sum budget => sum + budget.amount) 0 = _
    rw [foldl_budget_amount, zero_add]
  have hS : (getBudgets budgets expenses).summary.totalSpent
      = (expenses.map (fun r => r.totalSpent)).sum := by
    show ((expenseMapOf expenses).map (fun e => e.2)).foldl (fun sum amount => sum + amount) 0 = _
    rw [foldl_add_eq_sum, zero_add, expenseMapOf_of_distinct expenses hnd hproto, List.map_map]
    rfl
  refine ⟨hB, hS, ?_⟩
  have hnn : 0 ≤ (getBudgets budgets expenses).summary.totalBudget := by
    rw [hB]
    apply List.sum_nonneg
    intro x hx
    obtain ⟨b, hb, rfl⟩ := List.mem_map.1 hx
    exact hamount b hb
  show (if (getBudgets budgets expenses).summary.totalBudget > 0 then
      ((JSVal.num (getBudgets budgets expenses).summary.totalSpent).div
        (JSVal.num (getBudgets budgets expenses).summary.totalBudget)).mul (JSVal.num 100)
      else JSVal.num 0) = _
  by_cases hz : (getBudgets budgets expenses).summary.totalBudget = 0
  · have hngt : ¬ (getBudgets budgets expenses).summary.totalBudget > 0 := by
      rw [hz]; exact lt_irrefl 0
    rw [if_neg hngt, if_neg (not_not.2 hz)]
  · have hgt : (getBudgets budgets expenses).summary.totalBudget > 0 :=
      lt_of_le_of_ne hnn (Ne.symm hz)
    rw [if_pos hgt, if_pos hz]
    simp only [JSVal.div, JSVal.mul, JSVal.toNumber, if_neg hz]

/-- Witness of the property: a budget of 200 for Food, 50 spent on Food and 30 on
Travel, which has no budget. -/
theorem getBudgets_summary_of_plain_rows_witness :
    (getBudgets [Budget.mk 1 "Food" 200 1 2024 "#667eea"]
        [ExpenseRow.mk "Food" 50, ExpenseRow.mk "Travel" 30]).summary.totalSpent
      = ([ExpenseRow.mk "Food" 50, ExpenseRow.mk "Travel" 30].map (fun r => r.totalSpent)).sum :=
  (getBudgets_summary_of_plain_rows [Budget.mk 1 "Food" 200 1 2024 "#667eea"]
    [ExpenseRow.mk "Food" 50, ExpenseRow.mk "Travel" 30] (by decide) (by decide)
    (by intro b hb; simp only [List.mem_singleton] at hb; subst hb; norm_num)).2.1

/-- C10 at a failing input: the only expenses of the period, 50 in total, are in
the category `__proto__`.  The write `acc[item._id] = item.totalSpent` reaches
the inherited setter and stores nothing, so `totalSpent` is 0. -/
theorem getBudgets_totalSpent_proto :
    expenseMapOf [ExpenseRow.mk "__proto__" 50] = []
      ∧ (getBudgets [] [ExpenseRow.mk "__proto__" 50]).summary.totalSpent = 0 := by
  constructor
  · decide
  · decide

/-! ## The current year -/

theorem dayFromYear_bounds (y : Int) :
    146097 * (y - 1970) - 506 ≤ 400 * DayFromYear y
      ∧ 400 * DayFromYear y ≤ 146097 * (y - 1970) + 589 := by
  unfold DayFromYear
  omega

/-- The year of a time value is the one that contains its day. -/
theorem yearFromTime_spec (t : Int) :
    DayFromYear (YearFromTime t) ≤ Day t ∧ Day t < DayFromYear (YearFromTime t + 1) := by
  unfold YearFromTime
  simp only []
  generalize Day t = d
  have h0 := dayFromYear_bounds (1970 + d * 400 / 146097 - 1)
  have h3 := dayFromYear_bounds (1970 + d * 400 / 146097 + 1 + 1)
  have e1 : 1970 + d * 400 / 146097 - 1 + 1 = 1970 + d * 400 / 146097 := by ring
  split_ifs with hA hB
  · constructor
    · exact hA
    · omega
  · constructor
    · exact hB
    · omega
  · constructor
    · omega
    · rw [e1]; omega


/-! ## Groups -/

theorem find_eq_of_decide {κ : Type} [DecidableEq κ] (l : List κ) (k : κ) :
    l.find? (fun x => decide (x = k)) = if k ∈ l then some k else none := by
  induction l with
  | nil => simp
  | cons a l ih =>
    by_cases h : a = k
    · subst h
      simp
    · have hne : ¬ k = a := fun hc => h hc.symm
      simp [List.find?_cons, h, hne, ih]

theorem find_mongoGroup {τ κ : Type} [DecidableEq κ] (key : τ → κ) (rows : List τ) (k : κ) :
    (mongoGroup key rows).find? (fun g => decide (g.1 = k))
      = if k ∈ rows.map key then some (k, rows.filter (fun r => decide (key r = k)))
        else none := by
  unfold mongoGroup
  rw [List.find?_map]
  have hcomp : ((fun g : κ × List τ => decide (g.1 = k)) ∘
      fun k' => (k', rows.filter (fun r => decide (key r = k'))))
      = fun x => decide (x = k) := by
    funext x
    rfl
  rw [hcomp, find_eq_of_decide]
  by_cases hk : k ∈ rows.map key
  · rw [if_pos ((mem_jsSet _ _).2 hk), if_pos hk]
    rfl
  · rw [if_neg (fun hc => hk ((mem_jsSet _ _).1 hc)), if_neg hk]
    rfl

theorem keys_mongoGroup {τ κ : Type} [DecidableEq κ] (key : τ → κ) (rows : List τ) :
    (mongoGroup key rows).map (fun g => g.1) = jsSet (rows.map key) := by
  unfold mongoGroup
  rw [List.map_map]
  exact List.map_id _

/-! ## The savings goal -/

theorem totalOfType_savingsDataOf (transactions : List Transaction) (userId : Nat)
    (startOfYear : Int) (type : TransactionType) :
    totalOfType (savingsDataOf transactions userId startOfYear) type
      = amountSum (transactionsSince transactions userId type startOfYear) := by
  unfold totalOfType savingsDataOf
  rw [List.find?_map]
  have hcomp : ((fun d : TypeTotal => decide (d._id = type)) ∘
      fun g : TransactionType × List Transaction =>
        TypeTotal.mk g.1 (g.2.map (fun t => t.amount)).sum)
      = fun g => decide (g.1 = type) := by
    funext g
    rfl
  rw [hcomp, find_mongoGroup]
  have hfilter : (transactions.filter
      (fun t => decide (t.userId = userId) && decide (startOfYear ≤ t.date))).filter
        (fun r => decide (r.type = type))
      = transactionsSince transactions userId type startOfYear := by
    unfold transactionsSince
    rw [List.filter_filter]
    apply List.filter_congr
    intro t _
    cases decide (t.userId = userId) <;> cases decide (t.type = type) <;>
      cases decide (startOfYear ≤ t.date) <;> rfl
  by_cases hmem : type ∈ (transactions.filter
      (fun t => decide (t.userId = userId) && decide (startOfYear ≤ t.date))).map
        (fun t : Transaction => t.type)
  · rw [if_pos hmem]
    simp only [Option.map_some']
    rw [hfilter]
    rfl
  · rw [if_neg hmem]
    have hnot := hmem
    simp only [Option.map_none']
    have hempty : transactionsSince transactions userId type startOfYear = [] := by
      rw [← hfilter, List.filter_eq_nil_iff]
      intro t ht hty
      apply hnot
      exact List.mem_map.2 ⟨t, ht, by simpa using hty⟩
    rw [hempty]
    rfl

/-- The current savings are the income minus the expenses since the start of the
year, not below 0. -/
theorem currentSavingsOf_eq (transactions : List Transaction) (userId : Nat)
    (startOfYear : Int) :
    currentSavingsOf transactions userId startOfYear
      = Max.max
          (amountSum (transactionsSince transactions userId TransactionType.income startOfYear)
            - amountSum
                (transactionsSince transactions userId TransactionType.expense startOfYear))
          0 := by
  unfold currentSavingsOf
  simp only [totalOfType_savingsDataOf]

theorem findGoal_userId (goals : List SavingsGoal) (userId : Nat) (g : SavingsGoal)
    (h : findGoal goals userId = some g) : g.userId = userId := by
  unfold findGoal at h
  have := List.find?_some h
  simpa using this

theorem findGoal_replaceGoal (goals : List SavingsGoal) (userId : Nat) (g g' : SavingsGoal)
    (h : findGoal goals userId = some g) (hu : g'.userId = userId) :
    findGoal (replaceGoal goals g') userId = some g' := by
  induction goals with
  | nil => simp [findGoal] at h
  | cons a goals ih =>
    by_cases ha : a.userId = userId
    · have hrep : replaceGoal (a :: goals) g' = g' :: goals := by
        simp [replaceGoal, ha, hu]
      rw [hrep]
      simp [findGoal, hu]
    · have hne : ¬ a.userId = g'.userId := by rw [hu]; exact ha
      have hrep : replaceGoal (a :: goals) g' = a :: replaceGoal goals g' := by
        simp [replaceGoal, hne]
      rw [hrep]
      have h' : findGoal goals userId = some g := by
        simpa [findGoal, List.find?_cons, ha] using h
      have := ih h'
      simpa [findGoal, List.find?_cons, ha] using this

theorem preSave_userId (g : SavingsGoal) : (preSave g).userId = g.userId := by
  unfold preSave
  split <;> rfl

theorem preSave_goalAmount (g : SavingsGoal) : (preSave g).goalAmount = g.goalAmount := by
  unfold preSave
  split <;> rfl

theorem preSave_currentAmount (g : SavingsGoal) :
    (preSave g).currentAmount = g.currentAmount := by
  unfold preSave
  split <;> rfl

theorem preSave_targetDate (g : SavingsGoal) : (preSave g).targetDate = g.targetDate := by
  unfold preSave
  split <;> rfl

theorem updatedGoal_userId (c : ℚ) (g : SavingsGoal) : (updatedGoal c g).userId = g.userId := by
  unfold updatedGoal
  simp only []
  split <;> rfl

theorem updatedGoal_goalAmount (c : ℚ) (g : SavingsGoal) :
    (updatedGoal c g).goalAmount = g.goalAmount := by
  unfold updatedGoal
  simp only []
  split <;> rfl

theorem updatedGoal_currentAmount (c : ℚ) (g : SavingsGoal) :
    (updatedGoal c g).currentAmount = c := by
  unfold updatedGoal
  simp only []
  split <;> rfl

theorem updatedGoal_targetDate (c : ℚ) (g : SavingsGoal) :
    (updatedGoal c g).targetDate = g.targetDate := by
  unfold updatedGoal
  simp only []
  split <;> rfl

/-- The completion flag after the assignment and the hook: it is set when the
savings reach the goal amount and is otherwise what it was. -/
theorem isCompleted_saved (c : ℚ) (g : SavingsGoal) :
    (preSave (updatedGoal c g)).isCompleted = (decide (c ≥ g.goalAmount) || g.isCompleted) := by
  by_cases hc : c ≥ g.goalAmount
  · have h1 : updatedGoal c g = { g with currentAmount := c, isCompleted := true } := by
      unfold updatedGoal
      simp only []
      rw [if_pos hc]
    rw [h1]
    unfold preSave
    simp [hc]
  · have h1 : updatedGoal c g = { g with currentAmount := c } := by
      unfold updatedGoal
      simp only []
      rw [if_neg hc]
    rw [h1]
    unfold preSave
    simp [hc]

/-- The handler on a user with a goal: the saved document and the data. -/
theorem getSavingsGoal_of_found (now startOfYear : Int) (goals : List SavingsGoal)
    (transactions : List Transaction) (userId : Nat) (g : SavingsGoal)
    (h : findGoal goals userId = some g) :
    getSavingsGoal now startOfYear goals transactions userId
      = (replaceGoal goals
            (preSave (updatedGoal (currentSavingsOf transactions userId startOfYear) g)),
          some (savingsGoalData now (currentSavingsOf transactions userId startOfYear)
            (preSave (updatedGoal (currentSavingsOf transactions userId startOfYear) g)))) := by
  unfold getSavingsGoal
  rw [h]

theorem findGoal_after_getSavingsGoal (now startOfYear : Int) (goals : List SavingsGoal)
    (transactions : List Transaction) (userId : Nat) (g : SavingsGoal)
    (h : findGoal goals userId = some g) :
    findGoal (getSavingsGoal now startOfYear goals transactions userId).1 userId
      = some (preSave (updatedGoal (currentSavingsOf transactions userId startOfYear) g)) := by
  rw [getSavingsGoal_of_found now startOfYear goals transactions userId g h]
  apply findGoal_replaceGoal goals userId g _ h
  rw [preSave_userId, updatedGoal_userId]
  exact findGoal_userId goals userId g h


theorem startOfYearOf_eq (tz now s : Int) (hstart : startOfYearOf tz now = some s)
    (hyear : 100 ≤ YearFromTime (now + tz)) :
    s = MakeDate (DayFromYear (YearFromTime (now + tz))) 0 - tz := by
  unfold startOfYearOf at hstart
  have h := (newDate_eq_some tz _ 0 1 s hstart).1
  have hfull : fullYear (YearFromTime (now + tz)) = YearFromTime (now + tz) := by
    unfold fullYear
    rw [if_neg]
    omega
  rw [hfull] at h
  rw [h]
  simp [MakeDay, MakeDate, dayOfMonthStart]

/-- C11: `getSavingsGoal` overwrites the stored `currentAmount` of the user's goal
with `max (I - E) 0`, where `I` and `E` are the sums of the user's income and
expense amounts dated at or after local midnight of 1 January of the current
year, whatever was stored before; the result is not negative, and it is the
`currentAmount` of the response. -/
theorem getSavingsGoal_currentAmount (tz now s : Int) (goals : List SavingsGoal)
    (transactions : List Transaction) (userId : Nat) (g : SavingsGoal)
    (hstart : startOfYearOf tz now = some s) (hyear : 100 ≤ YearFromTime (now + tz))
    (hfind : findGoal goals userId = some g) :
    s = MakeDate (DayFromYear (YearFromTime (now + tz))) 0 - tz
      ∧ DayFromYear (YearFromTime (now + tz)) ≤ Day (now + tz)
      ∧ Day (now + tz) < DayFromYear (YearFromTime (now + tz) + 1)
      ∧ ∃ saved : SavingsGoal,
          findGoal (getSavingsGoal now s goals transactions userId).1 userId = some saved
            ∧ (getSavingsGoal now s goals transactions userId).2.map (fun d => d.goal)
              = some saved
            ∧ saved.currentAmount
              = Max.max
                  (amountSum (transactionsSince transactions userId TransactionType.income s)
                    - amountSum
                        (transactionsSince transactions userId TransactionType.expense s))
                  0
            ∧ 0 ≤ saved.currentAmount := by
  refine ⟨startOfYearOf_eq tz now s hstart hyear, (yearFromTime_spec _).1,
    (yearFromTime_spec _).2, ?_⟩
  refine ⟨preSave (updatedGoal (currentSavingsOf transactions userId s) g),
    findGoal_after_getSavingsGoal now s goals transactions userId g hfind, ?_, ?_, ?_⟩
  · rw [getSavingsGoal_of_found now s goals transactions userId g hfind]
    rfl
  · rw [preSave_currentAmount, updatedGoal_currentAmount, currentSavingsOf_eq]
  · rw [preSave_currentAmount, updatedGoal_currentAmount, currentSavingsOf_eq]
    exact le_max_right _ _

/-- Witness of C11: on 2024-06-15 at UTC, a goal with a stored amount of 777 and
the transactions of scenario A: the amount becomes 100 - 60 = 40. -/
theorem getSavingsGoal_currentAmount_witness :
    ∃ saved : SavingsGoal,
      findGoal (getSavingsGoal 1718409600000 1704067200000
          [SavingsGoal.mk 1 1000 777 1735689600000 false] scenarioA 1).1 1 = some saved
        ∧ saved.currentAmount
          = Max.max
              (amountSum (transactionsSince scenarioA 1 TransactionType.income 1704067200000)
                - amountSum
                    (transactionsSince scenarioA 1 TransactionType.expense 1704067200000))
              0 := by
  obtain ⟨_, _, _, saved, h1, _, h3, _⟩ :=
    getSavingsGoal_currentAmount 0 1718409600000 1704067200000
      [SavingsGoal.mk 1 1000 777 1735689600000 false] scenarioA 1
      (SavingsGoal.mk 1 1000 777 1735689600000 false) (by decide) (by decide) (by decide)
  exact ⟨saved, h1, h3⟩

theorem getSavingsGoalCalls_latch (userId : Nat)
    (calls : List (Int × Int × List Transaction)) :
    ∀ (goals : List SavingsGoal) (g : SavingsGoal), findGoal goals userId = some g →
      g.isCompleted = true →
      ∃ g' : SavingsGoal,
        findGoal (getSavingsGoalCalls userId calls goals) userId = some g'
          ∧ g'.isCompleted = true := by
  induction calls with
  | nil =>
    intro goals g hfind hdone
    exact ⟨g, hfind, hdone⟩
  | cons call calls ih =>
    intro goals g hfind hdone
    obtain ⟨now, startOfYear, transactions⟩ := call
    have hnext := findGoal_after_getSavingsGoal now startOfYear goals transactions userId g hfind
    have hflag : (preSave (updatedGoal (currentSavingsOf transactions userId startOfYear)
        g)).isCompleted = true := by
      rw [isCompleted_saved, hdone, Bool.or_true]
    exact ih _ _ hnext hflag

/-- C12: `getSavingsGoal` is a one-way latch on `isCompleted`.  After a call the
flag of the user's goal is true when the current savings reach the goal amount,
and it is true when it was true before; after any sequence of calls, whatever
the times and the transactions stored at each, a flag that was true is true. -/
theorem getSavingsGoal_latch (goals : List SavingsGoal) (userId : Nat) (g : SavingsGoal)
    (hfind : findGoal goals userId = some g) :
    (∀ (now startOfYear : Int) (transactions : List Transaction),
        ∃ saved : SavingsGoal,
          findGoal (getSavingsGoal now startOfYear goals transactions userId).1 userId
              = some saved
            ∧ (getSavingsGoal now startOfYear goals transactions userId).2.map
                (fun d => d.goal) = some saved
            ∧ (currentSavingsOf transactions userId startOfYear ≥ g.goalAmount →
                saved.isCompleted = true)
            ∧ (g.isCompleted = true → saved.isCompleted = true))
      ∧ (g.isCompleted = true →
          ∀ calls : List (Int × Int × List Transaction),
            ∃ g' : SavingsGoal,
              findGoal (getSavingsGoalCalls userId calls goals) userId = some g'
                ∧ g'.isCompleted = true) := by
  constructor
  · intro now startOfYear transactions
    refine ⟨preSave (updatedGoal (currentSavingsOf transactions userId startOfYear) g),
      findGoal_after_getSavingsGoal now startOfYear goals transactions userId g hfind, ?_, ?_, ?_⟩
    · rw [getSavingsGoal_of_found now startOfYear goals transactions userId g hfind]
      rfl
    · intro hreach
      rw [isCompleted_saved]
      simp [hreach]
    · intro hdone
      rw [isCompleted_saved, hdone, Bool.or_true]
  · intro hdone calls
    exact getSavingsGoalCalls_latch userId calls goals g hfind hdone

/-- Witness of C12: a completed goal of 1000 stays completed over two calls in
which the savings are 40. -/
theorem getSavingsGoal_latch_witness :
    ∃ g' : SavingsGoal,
      findGoal (getSavingsGoalCalls 1
          [(1718409600000, 1704067200000, scenarioA),
           (1718496000000, 1704067200000, scenarioA)]
          [SavingsGoal.mk 1 1000 1000 1735689600000 true]) 1 = some g'
        ∧ g'.isCompleted = true :=
  (getSavingsGoal_latch [SavingsGoal.mk 1 1000 1000 1735689600000 true] 1
    (SavingsGoal.mk 1 1000 1000 1735689600000 true) (by decide)).2 (by decide) _

theorem ceilDiv_eq_ceil (x : Int) :
    ceilDiv x (1000 * 60 * 60 * 24) = Int.ceil ((x : ℚ) / 86400000) := by
  unfold ceilDiv
  have h := Rat.floor_intCast_div_natCast (-x) 86400000
  have hneg : Int.ceil ((x : ℚ) / 86400000) = -Int.floor (-((x : ℚ) / 86400000)) := by
    rw [Int.floor_neg, neg_neg]
  rw [hneg]
  have hcast : -((x : ℚ) / 86400000) = (((-x : Int) : ℚ)) / ((86400000 : Nat) : ℚ) := by
    push_cast
    ring
  rw [hcast, h]
  norm_num

theorem div_num_num (x y : ℚ) (hy : y ≠ 0) :
    (JSVal.num x).div (JSVal.num y) = JSVal.num (x / y) := by
  simp [JSVal.div, JSVal.toNumber, hy]

theorem mul_num_num (x y : ℚ) : (JSVal.num x).mul (JSVal.num y) = JSVal.num (x * y) := by
  simp [JSVal.mul, JSVal.toNumber]

theorem min_num_num (x y : ℚ) : (JSVal.num x).min (JSVal.num y) = JSVal.num (Min.min x y) := by
  simp [JSVal.min, JSVal.toNumber]

theorem max_num_num (x y : ℚ) : (JSVal.num x).max (JSVal.num y) = JSVal.num (Max.max x y) := by
  simp [JSVal.max, JSVal.toNumber]

/-- The progress of the response data, for a goal amount above 0. -/
theorem savingsGoalData_progress_pos (c : ℚ) (t : Int) (g : SavingsGoal)
    (h : g.goalAmount > 0) :
    (savingsGoalData t c g).progress
      = JSVal.num (Min.min (g.currentAmount / g.goalAmount * 100) 100) := by
  have hne : g.goalAmount ≠ 0 := ne_of_gt h
  simp only [savingsGoalData, if_pos h, div_num_num _ _ hne, mul_num_num, min_num_num]

theorem savingsGoalData_progress_nonpos (c : ℚ) (t : Int) (g : SavingsGoal)
    (h : ¬ g.goalAmount > 0) :
    (savingsGoalData t c g).progress = JSVal.num 0 := by
  simp only [savingsGoalData, if_neg h, min_num_num]
  norm_num

/-- C13: the `progress` of the response of `getSavingsGoal` is
`min (currentAmount / goalAmount * 100) 100` for a goal amount above 0 and 0
otherwise; it lies between 0 and 100; for a goal amount above 0 it is 100
exactly when the current amount reaches the goal amount, and then the goal is
completed. -/
theorem getSavingsGoal_progress (now startOfYear : Int) (goals : List SavingsGoal)
    (transactions : List Transaction) (userId : Nat) (g : SavingsGoal)
    (hfind : findGoal goals userId = some g) :
    ∃ d : SavingsGoalData,
      (getSavingsGoal now startOfYear goals transactions userId).2 = some d
        ∧ (d.goal.goalAmount > 0 →
            d.progress
              = JSVal.num (Min.min (d.goal.currentAmount / d.goal.goalAmount * 100) 100))
        ∧ (d.goal.goalAmount ≤ 0 → d.progress = JSVal.num 0)
        ∧ (∃ p : ℚ, d.progress = JSVal.num p ∧ 0 ≤ p ∧ p ≤ 100)
        ∧ (d.goal.goalAmount > 0 →
            (d.progress = JSVal.num 100 ↔ d.goal.currentAmount ≥ d.goal.goalAmount))
        ∧ (d.goal.currentAmount ≥ d.goal.goalAmount → d.goal.isCompleted = true) := by
  have hdata := getSavingsGoal_of_found now startOfYear goals transactions userId g hfind
  refine ⟨_, by rw [hdata], ?_, ?_, ?_, ?_, ?_⟩
  · intro hpos
    exact savingsGoalData_progress_pos _ now _ hpos
  · intro hnp
    exact savingsGoalData_progress_nonpos _ now _ (not_lt.2 hnp)
  · have hcur : (0 : ℚ) ≤ (preSave (updatedGoal (currentSavingsOf transactions userId
        startOfYear) g)).currentAmount := by
      rw [preSave_currentAmount, updatedGoal_currentAmount, currentSavingsOf_eq]
      exact le_max_right _ _
    by_cases hpos : (preSave (updatedGoal (currentSavingsOf transactions userId
        startOfYear) g)).goalAmount > 0
    · refine ⟨_, savingsGoalData_progress_pos _ now _ hpos, ?_, min_le_right _ _⟩
      apply le_min _ (by norm_num)
      exact mul_nonneg (div_nonneg hcur (le_of_lt hpos)) (by norm_num)
    · exact ⟨0, savingsGoalData_progress_nonpos _ now _ hpos, le_refl _, by norm_num⟩
  · intro hpos
    have hpos' : (preSave (updatedGoal (currentSavingsOf transactions userId
        startOfYear) g)).goalAmount > 0 := hpos
    show (savingsGoalData now (currentSavingsOf transactions userId startOfYear)
        (preSave (updatedGoal (currentSavingsOf transactions userId startOfYear) g))).progress
        = JSVal.num 100
      ↔ (preSave (updatedGoal (currentSavingsOf transactions userId
          startOfYear) g)).currentAmount
        ≥ (preSave (updatedGoal (currentSavingsOf transactions userId
          startOfYear) g)).goalAmount
    rw [savingsGoalData_progress_pos _ now _ hpos']
    constructor
    · intro h
      have h' := JSVal.num.inj h
      have hge : (100 : ℚ) ≤ (preSave (updatedGoal (currentSavingsOf transactions userId
          startOfYear) g)).currentAmount / (preSave (updatedGoal (currentSavingsOf transactions
          userId startOfYear) g)).goalAmount * 100 := min_eq_right_iff.1 h'
      have h1 : (1 : ℚ) ≤ (preSave (updatedGoal (currentSavingsOf transactions userId
          startOfYear) g)).currentAmount / (preSave (updatedGoal (currentSavingsOf transactions
          userId startOfYear) g)).goalAmount := by linarith
      exact (one_le_div hpos').1 h1
    · intro hge
      have h1 := (one_le_div hpos').2 hge
      have h2 : Min.min ((preSave (updatedGoal (currentSavingsOf transactions userId
          startOfYear) g)).currentAmount / (preSave (updatedGoal (currentSavingsOf transactions
          userId startOfYear) g)).goalAmount * 100) 100 = 100 :=
        min_eq_right (by linarith)
      rw [h2]
  · intro hge
    have hge' : (updatedGoal (currentSavingsOf transactions userId startOfYear) g).currentAmount
        ≥ (updatedGoal (currentSavingsOf transactions userId startOfYear) g).goalAmount := by
      have h := hge
      change (preSave _).currentAmount ≥ (preSave _).goalAmount at h
      rwa [preSave_currentAmount, preSave_goalAmount] at h
    show (preSave _).isCompleted = true
    unfold preSave
    rw [if_pos hge']

/-- Witness of C13, scenario D: a goal of 1000 with savings of 1000 has progress
100 and is completed. -/
theorem getSavingsGoal_progress_witness :
    ∃ d : SavingsGoalData,
      (getSavingsGoal 1718409600000 1704067200000
          [SavingsGoal.mk 1 1000 0 1735689600000 false]
          [Transaction.mk 1 1000 TransactionType.income "Salary" 1704067200000] 1).2 = some d
        ∧ (d.goal.goalAmount > 0 →
            (d.progress = JSVal.num 100 ↔ d.goal.currentAmount ≥ d.goal.goalAmount))
        ∧ (d.goal.currentAmount ≥ d.goal.goalAmount → d.goal.isCompleted = true) := by
  obtain ⟨d, h1, _, _, _, h5, h6⟩ :=
    getSavingsGoal_progress 1718409600000 1704067200000
      [SavingsGoal.mk 1 1000 0 1735689600000 false]
      [Transaction.mk 1 1000 TransactionType.income "Salary" 1704067200000] 1
      (SavingsGoal.mk 1 1000 0 1735689600000 false) (by decide)
  exact ⟨d, h1, h5, h6⟩

/-- C14: in the response of `getSavingsGoal`, with `D` the number
`ceil ((targetDate - now) / 1 day)`: `daysRemaining` is `max D 0`, `amountNeeded`
is `max (goalAmount - currentAmount) 0`, and `dailySavingsNeeded` is
`amountNeeded / D` when `D > 0` and `amountNeeded` otherwise, always a finite
number; a target date that is not after `now` gives 0 days and the whole amount. -/
theorem getSavingsGoal_daysRemaining (now startOfYear : Int) (goals : List SavingsGoal)
    (transactions : List Transaction) (userId : Nat) (g : SavingsGoal)
    (hfind : findGoal goals userId = some g) :
    ∃ d : SavingsGoalData,
      (getSavingsGoal now startOfYear goals transactions userId).2 = some d
        ∧ d.goal.targetDate = g.targetDate
        ∧ d.daysRemaining
          = Max.max (Int.ceil (((g.targetDate - now : Int) : ℚ) / 86400000)) 0
        ∧ d.amountNeeded = Max.max (d.goal.goalAmount - d.goal.currentAmount) 0
        ∧ (Int.ceil (((g.targetDate - now : Int) : ℚ) / 86400000) > 0 →
            d.dailySavingsNeeded
              = JSVal.num (d.amountNeeded
                  / ((Int.ceil (((g.targetDate - now : Int) : ℚ) / 86400000) : Int) : ℚ)))
        ∧ (Int.ceil (((g.targetDate - now : Int) : ℚ) / 86400000) ≤ 0 →
            d.dailySavingsNeeded = JSVal.num d.amountNeeded)
        ∧ (g.targetDate ≤ now →
            d.daysRemaining = 0 ∧ d.dailySavingsNeeded = JSVal.num d.amountNeeded) := by
  have hdata := getSavingsGoal_of_found now startOfYear goals transactions userId g hfind
  have htarget : (preSave (updatedGoal (currentSavingsOf transactions userId startOfYear)
      g)).targetDate = g.targetDate := by
    rw [preSave_targetDate, updatedGoal_targetDate]
  have hneed : (0 : ℚ) ≤ Max.max ((preSave (updatedGoal (currentSavingsOf transactions userId
      startOfYear) g)).goalAmount - (preSave (updatedGoal (currentSavingsOf transactions userId
      startOfYear) g)).currentAmount) 0 := le_max_right _ _
  have hpos : Int.ceil (((g.targetDate - now : Int) : ℚ) / 86400000) > 0 →
      (savingsGoalData now (currentSavingsOf transactions userId startOfYear)
        (preSave (updatedGoal (currentSavingsOf transactions userId startOfYear)
          g))).dailySavingsNeeded
        = JSVal.num ((savingsGoalData now (currentSavingsOf transactions userId startOfYear)
            (preSave (updatedGoal (currentSavingsOf transactions userId startOfYear)
              g))).amountNeeded
            / ((Int.ceil (((g.targetDate - now : Int) : ℚ) / 86400000) : Int) : ℚ)) := by
    intro hD
    have hDq : ((Int.ceil (((g.targetDate - now : Int) : ℚ) / 86400000) : Int) : ℚ) > 0 := by
      exact_mod_cast hD
    simp only [savingsGoalData, htarget, ceilDiv_eq_ceil, if_pos hD,
      div_num_num _ _ (ne_of_gt hDq), max_num_num]
    congr 1
    exact max_eq_left (div_nonneg hneed (le_of_lt hDq))
  have hnonpos : Int.ceil (((g.targetDate - now : Int) : ℚ) / 86400000) ≤ 0 →
      (savingsGoalData now (currentSavingsOf transactions userId startOfYear)
        (preSave (updatedGoal (currentSavingsOf transactions userId startOfYear)
          g))).dailySavingsNeeded
        = JSVal.num (savingsGoalData now (currentSavingsOf transactions userId startOfYear)
            (preSave (updatedGoal (currentSavingsOf transactions userId startOfYear)
              g))).amountNeeded := by
    intro hD
    simp only [savingsGoalData, htarget, ceilDiv_eq_ceil, if_neg (not_lt.2 hD), max_num_num]
    congr 1
    exact max_eq_left hneed
  refine ⟨_, by rw [hdata], htarget, ?_, rfl, hpos, hnonpos, ?_⟩
  · simp only [savingsGoalData, htarget, ceilDiv_eq_ceil]
  · intro hpast
    have hD : Int.ceil (((g.targetDate - now : Int) : ℚ) / 86400000) ≤ 0 := by
      rw [Int.ceil_le]
      have hx : ((g.targetDate - now : Int) : ℚ) ≤ 0 := by
        exact_mod_cast sub_nonpos.2 hpast
      simpa using div_nonpos_of_nonpos_of_nonneg hx (by norm_num : (0 : ℚ) ≤ 86400000)
    refine ⟨?_, hnonpos hD⟩
    simp only [savingsGoalData, htarget, ceilDiv_eq_ceil]
    exact max_eq_right hD

/-- Witness of C14, scenario E: a target date in the past gives 0 days and the
whole amount per day. -/
theorem getSavingsGoal_daysRemaining_witness :
    ∃ d : SavingsGoalData,
      (getSavingsGoal 1718409600000 1704067200000
          [SavingsGoal.mk 1 1000 0 1704067200000 false] scenarioA 1).2 = some d
        ∧ d.daysRemaining = 0 ∧ d.dailySavingsNeeded = JSVal.num d.amountNeeded := by
  obtain ⟨d, h1, _, _, _, _, _, h7⟩ :=
    getSavingsGoal_daysRemaining 1718409600000 1704067200000
      [SavingsGoal.mk 1 1000 0 1704067200000 false] scenarioA 1
      (SavingsGoal.mk 1 1000 0 1704067200000 false) (by decide)
  exact ⟨d, h1, h7 (by decide)⟩

/-! ## The savings progress -/

theorem length_progressDataFrom (goalAmount : ℚ) (rows : List MonthlySavingsRow) :
    ∀ cumulative : ℚ, (progressDataFrom goalAmount cumulative rows).length = rows.length := by
  induction rows with
  | nil => intro _; rfl
  | cons r rows ih =>
    intro c
    simp [progressDataFrom, ih]

theorem cumulativeSavings_progressDataFrom (goalAmount : ℚ) (rows : List MonthlySavingsRow) :
    ∀ (cumulative : ℚ) (k : Nat), k < rows.length →
      ((progressDataFrom goalAmount cumulative rows).map (fun e => e.cumulativeSavings))[k]?
        = some (Max.max
            (cumulative + ((rows.take (k + 1)).map (fun r => r.savings)).sum) 0) := by
  induction rows with
  | nil =>
    intro _ k hk
    simp at hk
  | cons r rows ih =>
    intro c k hk
    cases k with
    | zero => simp [progressDataFrom]
    | succ k =>
      have hk' : k < rows.length := by simpa using hk
      have h := ih (c + r.savings) k hk'
      simp only [progressDataFrom, List.map_cons, List.getElem?_cons_succ, h, List.take_succ_cons,
        List.sum_cons]
      congr 2
      ring

/-- C15 (amended): the `cumulativeSavings` of month `k` in the series of
`getSavingsProgress` is `max (d 1 + ... + d k) 0`: the sum of the monthly savings
so far, not below 0; the series has one entry per month. -/
theorem getSavingsProgress_cumulative (goals : List SavingsGoal) (userId : Nat)
    (g : SavingsGoal) (monthlySavings : List MonthlySavingsRow)
    (hfind : findGoal goals userId = some g) :
    (getSavingsProgress goals userId monthlySavings).length = monthlySavings.length
      ∧ ∀ k : Nat, k < monthlySavings.length →
          ((getSavingsProgress goals userId monthlySavings).map
              (fun e => e.cumulativeSavings))[k]?
            = some (Max.max
                (((monthlySavings.take (k + 1)).map (fun r => r.savings)).sum) 0) := by
  unfold getSavingsProgress
  rw [hfind]
  refine ⟨length_progressDataFrom _ _ 0, ?_⟩
  intro k hk
  have h := cumulativeSavings_progressDataFrom g.goalAmount monthlySavings 0 k hk
  rw [zero_add] at h
  exact h

/-- Witness of C15 (amended): a deficit of 100 followed by savings of 50 and of
2000. -/
theorem getSavingsProgress_cumulative_witness :
    ((getSavingsProgress [SavingsGoal.mk 1 1000 0 1735689600000 false] 1
        [MonthlySavingsRow.mk 2024 1 (-100), MonthlySavingsRow.mk 2024 2 50,
         MonthlySavingsRow.mk 2024 3 2000]).map (fun e => e.cumulativeSavings))[2]?
      = some (Max.max
          ((([MonthlySavingsRow.mk 2024 1 (-100), MonthlySavingsRow.mk 2024 2 50,
              MonthlySavingsRow.mk 2024 3 2000].take (2 + 1)).map (fun r => r.savings)).sum) 0) :=
  (getSavingsProgress_cumulative [SavingsGoal.mk 1 1000 0 1735689600000 false] 1
    (SavingsGoal.mk 1 1000 0 1735689600000 false) _ (by decide)).2 2 (by decide)

/-- Counterexample to C15 as stated: after a deficit of 100, savings of 50 give a
`cumulativeSavings` of 0, where the total clamped at every step is 50. -/
theorem getSavingsProgress_not_clamped_each_step :
    (getSavingsProgress [SavingsGoal.mk 1 1000 0 1735689600000 false] 1
        [MonthlySavingsRow.mk 2024 1 (-100), MonthlySavingsRow.mk 2024 2 50]).map
        (fun e => e.cumulativeSavings) = [0, 0]
      ∧ clampedRunning 0 [-100, 50] = [0, 50] := by
  constructor
  · have hfind : findGoal [SavingsGoal.mk 1 1000 0 1735689600000 false] 1
        = some (SavingsGoal.mk 1 1000 0 1735689600000 false) := by decide
    simp only [getSavingsProgress, hfind, progressDataFrom, List.map_cons, List.map_nil]
    norm_num
  · simp only [clampedRunning]
    norm_num

theorem progressDataFrom_entry (goalAmount : ℚ) (rows : List MonthlySavingsRow) :
    ∀ (cumulative : ℚ) (e : ProgressEntry), e ∈ progressDataFrom goalAmount cumulative rows →
      0 ≤ e.cumulativeSavings
        ∧ (goalAmount > 0 →
            e.progress = JSVal.num (Min.min (e.cumulativeSavings / goalAmount * 100) 100))
        ∧ (¬ goalAmount > 0 → e.progress = JSVal.num 0) := by
  induction rows with
  | nil =>
    intro _ e he
    simp [progressDataFrom] at he
  | cons r rows ih =>
    intro c e he
    simp only [progressDataFrom, List.mem_cons] at he
    rcases he with rfl | he
    · refine ⟨le_max_right _ _, ?_, ?_⟩
      · intro hpos
        simp only [if_pos hpos, div_num_num _ _ (ne_of_gt hpos), mul_num_num, min_num_num]
      · intro hnp
        simp only [if_neg hnp]
    · exact ih _ e he

/-- C16: every entry of the series of `getSavingsProgress` has a
`cumulativeSavings` of at least 0 and a `progress` of
`min (cumulativeSavings / goalAmount * 100) 100` for a goal amount above 0, and 0
otherwise; the progress lies between 0 and 100. -/
theorem getSavingsProgress_progress (goals : List SavingsGoal) (userId : Nat)
    (g : SavingsGoal) (monthlySavings : List MonthlySavingsRow)
    (hfind : findGoal goals userId = some g) :
    ∀ e ∈ getSavingsProgress goals userId monthlySavings,
      0 ≤ e.cumulativeSavings
        ∧ (g.goalAmount > 0 →
            e.progress = JSVal.num (Min.min (e.cumulativeSavings / g.goalAmount * 100) 100))
        ∧ (¬ g.goalAmount > 0 → e.progress = JSVal.num 0)
        ∧ ∃ p : ℚ, e.progress = JSVal.num p ∧ 0 ≤ p ∧ p ≤ 100 := by
  intro e he
  unfold getSavingsProgress at he
  rw [hfind] at he
  obtain ⟨h1, h2, h3⟩ := progressDataFrom_entry g.goalAmount monthlySavings 0 e he
  refine ⟨h1, h2, h3, ?_⟩
  by_cases hpos : g.goalAmount > 0
  · refine ⟨_, h2 hpos, ?_, min_le_right _ _⟩
    apply le_min _ (by norm_num)
    exact mul_nonneg (div_nonneg h1 (le_of_lt hpos)) (by norm_num)
  · exact ⟨0, h3 hpos, le_refl _, by norm_num⟩

/-- Witness of C16: the third entry of a series of three months. -/
theorem getSavingsProgress_progress_witness :
    0 ≤ (ProgressEntry.mk 2024 3 2000 1950 (JSVal.num 100)).cumulativeSavings
      ∧ ∃ p : ℚ, (ProgressEntry.mk 2024 3 2000 1950 (JSVal.num 100)).progress = JSVal.num p
          ∧ 0 ≤ p ∧ p ≤ 100 := by
  have hmem : ProgressEntry.mk 2024 3 2000 1950 (JSVal.num 100)
      ∈ getSavingsProgress [SavingsGoal.mk 1 1000 0 1735689600000 false] 1
        [MonthlySavingsRow.mk 2024 1 (-100), MonthlySavingsRow.mk 2024 2 50,
         MonthlySavingsRow.mk 2024 3 2000] := by
    have hfind : findGoal [SavingsGoal.mk 1 1000 0 1735689600000 false] 1
        = some (SavingsGoal.mk 1 1000 0 1735689600000 false) := by decide
    simp only [getSavingsProgress, hfind, progressDataFrom, List.mem_cons]
    right
    right
    left
    norm_num [JSVal.div, JSVal.mul, JSVal.min, JSVal.toNumber]
  obtain ⟨h1, _, _, h4⟩ :=
    getSavingsProgress_progress [SavingsGoal.mk 1 1000 0 1735689600000 false] 1
      (SavingsGoal.mk 1 1000 0 1735689600000 false) _ (by decide) _ hmem
  exact ⟨h1, h4⟩

/-! ## Budget recommendations -/

theorem mem_mongoGroup {τ κ : Type} [DecidableEq κ] (key : τ → κ) (rows : List τ)
    (g : κ × List τ) (h : g ∈ mongoGroup key rows) :
    g.1 ∈ rows.map key ∧ g.2 = rows.filter (fun r => decide (key r = g.1)) := by
  unfold mongoGroup at h
  obtain ⟨k, hk, rfl⟩ := List.mem_map.1 h
  exact ⟨(mem_jsSet _ _).1 hk, rfl⟩

theorem categories_averageSpendingOf (expenses : List Transaction) :
    (averageSpendingOf expenses).map (fun r => r._id)
      = jsSet ((monthlySpentRows expenses).map (fun r => r._id.1)) := by
  unfold averageSpendingOf
  rw [List.map_map]
  have h := keys_mongoGroup (fun r : MonthlySpentRow => r._id.1) (monthlySpentRows expenses)
  rw [← h]
  rfl

theorem mem_categories_monthlySpentRows (expenses : List Transaction) (c : String) :
    c ∈ (monthlySpentRows expenses).map (fun r => r._id.1)
      ↔ ∃ t ∈ expenses, t.category = c := by
  unfold monthlySpentRows mongoGroup
  simp only [List.map_map, List.mem_map, Function.comp_apply, mem_jsSet]
  constructor
  · rintro ⟨k, ⟨t, ht, rfl⟩, rfl⟩
    exact ⟨t, ht, rfl⟩
  · rintro ⟨t, ht, rfl⟩
    exact ⟨monthlyKey t, ⟨t, ht, rfl⟩, rfl⟩

theorem monthlySpent_of_category (expenses : List Transaction) (c : String) :
    ((monthlySpentRows expenses).filter (fun r => decide (r._id.1 = c))).map
        (fun r => r.monthlySpent)
      = ((keysOfCategory c expenses).map (fun k => k.2)).map
          (fun m => monthlySumOf c m expenses) := by
  unfold monthlySpentRows mongoGroup keysOfCategory
  rw [List.map_map, List.filter_map, List.map_map, List.map_map]
  apply List.map_congr_left
  intro k hk
  have hc : k.1 = c := by
    have := (List.mem_filter.1 hk).2
    simpa using this
  simp only [Function.comp_apply, monthlySumOf]
  have hkey : (c, k.2.1, k.2.2) = k := by
    rw [← hc]
  rw [hkey]

theorem months_nodup (expenses : List Transaction) (c : String) :
    ((keysOfCategory c expenses).map (fun k => k.2)).Nodup := by
  unfold keysOfCategory
  apply List.Nodup.map_on
  · intro a ha b hb hab
    have h1 : a.1 = c := by simpa using (List.mem_filter.1 ha).2
    have h2 : b.1 = c := by simpa using (List.mem_filter.1 hb).2
    exact Prod.ext (h1.trans h2.symm) hab
  · exact (jsSet_nodup _).filter _

theorem months_toFinset (expenses : List Transaction) (c : String) :
    ((keysOfCategory c expenses).map (fun k => k.2)).toFinset
      = monthsOfCategory c expenses := by
  ext m
  unfold keysOfCategory monthsOfCategory
  simp only [List.mem_toFinset, List.mem_map, List.mem_filter, mem_jsSet, decide_eq_true_eq]
  constructor
  · rintro ⟨k, ⟨⟨t, ht, rfl⟩, hc⟩, rfl⟩
    exact ⟨t, ⟨ht, hc⟩, rfl⟩
  · rintro ⟨t, ⟨ht, hc⟩, rfl⟩
    exact ⟨monthlyKey t, ⟨⟨t, ht, rfl⟩, hc⟩, rfl⟩

/-- The average of the second stage is the mean of the monthly sums of the
category over its months. -/
theorem mongoAvg_of_category (expenses : List Transaction) (c : String) :
    mongoAvg (((monthlySpentRows expenses).filter (fun r => decide (r._id.1 = c))).map
        (fun r => r.monthlySpent))
      = (∑ m in monthsOfCategory c expenses, monthlySumOf c m expenses)
        / ((monthsOfCategory c expenses).card : ℚ) := by
  rw [monthlySpent_of_category, ← months_toFinset]
  unfold mongoAvg
  rw [List.sum_toFinset _ (months_nodup expenses c),
    List.toFinset_card_of_nodup (months_nodup expenses c), List.length_map]

/-- The recommendations in terms of the documents that the stage `$match` lets
through: one recommendation for every category among them, with the mean of the
monthly sums of the category and that mean times 1.1, rounded. -/
theorem budgetRecommendations_of_matched (threeMonthsAgo endDate : Int)
    (transactions : List Transaction) (userId : Nat) :
    ((budgetRecommendations threeMonthsAgo endDate transactions userId).map
        (fun r => r.category)).Nodup
      ∧ (∀ c : String,
          c ∈ (budgetRecommendations threeMonthsAgo endDate transactions userId).map
              (fun r => r.category)
            ↔ ∃ t ∈ matchedExpenses threeMonthsAgo endDate transactions userId,
                t.category = c)
      ∧ ∀ r ∈ budgetRecommendations threeMonthsAgo endDate transactions userId,
          r.historicalAverage
              = (∑ m in monthsOfCategory r.category
                    (matchedExpenses threeMonthsAgo endDate transactions userId),
                  monthlySumOf r.category m
                    (matchedExpenses threeMonthsAgo endDate transactions userId))
                / ((monthsOfCategory r.category
                    (matchedExpenses threeMonthsAgo endDate transactions userId)).card : ℚ)
            ∧ r.recommendedAmount = round (r.historicalAverage * (11 / 10)) := by
  have hcat : (budgetRecommendations threeMonthsAgo endDate transactions userId).map
      (fun r => r.category)
      = jsSet ((monthlySpentRows
          (matchedExpenses threeMonthsAgo endDate transactions userId)).map
            (fun r => r._id.1)) := by
    unfold budgetRecommendations
    rw [List.map_map, ← categories_averageSpendingOf]
    rfl
  refine ⟨?_, ?_, ?_⟩
  · rw [hcat]
    exact jsSet_nodup _
  · intro c
    rw [hcat, mem_jsSet, mem_categories_monthlySpentRows]
  · intro r hr
    unfold budgetRecommendations averageSpendingOf at hr
    rw [List.map_map] at hr
    obtain ⟨g, hg, rfl⟩ := List.mem_map.1 hr
    obtain ⟨_, hg2⟩ := mem_mongoGroup _ _ g hg
    constructor
    · show mongoAvg (g.2.map (fun r => r.monthlySpent)) = _
      rw [hg2]
      exact mongoAvg_of_category _ g.1
    · show jsRound _ = round _
      unfold jsRound
      rw [round_eq]
      rfl


/-- The window of the recommendations starts where the statistics window of the
month three before the current one starts and ends where the statistics window
of the current month ends. -/
theorem recommendationWindow_bounds (tz currentMonth currentYear : Int) :
    (recommendationWindow tz currentMonth currentYear).1
        = newDate tz currentYear ((currentMonth - 3) - 1) 1
      ∧ (recommendationWindow tz currentMonth currentYear).2
        = newDate tz currentYear currentMonth 1 := by
  constructor
  · show newDate tz currentYear (currentMonth - 4) 1 = _
    congr 1
    ring
  · rfl

/-- From month 4 on, the window of the recommendations spans four calendar
months: the current month and the three before it. -/
theorem recommendationWindow_days (yr m : Int) (h4 : 4 ≤ m) (h12 : m ≤ 12) :
    MakeDay yr m 1 - MakeDay yr (m - 4) 1
      = (daysInCalendarMonth yr (m - 3) : Int) + (daysInCalendarMonth yr (m - 2) : Int)
        + (daysInCalendarMonth yr (m - 1) : Int) + (daysInCalendarMonth yr m : Int) := by
  have e1 := makeDay_month_length yr (m - 3) (by omega) (by omega)
  have e2 := makeDay_month_length yr (m - 2) (by omega) (by omega)
  have e3 := makeDay_month_length yr (m - 1) (by omega) (by omega)
  have e4 := makeDay_month_length yr m (by omega) (by omega)
  have a1 : m - 3 - 1 = m - 4 := by ring
  have a2 : m - 2 - 1 = m - 3 := by ring
  have a3 : m - 1 - 1 = m - 2 := by ring
  rw [a1] at e1
  rw [a2] at e2
  rw [a3] at e3
  omega

/-- Witness: the window of June. -/
theorem recommendationWindow_days_witness :
    MakeDay 2024 6 1 - MakeDay 2024 (6 - 4) 1
      = (daysInCalendarMonth 2024 (6 - 3) : Int) + (daysInCalendarMonth 2024 (6 - 2) : Int)
        + (daysInCalendarMonth 2024 (6 - 1) : Int) + (daysInCalendarMonth 2024 6 : Int) :=
  recommendationWindow_days 2024 6 (by decide) (by decide)

/-- C18 at a failing input: for June 2024 the window runs from 1 March to 1 July,
122 days, which are the four months March, April, May and June. -/
theorem recommendationWindow_june :
    recommendationWindow 0 6 2024
        = (some (parseIsoDate (MakeDay 2024 2 1)), some (parseIsoDate (MakeDay 2024 6 1)))
      ∧ MakeDay 2024 6 1 - MakeDay 2024 2 1 = 122
      ∧ daysInCalendarMonth 2024 3 + daysInCalendarMonth 2024 4 + daysInCalendarMonth 2024 5
          + daysInCalendarMonth 2024 6 = 122
      ∧ daysInCalendarMonth 2024 4 + daysInCalendarMonth 2024 5 + daysInCalendarMonth 2024 6
        = 91 := by
  decide

/-! ## Documents of another user -/

theorem findOwned_eq_none {α : Type} (owner : α → Nat) (store : List (Stored α))
    (id userId : Nat) (h : ∀ d ∈ store, d._id = id → owner d.fields ≠ userId) :
    findOwned owner store id userId = none := by
  unfold findOwned
  rw [List.find?_eq_none]
  intro d hd hp
  simp only [Bool.and_eq_true, decide_eq_true_eq] at hp
  exact h d hd hp.1 hp.2

/-- C19: for an id that is the id of no transaction of the user (a transaction
of another user, or none), `getTransaction`, `updateTransaction` and
`deleteTransaction` answer 404 'Transaction not found' and leave the store as it
is; for an id that is the id of no budget of the user, `deleteBudget` answers 404
and leaves the store as it is. -/
theorem not_owned_not_found (store : List (Stored Transaction)) (budgets : List (Stored Budget))
    (userId id budgetId : Nat) (body : UpdateBody)
    (h : ∀ d ∈ store, d._id = id → d.fields.userId ≠ userId)
    (hb : ∀ d ∈ budgets, d._id = budgetId → d.fields.userId ≠ userId) :
    getTransaction store userId id = Response.failure 404 "Transaction not found"
      ∧ updateTransaction store userId id body
        = (store, Response.failure 404 "Transaction not found")
      ∧ deleteTransaction store userId id
        = (store, Response.failure 404 "Transaction not found")
      ∧ deleteBudget budgets userId budgetId
        = (budgets, Response.failure 404 "Budget not found") := by
  have hnone := findOwned_eq_none (fun t : Transaction => t.userId) store id userId h
  have hbnone := findOwned_eq_none (fun b : Budget => b.userId) budgets budgetId userId hb
  refine ⟨?_, ?_, ?_, ?_⟩
  · unfold getTransaction
    rw [hnone]
  · unfold updateTransaction
    rw [hnone]
  · unfold deleteTransaction
    rw [hnone]
  · unfold deleteBudget
    rw [hbnone]

/-- Witness of C19: user 2 names the transaction 7 and the budget 3 of user 1. -/
theorem not_owned_not_found_witness :
    updateTransaction [Stored.mk 7 (Transaction.mk 1 10 TransactionType.expense "Food" 0)] 2 7
        (UpdateBody.mk none (some 5) none none none)
        = ([Stored.mk 7 (Transaction.mk 1 10 TransactionType.expense "Food" 0)],
            Response.failure 404 "Transaction not found")
      ∧ deleteBudget [Stored.mk 3 (Budget.mk 1 "Food" 100 1 2024 "#667eea")] 2 3
        = ([Stored.mk 3 (Budget.mk 1 "Food" 100 1 2024 "#667eea")],
            Response.failure 404 "Budget not found") := by
  have h := not_owned_not_found
    [Stored.mk 7 (Transaction.mk 1 10 TransactionType.expense "Food" 0)]
    [Stored.mk 3 (Budget.mk 1 "Food" 100 1 2024 "#667eea")] 2 7 3
    (UpdateBody.mk none (some 5) none none none) (by decide) (by decide)
  exact ⟨h.2.1, h.2.2.2⟩

/-! ## Ownership under update -/

theorem owners_updateById (store : List (Stored Transaction)) (id : Nat) (body : UpdateBody)
    (h : body.userId = none) :
    (updateById store id body).1.map (fun d => (d._id, d.fields.userId))
      = store.map (fun d => (d._id, d.fields.userId)) := by
  induction store with
  | nil => rfl
  | cons d store ih =>
    by_cases hd : d._id = id
    · simp [updateById, hd, applyUpdate, h]
    · simp [updateById, hd, ih]

/-- The property of C20 where it holds: an update whose body carries no `userId`
leaves the owner of every transaction as it is. -/
theorem updateTransaction_owner_of_no_userId (store : List (Stored Transaction))
    (userId id : Nat) (body : UpdateBody) (h : body.userId = none) :
    (updateTransaction store userId id body).1.map (fun d => (d._id, d.fields.userId))
      = store.map (fun d => (d._id, d.fields.userId)) := by
  unfold updateTransaction
  split
  · rfl
  · split
    · exact owners_updateById store id body h
    · rfl

/-- Witness of the property: an update of the amount. -/
theorem updateTransaction_owner_of_no_userId_witness :
    (updateTransaction [Stored.mk 7 (Transaction.mk 1 10 TransactionType.expense "Food" 0)] 1 7
        (UpdateBody.mk none (some 5) none none none)).1.map (fun d => (d._id, d.fields.userId))
      = [Stored.mk 7 (Transaction.mk 1 10 TransactionType.expense "Food" 0)].map
          (fun d => (d._id, d.fields.userId)) :=
  updateTransaction_owner_of_no_userId _ 1 7 _ rfl

/-- C20 at a failing input: user 1 updates the own transaction 7 with the body
`{ userId: 2 }`.  The body is passed whole to `findByIdAndUpdate`, so the
transaction is stored with owner 2. -/
theorem updateTransaction_changes_owner :
    updateTransaction [Stored.mk 7 (Transaction.mk 1 10 TransactionType.expense "Food" 0)] 1 7
        (UpdateBody.mk (some 2) none none none none)
      = ([Stored.mk 7 (Transaction.mk 2 10 TransactionType.expense "Food" 0)],
          Response.success
            (some (Stored.mk 7 (Transaction.mk 2 10 TransactionType.expense "Food" 0)))) := by
  decide

/-! ## Setting a budget -/

/-- The document that the upsert returns carries the fields of the update. -/
theorem upsertBudget_fields (budget : Budget) (newId : Nat) :
    ∀ store : List (Stored Budget), (upsertBudget store budget newId).2.fields = budget := by
  intro store
  induction store with
  | nil => rfl
  | cons d rest ih =>
    unfold upsertBudget
    by_cases h : budgetKey d.fields = budgetKey budget
    · rw [if_pos h]
    · rw [if_neg h]; exact ih

/-- The document that the upsert returns is stored. -/
theorem upsertBudget_mem (budget : Budget) (newId : Nat) :
    ∀ store : List (Stored Budget),
      (upsertBudget store budget newId).2 ∈ (upsertBudget store budget newId).1 := by
  intro store
  induction store with
  | nil => simp [upsertBudget]
  | cons d rest ih =>
    unfold upsertBudget
    by_cases h : budgetKey d.fields = budgetKey budget
    · rw [if_pos h]; simp
    · rw [if_neg h]; exact List.mem_cons_of_mem _ ih

/-- The keys after an upsert: unchanged when the key is present, and with the new
key at the end otherwise. -/
theorem budgetKeys_upsertBudget (budget : Budget) (newId : Nat) :
    ∀ store : List (Stored Budget),
      budgetKeys (upsertBudget store budget newId).1 =
        if budgetKey budget ∈ budgetKeys store then budgetKeys store
        else budgetKeys store ++ [budgetKey budget] := by
  intro store
  induction store with
  | nil => simp [upsertBudget, budgetKeys]
  | cons d rest ih =>
    unfold upsertBudget
    by_cases h : budgetKey d.fields = budgetKey budget
    · rw [if_pos h]
      have hm : budgetKey budget ∈ budgetKeys (d :: rest) := by
        simp [budgetKeys, h]
      rw [if_pos hm]
      simp [budgetKeys, h]
    · rw [if_neg h]
      have hd : budgetKeys (d :: (upsertBudget rest budget newId).1) =
          budgetKey d.fields :: budgetKeys (upsertBudget rest budget newId).1 := rfl
      have hd' : budgetKeys (d :: rest) = budgetKey d.fields :: budgetKeys rest := rfl
      show budgetKeys (d :: (upsertBudget rest budget newId).1) = _
      rw [hd, ih, hd']
      by_cases hm : budgetKey budget ∈ budgetKeys rest
      · rw [if_pos hm, if_pos (List.mem_cons_of_mem _ hm)]
      · have hm' : budgetKey budget ∉ budgetKey d.fields :: budgetKeys rest := by
          intro hc
          rcases List.mem_cons.mp hc with hc | hc
          · exact h hc.symm
          · exact hm hc
        rw [if_neg hm, if_neg hm']
        rfl

/-- An upsert keeps the keys distinct. -/
theorem nodup_budgetKeys_upsertBudget (budget : Budget) (newId : Nat)
    (store : List (Stored Budget)) (h : (budgetKeys store).Nodup) :
    (budgetKeys (upsertBudget store budget newId).1).Nodup := by
  rw [budgetKeys_upsertBudget]
  by_cases hm : budgetKey budget ∈ budgetKeys store
  · rw [if_pos hm]; exact h
  · rw [if_neg hm]
    exact List.Nodup.append h (List.nodup_singleton _) (by
      intro k hk hk'
      rw [List.mem_singleton] at hk'
      exact hm (hk' ▸ hk))

/-- An upsert leaves the documents of the other keys as they are. -/
theorem mem_upsertBudget_of_ne (budget : Budget) (newId : Nat) (d : Stored Budget)
    (hd : budgetKey d.fields ≠ budgetKey budget) :
    ∀ store : List (Stored Budget),
      d ∈ (upsertBudget store budget newId).1 ↔ d ∈ store := by
  intro store
  induction store with
  | nil =>
    simp only [upsertBudget, List.mem_singleton, List.not_mem_nil, iff_false]
    intro hc
    exact hd (by rw [hc])
  | cons e rest ih =>
    unfold upsertBudget
    by_cases h : budgetKey e.fields = budgetKey budget
    · rw [if_pos h]
      simp only [List.mem_cons]
      constructor
      · rintro (hc | hc)
        · exact absurd (by rw [hc]) hd
        · exact Or.inr hc
      · rintro (hc | hc)
        · exact absurd (hc ▸ h) hd
        · exact Or.inr hc
    · rw [if_neg h]
      show d ∈ e :: (upsertBudget rest budget newId).1 ↔ d ∈ e :: rest
      simp only [List.mem_cons, ih]

/-- With distinct keys, the stored document of the key of the update is the one
that the upsert returns. -/
theorem eq_of_mem_upsertBudget (budget : Budget) (newId : Nat) :
    ∀ store : List (Stored Budget), (budgetKeys store).Nodup →
      ∀ d ∈ (upsertBudget store budget newId).1, budgetKey d.fields = budgetKey budget →
        d = (upsertBudget store budget newId).2 := by
  intro store
  induction store with
  | nil =>
    intro _ d hd _
    simpa [upsertBudget] using hd
  | cons e rest ih =>
    intro hnd d hd hk
    have hnd' : (budgetKey e.fields :: budgetKeys rest).Nodup := hnd
    rw [List.nodup_cons] at hnd'
    unfold upsertBudget at hd ⊢
    by_cases h : budgetKey e.fields = budgetKey budget
    · rw [if_pos h] at hd ⊢
      rcases List.mem_cons.mp hd with hc | hc
      · exact hc
      · exfalso
        apply hnd'.1
        rw [h, ← hk]
        exact List.mem_map_of_mem (fun x : Stored Budget => budgetKey x.fields) hc
    · rw [if_neg h] at hd ⊢
      rcases List.mem_cons.mp hd with hc | hc
      · exact absurd (hc ▸ hk) h
      · exact ih hnd'.2 d hc hk

/-- What an accepted request of `setBudget` is: the four fields are truthy, they
parse, and the parsed values pass the validators. -/
theorem setBudget_success_iff (store : List (Stored Budget)) (userId : Nat)
    (req : BudgetRequest) (newId : Nat) (saved : Stored Budget) :
    (setBudget store userId req newId).2 = Response.success saved ↔
      req.category ≠ "" ∧ req.amount.truthy = true ∧ req.month.truthy = true ∧
      req.year.truthy = true ∧
      ∃ amount month year, req.amount.parsed = some amount ∧ req.month.parsed = some month ∧
        req.year.parsed = some year ∧ validBudgetFields amount month year = true ∧
        saved = (upsertBudget store
          (Budget.mk userId req.category amount month year (colorOrDefault req.color)) newId).2 ∧
        (setBudget store userId req newId).1 = (upsertBudget store
          (Budget.mk userId req.category amount month year (colorOrDefault req.color)) newId).1 := by
  unfold setBudget
  by_cases h1 : req.category = "" ∨ req.amount.truthy = false ∨ req.month.truthy = false ∨
      req.year.truthy = false
  · rw [if_pos h1]
    constructor
    · intro h; exact absurd h (by simp)
    · rintro ⟨hc, ha, hm, hy, _⟩
      rcases h1 with h | h | h | h
      · exact absurd h hc
      · rw [ha] at h; exact absurd h (by decide)
      · rw [hm] at h; exact absurd h (by decide)
      · rw [hy] at h; exact absurd h (by decide)
  · rw [if_neg h1]
    push_neg at h1
    obtain ⟨hc, ha, hm, hy⟩ := h1
    have ha' : req.amount.truthy = true := by simpa using ha
    have hm' : req.month.truthy = true := by simpa using hm
    have hy' : req.year.truthy = true := by simpa using hy
    cases hpa : req.amount.parsed with
    | none =>
      constructor
      · intro h; exact absurd h (by simp)
      · rintro ⟨_, _, _, _, a, m, y, h, _⟩; exact absurd h (by simp)
    | some a =>
      cases hpm : req.month.parsed with
      | none =>
        constructor
        · intro h; exact absurd h (by simp)
        · rintro ⟨_, _, _, _, a, m, y, _, h, _⟩; exact absurd h (by simp)
      | some m =>
        cases hpy : req.year.parsed with
        | none =>
          constructor
          · intro h; exact absurd h (by simp)
          · rintro ⟨_, _, _, _, a, m, y, _, _, h, _⟩; exact absurd h (by simp)
        | some y =>
          dsimp only
          by_cases hv : validBudgetFields a m y = true
          · rw [if_pos hv]
            constructor
            · intro h
              refine ⟨hc, ha', hm', hy', a, m, y, rfl, rfl, rfl, hv, ?_, rfl⟩
              exact (Response.success.inj h).symm
            · rintro ⟨_, _, _, _, a', m', y', h1, h2, h3, _, h5, _⟩
              cases h1; cases h2; cases h3
              rw [h5]
          · rw [if_neg hv]
            constructor
            · intro h; exact absurd h (by simp)
            · rintro ⟨_, _, _, _, a', m', y', h1, h2, h3, h4, _⟩
              cases h1; cases h2; cases h3
              exact absurd h4 hv

/-- Claim C21.  The handler `setBudget` has upsert semantics on the key (userId,
category, month, year).  From a store with at most one budget per key, after an
accepted request the store still has at most one budget per key; the saved
budget is stored, it is the only budget with the key of the request, it has the
requested amount and the requested colour or the default "#667eea"; and a budget
with another key is in the new store exactly when it was in the old one. -/
theorem setBudget_upsert (store : List (Stored Budget)) (userId : Nat) (req : BudgetRequest)
    (newId : Nat) (saved : Stored Budget)
    (hkeys : (budgetKeys store).Nodup)
    (hok : (setBudget store userId req newId).2 = Response.success saved) :
    (budgetKeys (setBudget store userId req newId).1).Nodup ∧
    saved ∈ (setBudget store userId req newId).1 ∧
    saved.fields.userId = userId ∧ saved.fields.category = req.category ∧
    req.month.parsed = some saved.fields.month ∧ req.year.parsed = some saved.fields.year ∧
    req.amount.parsed = some saved.fields.amount ∧
    saved.fields.color = colorOrDefault req.color ∧
    (∀ d ∈ (setBudget store userId req newId).1,
      budgetKey d.fields = budgetKey saved.fields → d = saved) ∧
    (∀ d : Stored Budget, budgetKey d.fields ≠ budgetKey saved.fields →
      (d ∈ (setBudget store userId req newId).1 ↔ d ∈ store)) := by
  obtain ⟨_, _, _, _, a, m, y, hpa, hpm, hpy, _, hsaved, hstore⟩ :=
    (setBudget_success_iff store userId req newId saved).mp hok
  have hf := upsertBudget_fields
    (Budget.mk userId req.category a m y (colorOrDefault req.color)) newId store
  rw [← hsaved] at hf
  rw [hstore, hf]
  refine ⟨nodup_budgetKeys_upsertBudget _ _ _ hkeys, ?_, rfl, rfl, hpm, hpy, hpa, rfl, ?_, ?_⟩
  · rw [hsaved]; exact upsertBudget_mem _ _ _
  · intro d hd hk
    rw [hsaved]
    exact eq_of_mem_upsertBudget _ _ store hkeys d hd hk
  · intro d hd
    exact mem_upsertBudget_of_ne _ _ d hd store

/-- Claim C21 on a store with a budget of the key and a budget of another key:
the amount and the colour of the first are replaced, the second is kept. -/
theorem setBudget_upsert_witness :
    (budgetKeys (setBudget
        [Stored.mk 1 (Budget.mk 1 "Food" 100 1 2024 "#667eea"),
         Stored.mk 2 (Budget.mk 1 "Rent" 900 1 2024 "#667eea")] 1
        (BudgetRequest.mk "Food" (RawNumber.ofNumber 250) (RawNumber.ofNumber 1)
          (RawNumber.ofNumber 2024) (some "#ff0000")) 3).1).Nodup ∧
    Stored.mk 1 (Budget.mk 1 "Food" 250 1 2024 "#ff0000") ∈
      (setBudget
        [Stored.mk 1 (Budget.mk 1 "Food" 100 1 2024 "#667eea"),
         Stored.mk 2 (Budget.mk 1 "Rent" 900 1 2024 "#667eea")] 1
        (BudgetRequest.mk "Food" (RawNumber.ofNumber 250) (RawNumber.ofNumber 1)
          (RawNumber.ofNumber 2024) (some "#ff0000")) 3).1 :=
  have h := setBudget_upsert
    [Stored.mk 1 (Budget.mk 1 "Food" 100 1 2024 "#667eea"),
     Stored.mk 2 (Budget.mk 1 "Rent" 900 1 2024 "#667eea")] 1
    (BudgetRequest.mk "Food" (RawNumber.ofNumber 250) (RawNumber.ofNumber 1)
      (RawNumber.ofNumber 2024) (some "#ff0000")) 3
    (Stored.mk 1 (Budget.mk 1 "Food" 250 1 2024 "#ff0000")) (by decide) (by decide)
  ⟨h.1, h.2.1⟩

/-- A request with valid fields and a truthy amount is accepted. -/
theorem setBudget_accepts (store : List (Stored Budget)) (userId : Nat) (category : String)
    (amount : RawNumber ℚ) (a : ℚ) (month year : Int) (color : Option String) (newId : Nat)
    (hc : category ≠ "") (ht : amount.truthy = true) (hp : amount.parsed = some a)
    (ha : 0 ≤ a) (hm1 : 1 ≤ month) (hm2 : month ≤ 12) (hy1 : 2020 ≤ year) (hy2 : year ≤ 2030) :
    ∃ saved,
      (setBudget store userId
        (BudgetRequest.mk category amount (RawNumber.ofNumber month) (RawNumber.ofNumber year)
          color) newId).2 = Response.success saved ∧
      saved.fields = Budget.mk userId category a month year (colorOrDefault color) := by
  refine ⟨(upsertBudget store
    (Budget.mk userId category a month year (colorOrDefault color)) newId).2, ?_,
    upsertBudget_fields _ _ _⟩
  rw [setBudget_success_iff]
  have hmt : (RawNumber.ofNumber month).truthy = true := by
    simp only [RawNumber.ofNumber, decide_eq_true_eq]; omega
  have hyt : (RawNumber.ofNumber year).truthy = true := by
    simp only [RawNumber.ofNumber, decide_eq_true_eq]; omega
  refine ⟨hc, ht, hmt, hyt, a, month, year, hp, rfl, rfl, ?_, rfl, ?_⟩
  · simp [validBudgetFields, ha, hm1, hm2, hy1, hy2]
  · unfold setBudget
    have hn : ¬ (category = "" ∨ amount.truthy = false ∨
        (RawNumber.ofNumber month).truthy = false ∨ (RawNumber.ofNumber year).truthy = false) := by
      rw [ht, hmt, hyt]
      simp [hc]
    simp only
    rw [if_neg hn, hp]
    simp [RawNumber.ofNumber, validBudgetFields, ha, hm1, hm2, hy1, hy2]

/-- Claim C22 at the amount 0 sent as a number.  The amount 0 passes the
validators of the schema, and a request that carries it as the number 0 is
answered 400 with the store unchanged, whatever the other fields are.  The same
amount sent as the text "0" is stored. -/
theorem setBudget_zero_amount (store : List (Stored Budget)) (userId : Nat) (category : String)
    (month year : RawNumber Int) (color : Option String) (newId : Nat) :
    validBudgetFields 0 1 2024 = true ∧
    setBudget store userId
        (BudgetRequest.mk category (RawNumber.ofNumber 0) month year color) newId
      = (store, Response.failure 400 "Category, amount, month, and year are required") ∧
    setBudget [] 1
        (BudgetRequest.mk "Food" (RawNumber.ofText "0" (some 0)) (RawNumber.ofNumber 1)
          (RawNumber.ofNumber 2024) none) 7
      = ([Stored.mk 7 (Budget.mk 1 "Food" 0 1 2024 "#667eea")],
          Response.success (Stored.mk 7 (Budget.mk 1 "Food" 0 1 2024 "#667eea"))) := by
  refine ⟨by decide, ?_, by decide⟩
  unfold setBudget
  have h : (RawNumber.ofNumber (0 : ℚ)).truthy = false := by decide
  simp only
  rw [if_pos (Or.inr (Or.inl h))]

/-! ## Export -/

/-- The handler answers the request of the Export page with the transactions of
the user, latest first, cut to 50, whatever the two dates are. -/
theorem exportedTransactions_eq (tz : Int) (store : List (Stored Transaction)) (userId : Nat)
    (startDate endDate : IsoDate) :
    exportedTransactions tz store userId startDate endDate
      = (((store.filter (fun d => decide (d.fields.userId = userId))).insertionSort
            (fun a b => b.fields.date ≤ a.fields.date)).take 50) := by
  simp [exportedTransactions, getTransactions, transactionsFilter, exportQuery]

/-- Claim C23 at a store with one expense of 1 January 2023 and the range from
1 January 2024 to 31 January 2024.  The exported transactions do not depend on
the two dates, and here the file holds the expense of 2023, whose day lies before
the start of the range. -/
theorem export_ignores_date_range :
    (∀ (tz : Int) (store : List (Stored Transaction)) (userId : Nat)
        (startDate endDate startDate' endDate' : IsoDate),
        exportedTransactions tz store userId startDate endDate
          = exportedTransactions tz store userId startDate' endDate') ∧
    exportedTransactions 0
        [Stored.mk 1 (Transaction.mk 1 50 TransactionType.expense "Food" 1672531200000)] 1
        19723 19753
      = [Stored.mk 1 (Transaction.mk 1 50 TransactionType.expense "Food" 1672531200000)] ∧
    isoDate 1672531200000 = 19358 ∧ parseIsoDate 19723 = 1704067200000 ∧
    ¬ (parseIsoDate 19723 ≤ 1672531200000) := by
  refine ⟨?_, by decide, by decide, by decide, by decide⟩
  intro tz store userId s e s' e'
  rw [exportedTransactions_eq, exportedTransactions_eq]

/-! ## Completion of a savings goal -/

/-- After an accepted `setSavingsGoal` the goal of the user is below its goal
amount. -/
theorem setSavingsGoal_saved (goals : List SavingsGoal) (userId : Nat) (req : GoalRequest)
    (saved : SavingsGoal) (h : (setSavingsGoal goals userId req).2 = Response.success saved) :
    saved.currentAmount < saved.goalAmount ∧ saved.isCompleted = false := by
  unfold setSavingsGoal at h
  split at h
  · split at h
    · split at h
      · rename_i hge
        have hs := Response.success.inj h
        rw [← hs]
        constructor
        · show (0 : ℚ) < _
          linarith
        · rfl
      · exact absurd h (by simp)
    · exact absurd h (by simp)
  · exact absurd h (by simp)

/-- Claim C24 at a goal of 1000 with the current amount 0 and the body
`{ currentAmount: 1000 }` of `updateSavingsGoal`.  The request is accepted, the
stored goal has the current amount 1000, which reaches the goal amount, and
`isCompleted` is still false. -/
theorem updateSavingsGoal_not_completed :
    updateSavingsGoal 0 1704067200000 [SavingsGoal.mk 1 1000 0 1735689600000 false] 1
        (GoalUpdateBody.mk none none (some (some 1000)))
      = ([SavingsGoal.mk 1 1000 1000 1735689600000 false],
          Response.success (SavingsGoal.mk 1 1000 1000 1735689600000 false)) ∧
    (SavingsGoal.mk 1 1000 1000 1735689600000 false).currentAmount
      ≥ (SavingsGoal.mk 1 1000 1000 1735689600000 false).goalAmount ∧
    (preSave (SavingsGoal.mk 1 1000 1000 1735689600000 false)).isCompleted = true := by
  refine ⟨by decide, by decide, by decide⟩

/-! ## Over-budget budgets on the Budgets page -/

/-- What is left after `Math.max(..., 0)` is 0 when the spent value is above the
amount. -/
theorem remaining_of_gt (amount : ℚ) (spent : JSVal)
    (h : spent.gt (JSVal.num amount) = true) :
    ((JSVal.num amount).sub spent).max (JSVal.num 0) = JSVal.num 0 := by
  cases spent with
  | num s =>
    have hs : amount < s := by simpa [JSVal.gt, JSVal.toNumber] using h
    simp only [JSVal.sub, JSVal.max, JSVal.toNumber]
    rw [max_eq_right (by linarith)]
  | inf neg =>
    have hn : neg = false := by simpa [JSVal.gt, JSVal.toNumber] using h
    subst hn
    simp [JSVal.sub, JSVal.max, JSVal.toNumber]
  | undefined => simp [JSVal.gt, JSVal.toNumber] at h
  | nan => simp [JSVal.gt, JSVal.toNumber] at h
  | builtin name => simp [JSVal.gt, JSVal.toNumber] at h
  | protoObject => simp [JSVal.gt, JSVal.toNumber] at h
  | text source appended => simp [JSVal.gt, JSVal.toNumber] at h

/-- A value that went through `Math.max(..., 0)` is not read as negative. -/
theorem not_lt_zero_of_max (x : JSVal) :
    (receivedNumber (x.max (JSVal.num 0))).lt (JSVal.num 0) = false := by
  cases x with
  | num q =>
    simp only [JSVal.max, JSVal.toNumber, receivedNumber, JSVal.lt, decide_eq_false_iff_not,
      not_lt]
    exact le_max_right _ _
  | inf neg => cases neg <;> simp [JSVal.max, JSVal.toNumber, receivedNumber, JSVal.lt]
  | undefined => simp [JSVal.max, JSVal.toNumber, receivedNumber, JSVal.lt]
  | nan => simp [JSVal.max, JSVal.toNumber, receivedNumber, JSVal.lt]
  | builtin name => simp [JSVal.max, JSVal.toNumber, receivedNumber, JSVal.lt]
  | protoObject => simp [JSVal.max, JSVal.toNumber, receivedNumber, JSVal.lt]
  | text source appended => simp [JSVal.max, JSVal.toNumber, receivedNumber, JSVal.lt]

/-- Claim C26.  For every budget that `getBudgets` returns: when `isOverBudget`
is true, `remaining` is 0 and the amount of the notice `Over budget by` of the
page, `Math.abs(budget.remaining)`, is 0, which is not the overspend
`spent - amount` of a numeric `spent`; and the test `remaining < 0` of the page
is false for every budget. -/
theorem getBudgets_over_budget_remaining (budgets : List Budget) (expenses : List ExpenseRow)
    (b : BudgetWithUsage) (hb : b ∈ (getBudgets budgets expenses).budgets) :
    (b.isOverBudget = true →
      b.remaining = JSVal.num 0 ∧ overBudgetBy b = JSVal.num 0 ∧
      ∀ s : ℚ, b.spent = JSVal.num s →
        0 < s - b.budget.amount ∧ overBudgetBy b ≠ JSVal.num (s - b.budget.amount)) ∧
    remainingIsNegative b = false := by
  have hb' : b ∈ budgets.map (budgetUsage (expenseMapOf expenses)) := hb
  obtain ⟨budget, _, rfl⟩ := List.mem_map.mp hb'
  constructor
  · intro hover
    have hgt : ((expenseMapOf expenses).get budget.category |>.or (JSVal.num 0)).gt
        (JSVal.num budget.amount) = true := hover
    have hrem : (budgetUsage (expenseMapOf expenses) budget).remaining = JSVal.num 0 :=
      remaining_of_gt _ _ hgt
    have habs : overBudgetBy (budgetUsage (expenseMapOf expenses) budget) = JSVal.num 0 := by
      unfold overBudgetBy
      rw [hrem]
      simp [receivedNumber, JSVal.abs, JSVal.toNumber]
    refine ⟨hrem, habs, ?_⟩
    intro s hs
    have hs' : ((expenseMapOf expenses).get budget.category).or (JSVal.num 0) = JSVal.num s := hs
    rw [hs'] at hgt
    have hlt : budget.amount < s := by simpa [JSVal.gt, JSVal.toNumber] using hgt
    have hpos : 0 < s - budget.amount := by linarith
    refine ⟨hpos, ?_⟩
    rw [habs]
    intro hc
    have := JSVal.num.inj hc
    show False
    have h2 : (budgetUsage (expenseMapOf expenses) budget).budget.amount = budget.amount := rfl
    rw [h2] at this
    linarith
  · exact not_lt_zero_of_max _

/-- Claim C26 on a budget of 100 with 150 spent. -/
theorem getBudgets_over_budget_remaining_witness :
    overBudgetBy (budgetUsage (expenseMapOf [ExpenseRow.mk "Food" 150])
        (Budget.mk 1 "Food" 100 1 2024 "#667eea")) = JSVal.num 0 ∧
    remainingIsNegative (budgetUsage (expenseMapOf [ExpenseRow.mk "Food" 150])
        (Budget.mk 1 "Food" 100 1 2024 "#667eea")) = false :=
  have h := getBudgets_over_budget_remaining [Budget.mk 1 "Food" 100 1 2024 "#667eea"]
    [ExpenseRow.mk "Food" 150]
    (budgetUsage (expenseMapOf [ExpenseRow.mk "Food" 150])
      (Budget.mk 1 "Food" 100 1 2024 "#667eea"))
    (List.mem_map_of_mem _ (List.mem_singleton_self _))
  ⟨(h.1 (by decide)).2.1, h.2⟩

/-! ## The running total of the savings progress -/

theorem savingsThrough_succ (rows : List MonthlySavingsRow) (k : Nat) (hk : k < rows.length) :
    savingsThrough rows (k + 1) = savingsThrough rows k + (rows.get ⟨k, hk⟩).savings := by
  unfold savingsThrough
  rw [List.take_succ, List.getElem?_eq_getElem hk]
  simp only [Option.toList_some, List.map_append, List.map_cons, List.map_nil, List.sum_append,
    List.sum_cons, List.sum_nil, add_zero]
  rfl

/-- Claim C28.  For the rows s_1 .. s_n of the monthly savings, the entry k of the
series of `getSavingsProgress` has `cumulativeSavings` = max(s_1 + ... + s_k, 0),
where the sum is not clamped: it is the sum through the month before plus the
savings of the month.  So after a deficit (a negative sum through the month
before), a month with positive savings reports less than its own savings. -/
theorem getSavingsProgress_carries_deficit (goals : List SavingsGoal) (userId : Nat)
    (g : SavingsGoal) (rows : List MonthlySavingsRow)
    (hfind : findGoal goals userId = some g) (k : Nat) (hk : k < rows.length) :
    ∃ e, (getSavingsProgress goals userId rows)[k]? = some e ∧
      e.cumulativeSavings = Max.max (savingsThrough rows (k + 1)) 0 ∧
      savingsThrough rows (k + 1) = savingsThrough rows k + (rows.get ⟨k, hk⟩).savings ∧
      (savingsThrough rows k < 0 → 0 < (rows.get ⟨k, hk⟩).savings →
        e.cumulativeSavings < (rows.get ⟨k, hk⟩).savings) := by
  have hlen : k < (getSavingsProgress goals userId rows).length := by
    unfold getSavingsProgress
    rw [hfind]
    show k < (progressDataFrom g.goalAmount 0 rows).length
    rw [length_progressDataFrom]
    exact hk
  have hcum := cumulativeSavings_progressDataFrom g.goalAmount rows 0 k hk
  have hprog : getSavingsProgress goals userId rows = progressDataFrom g.goalAmount 0 rows := by
    unfold getSavingsProgress
    rw [hfind]
  rw [← hprog, List.getElem?_map, List.getElem?_eq_getElem hlen] at hcum
  have hval : ((getSavingsProgress goals userId rows)[k]).cumulativeSavings
      = Max.max (savingsThrough rows (k + 1)) 0 := by
    have h1 : ((getSavingsProgress goals userId rows)[k]).cumulativeSavings
        = Max.max (0 + ((rows.take (k + 1)).map (fun r => r.savings)).sum) 0 :=
      Option.some.inj hcum
    rw [h1, zero_add]
    rfl
  refine ⟨(getSavingsProgress goals userId rows)[k], List.getElem?_eq_getElem hlen, hval,
    savingsThrough_succ rows k hk, ?_⟩
  intro hneg hpos
  rw [hval, savingsThrough_succ rows k hk]
  exact max_lt (by linarith) hpos

/-- Claim C28 on the savings -100, 50: the second month reports 0, less than its
own savings of 50. -/
theorem getSavingsProgress_carries_deficit_witness :
    ∃ e, (getSavingsProgress [SavingsGoal.mk 1 1000 0 1735689600000 false] 1
        [MonthlySavingsRow.mk 2024 1 (-100), MonthlySavingsRow.mk 2024 2 50])[1]? = some e ∧
      e.cumulativeSavings = Max.max (savingsThrough
        [MonthlySavingsRow.mk 2024 1 (-100), MonthlySavingsRow.mk 2024 2 50] (1 + 1)) 0 :=
  have h := getSavingsProgress_carries_deficit [SavingsGoal.mk 1 1000 0 1735689600000 false] 1
    (SavingsGoal.mk 1 1000 0 1735689600000 false)
    [MonthlySavingsRow.mk 2024 1 (-100), MonthlySavingsRow.mk 2024 2 50] (by decide) 1 (by decide)
  h.elim (fun e he => ⟨e, he.1, he.2.1⟩)

/-! ## No-spend days and the zone of the server -/

theorem mem_loopDays_of_midnights (a b d : Int) :
    d ∈ loopDays (a * msPerDay) (b * msPerDay) ↔ a ≤ d ∧ d < b := by
  unfold loopDays
  rw [List.mem_map]
  have hiso : isoDate (a * msPerDay) = a := by
    show (a * 86400000 / 86400000 : Int) = a
    omega
  rw [hiso]
  constructor
  · rintro ⟨i, hi, rfl⟩
    rw [List.mem_range, lt_windowDayCount_iff] at hi
    unfold msPerDay at hi
    constructor <;> omega
  · rintro ⟨h1, h2⟩
    refine ⟨(d - a).toNat, ?_, by omega⟩
    rw [List.mem_range, lt_windowDayCount_iff]
    unfold msPerDay
    have : ((d - a).toNat : Int) = d - a := Int.toNat_of_nonneg (by omega)
    rw [this]
    omega

/-- Where the claim C27 holds: for a window from a midnight of UTC to a midnight
of UTC, as a server in the zone UTC has them, and transactions dated inside the
window, every expense day is a day of the window, `noSpendDays` is the number of
days of the window without an expense, and it lies between 0 and `daysInMonth`. -/
theorem noSpendDays_of_utc_window (tz a b : Int) (transactions : List Transaction)
    (ha : -maxTime ≤ a * msPerDay) (hb : b * msPerDay ≤ maxTime)
    (hin : ∀ t ∈ transactions, a * msPerDay ≤ t.date ∧ t.date < b * msPerDay) :
    (∀ d ∈ expenseDatesOf transactions, d ∈ allDaysOf tz (a * msPerDay) (b * msPerDay)) ∧
    (transactionStats tz (a * msPerDay) (b * msPerDay) transactions).noSpendDays
      = (((allDaysOf tz (a * msPerDay) (b * msPerDay)).filter
          (fun d => decide (d ∉ expenseDatesOf transactions))).length : Int) ∧
    0 ≤ (transactionStats tz (a * msPerDay) (b * msPerDay) transactions).noSpendDays ∧
    (transactionStats tz (a * msPerDay) (b * msPerDay) transactions).noSpendDays
      ≤ ((transactionStats tz (a * msPerDay) (b * msPerDay) transactions).daysInMonth : Int) := by
  have hall := allDaysOf_eq tz (a * msPerDay) (b * msPerDay) ha hb
  have hsub : ∀ d ∈ expenseDatesOf transactions,
      d ∈ allDaysOf tz (a * msPerDay) (b * msPerDay) := by
    intro d hd
    rw [hall, mem_jsSet, mem_loopDays_of_midnights]
    unfold expenseDatesOf at hd
    rw [mem_jsSet, List.mem_map] at hd
    obtain ⟨t, ht, rfl⟩ := hd
    have htm : t ∈ transactions := (List.mem_filter.mp ht).1
    obtain ⟨h1, h2⟩ := hin t htm
    unfold msPerDay at h1 h2
    show a ≤ (t.date / 86400000 : Int) ∧ (t.date / 86400000 : Int) < b
    constructor <;> omega
  have hndA : (allDaysOf tz (a * msPerDay) (b * msPerDay)).Nodup := by
    rw [hall]; exact jsSet_nodup _
  have hndE : (expenseDatesOf transactions).Nodup := jsSet_nodup _
  have hcount : ((allDaysOf tz (a * msPerDay) (b * msPerDay)).filter
        (fun d => decide (d ∉ expenseDatesOf transactions))).length
        + (expenseDatesOf transactions).length
      = (allDaysOf tz (a * msPerDay) (b * msPerDay)).length := by
    generalize allDaysOf tz (a * msPerDay) (b * msPerDay) = A at hsub hndA
    generalize expenseDatesOf transactions = E at hsub hndE
    rw [← List.toFinset_card_of_nodup (hndA.filter _), ← List.toFinset_card_of_nodup hndE,
      ← List.toFinset_card_of_nodup hndA]
    have hdis : Disjoint (A.filter (fun d => decide (d ∉ E))).toFinset E.toFinset := by
      rw [Finset.disjoint_left]
      intro x hx hx'
      rw [List.mem_toFinset, List.mem_filter] at hx
      rw [List.mem_toFinset] at hx'
      exact (of_decide_eq_true hx.2) hx'
    rw [← Finset.card_union_of_disjoint hdis]
    congr 1
    ext x
    simp only [Finset.mem_union, List.mem_toFinset, List.mem_filter, decide_eq_true_eq]
    constructor
    · rintro (h | h)
      · exact h.1
      · exact hsub x h
    · intro h
      by_cases hx : x ∈ E
      · exact Or.inr hx
      · exact Or.inl ⟨h, hx⟩
  have hns : (transactionStats tz (a * msPerDay) (b * msPerDay) transactions).noSpendDays
      = ((allDaysOf tz (a * msPerDay) (b * msPerDay)).length : Int)
        - ((expenseDatesOf transactions).length : Int) := rfl
  have hdm : (transactionStats tz (a * msPerDay) (b * msPerDay) transactions).daysInMonth
      = (allDaysOf tz (a * msPerDay) (b * msPerDay)).length := rfl
  rw [hns, hdm]
  refine ⟨hsub, ?_, ?_, ?_⟩ <;> omega

/-- Claim C27 on a server in the zone UTC+05:30.  For January 2024 with one
expense on 31 January at 12:00 UTC, which is inside the window, the expense day
is not among the days of `allDays`, and `noSpendDays` is 30 where 31 days of
`allDays` have no expense.  For February 2023 with the twenty-nine expenses of
`februaryExpenses`, all inside the window, `expenseDays` is 29, `daysInMonth` is
28 and `noSpendDays` is -1. -/
theorem noSpendDays_server_zone :
    newDate 19800000 2024 0 1 = some 1704047400000 ∧
    newDate 19800000 2024 1 1 = some 1706725800000 ∧
    (1704047400000 ≤ (1706702400000 : Int) ∧ (1706702400000 : Int) < 1706725800000) ∧
    expenseDatesOf [Transaction.mk 1 10 TransactionType.expense "Food" 1706702400000]
      = [19753] ∧
    19753 ∉ allDaysOf 19800000 1704047400000 1706725800000 ∧
    (getTransactionStats 19800000 1 2024
        [Transaction.mk 1 10 TransactionType.expense "Food" 1706702400000]).map
        (fun s => (s.noSpendDays, s.daysInMonth, s.expenseDays)) = some (30, 31, 1) ∧
    ((allDaysOf 19800000 1704047400000 1706725800000).filter
        (fun d => decide (d ∉ expenseDatesOf
          [Transaction.mk 1 10 TransactionType.expense "Food" 1706702400000]))).length = 31 ∧
    newDate 19800000 2023 1 1 = some 1675189800000 ∧
    newDate 19800000 2023 2 1 = some 1677609000000 ∧
    (∀ t ∈ februaryExpenses, 1675189800000 ≤ t.date ∧ t.date < 1677609000000) ∧
    (getTransactionStats 19800000 2 2023 februaryExpenses).map
        (fun s => (s.noSpendDays, s.daysInMonth, s.expenseDays)) = some (-1, 28, 29) := by
  refine ⟨by decide, by decide, by decide, by decide, by decide, by decide, by decide,
    by decide, by decide, by decide, by decide⟩

/-! ## Day of the month and day of the week -/

theorem dayOfMonthStart_table (l : Int) :
    dayOfMonthStart l 0 = 0 ∧ dayOfMonthStart l 1 = 31 ∧ dayOfMonthStart l 2 = 59 + l ∧
    dayOfMonthStart l 3 = 90 + l ∧ dayOfMonthStart l 4 = 120 + l ∧
    dayOfMonthStart l 5 = 151 + l ∧ dayOfMonthStart l 6 = 181 + l ∧
    dayOfMonthStart l 7 = 212 + l ∧ dayOfMonthStart l 8 = 243 + l ∧
    dayOfMonthStart l 9 = 273 + l ∧ dayOfMonthStart l 10 = 304 + l ∧
    dayOfMonthStart l 11 = 334 + l := by
  refine ⟨rfl, rfl, rfl, rfl, rfl, rfl, rfl, rfl, rfl, rfl, rfl, rfl⟩

theorem dayOfMonthStart_step (l k : Int) (hl0 : 0 ≤ l) (hk0 : 0 ≤ k) (hk : k ≤ 10) :
    dayOfMonthStart l k + 28 ≤ dayOfMonthStart l (k + 1) := by
  obtain ⟨t0, t1, t2, t3, t4, t5, t6, t7, t8, t9, t10, t11⟩ := dayOfMonthStart_table l
  interval_cases k <;>
    simp only [zero_add, Int.reduceAdd, t0, t1, t2, t3, t4, t5, t6, t7, t8, t9, t10, t11] <;>
    clear t0 t1 t2 t3 t4 t5 t6 t7 t8 t9 t10 t11 <;>
    omega

theorem dayOfMonthStart_mono (l : Int) (hl0 : 0 ≤ l) (n : Nat) :
    ∀ i : Int, 0 ≤ i → i + (n : Int) ≤ 11 →
      dayOfMonthStart l i ≤ dayOfMonthStart l (i + (n : Int)) := by
  induction n with
  | zero => intro i _ _; simp
  | succ n ih =>
    intro i hi hin
    have h1 := ih i hi (by push_cast at hin; omega)
    have h2 := dayOfMonthStart_step l (i + (n : Int)) hl0 (by omega) (by push_cast at hin; omega)
    have e : i + ((n + 1 : Nat) : Int) = i + (n : Int) + 1 := by push_cast; ring
    rw [e]
    omega

/-- The branches of the month table, for a day `d` within a year of leap flag
`l`. -/
theorem month_chain (d l m : Int) (hd0 : 0 ≤ d) (hd1 : d < 365 + l) (hl0 : 0 ≤ l) (hl1 : l ≤ 1)
    (hm : m =
      if d < 31 then 0
      else if d < 59 + l then 1
      else if d < 90 + l then 2
      else if d < 120 + l then 3
      else if d < 151 + l then 4
      else if d < 181 + l then 5
      else if d < 212 + l then 6
      else if d < 243 + l then 7
      else if d < 273 + l then 8
      else if d < 304 + l then 9
      else if d < 334 + l then 10
      else 11) :
    0 ≤ m ∧ m ≤ 11 ∧ dayOfMonthStart l m ≤ d ∧ d - dayOfMonthStart l m ≤ 30 ∧
      (m < 11 → d < dayOfMonthStart l (m + 1)) := by
  obtain ⟨t0, t1, t2, t3, t4, t5, t6, t7, t8, t9, t10, t11⟩ := dayOfMonthStart_table l
  by_cases c0 : d < 31
  · rw [if_pos c0] at hm
    subst hm
    simp only [Int.reduceAdd, t0, t1]
    clear t0 t1 t2 t3 t4 t5 t6 t7 t8 t9 t10 t11
    exact ⟨by omega, by omega, by omega, by omega, fun _ => by omega⟩
  rw [if_neg c0] at hm
  by_cases c1 : d < 59 + l
  · rw [if_pos c1] at hm
    subst hm
    simp only [Int.reduceAdd, t1, t2]
    clear t0 t1 t2 t3 t4 t5 t6 t7 t8 t9 t10 t11
    exact ⟨by omega, by omega, by omega, by omega, fun _ => by omega⟩
  rw [if_neg c1] at hm
  by_cases c2 : d < 90 + l
  · rw [if_pos c2] at hm
    subst hm
    simp only [Int.reduceAdd, t2, t3]
    clear t0 t1 t2 t3 t4 t5 t6 t7 t8 t9 t10 t11
    exact ⟨by omega, by omega, by omega, by omega, fun _ => by omega⟩
  rw [if_neg c2] at hm
  by_cases c3 : d < 120 + l
  · rw [if_pos c3] at hm
    subst hm
    simp only [Int.reduceAdd, t3, t4]
    clear t0 t1 t2 t3 t4 t5 t6 t7 t8 t9 t10 t11
    exact ⟨by omega, by omega, by omega, by omega, fun _ => by omega⟩
  rw [if_neg c3] at hm
  by_cases c4 : d < 151 + l
  · rw [if_pos c4] at hm
    subst hm
    simp only [Int.reduceAdd, t4, t5]
    clear t0 t1 t2 t3 t4 t5 t6 t7 t8 t9 t10 t11
    exact ⟨by omega, by omega, by omega, by omega, fun _ => by omega⟩
  rw [if_neg c4] at hm
  by_cases c5 : d < 181 + l
  · rw [if_pos c5] at hm
    subst hm
    simp only [Int.reduceAdd, t5, t6]
    clear t0 t1 t2 t3 t4 t5 t6 t7 t8 t9 t10 t11
    exact ⟨by omega, by omega, by omega, by omega, fun _ => by omega⟩
  rw [if_neg c5] at hm
  by_cases c6 : d < 212 + l
  · rw [if_pos c6] at hm
    subst hm
    simp only [Int.reduceAdd, t6, t7]
    clear t0 t1 t2 t3 t4 t5 t6 t7 t8 t9 t10 t11
    exact ⟨by omega, by omega, by omega, by omega, fun _ => by omega⟩
  rw [if_neg c6] at hm
  by_cases c7 : d < 243 + l
  · rw [if_pos c7] at hm
    subst hm
    simp only [Int.reduceAdd, t7, t8]
    clear t0 t1 t2 t3 t4 t5 t6 t7 t8 t9 t10 t11
    exact ⟨by omega, by omega, by omega, by omega, fun _ => by omega⟩
  rw [if_neg c7] at hm
  by_cases c8 : d < 273 + l
  · rw [if_pos c8] at hm
    subst hm
    simp only [Int.reduceAdd, t8, t9]
    clear t0 t1 t2 t3 t4 t5 t6 t7 t8 t9 t10 t11
    exact ⟨by omega, by omega, by omega, by omega, fun _ => by omega⟩
  rw [if_neg c8] at hm
  by_cases c9 : d < 304 + l
  · rw [if_pos c9] at hm
    subst hm
    simp only [Int.reduceAdd, t9, t10]
    clear t0 t1 t2 t3 t4 t5 t6 t7 t8 t9 t10 t11
    exact ⟨by omega, by omega, by omega, by omega, fun _ => by omega⟩
  rw [if_neg c9] at hm
  by_cases c10 : d < 334 + l
  · rw [if_pos c10] at hm
    subst hm
    simp only [Int.reduceAdd, t10, t11]
    clear t0 t1 t2 t3 t4 t5 t6 t7 t8 t9 t10 t11
    exact ⟨by omega, by omega, by omega, by omega, fun _ => by omega⟩
  rw [if_neg c10] at hm
  subst hm
  simp only [t11]
  clear t0 t1 t2 t3 t4 t5 t6 t7 t8 t9 t10 t11
  exact ⟨by omega, by omega, by omega, by omega, fun h => absurd h (by omega)⟩

/-- The month table on a day within the year: the month found contains the
day. -/
theorem monthFromTime_table (t : Int) :
    0 ≤ MonthFromTime t ∧ MonthFromTime t ≤ 11 ∧
      dayOfMonthStart (InLeapYear (YearFromTime t)) (MonthFromTime t) ≤ DayWithinYear t ∧
      DayWithinYear t - dayOfMonthStart (InLeapYear (YearFromTime t)) (MonthFromTime t) ≤ 30 ∧
      (MonthFromTime t < 11 → DayWithinYear t
        < dayOfMonthStart (InLeapYear (YearFromTime t)) (MonthFromTime t + 1)) := by
  have hy := yearFromTime_spec t
  have hl := inLeapYear_bounds (YearFromTime t)
  have hsucc := dayFromYear_succ (YearFromTime t)
  have hdiy := daysInYear_eq (YearFromTime t)
  have hd0 : 0 ≤ DayWithinYear t := by unfold DayWithinYear; omega
  have hd1 : DayWithinYear t < 365 + InLeapYear (YearFromTime t) := by
    unfold DayWithinYear; omega
  exact month_chain (DayWithinYear t) (InLeapYear (YearFromTime t)) (MonthFromTime t) hd0 hd1
    hl.1 hl.2 rfl

/-- The month of a time value is the only month that contains its day. -/
theorem monthFromTime_eq (t k : Int) (hk0 : 0 ≤ k) (hk11 : k ≤ 11)
    (h1 : dayOfMonthStart (InLeapYear (YearFromTime t)) k ≤ DayWithinYear t)
    (h2 : k < 11 → DayWithinYear t < dayOfMonthStart (InLeapYear (YearFromTime t)) (k + 1)) :
    MonthFromTime t = k := by
  obtain ⟨m0, m11, m1, _, m2⟩ := monthFromTime_table t
  have hl := (inLeapYear_bounds (YearFromTime t)).1
  generalize MonthFromTime t = m at m0 m11 m1 m2 ⊢
  by_contra hne
  rcases lt_or_gt_of_ne hne with h | h
  · have hm := dayOfMonthStart_mono _ hl (k - (m + 1)).toNat (m + 1) (by omega) (by omega)
    have e : m + 1 + (((k - (m + 1)).toNat : Nat) : Int) = k := by omega
    rw [e] at hm
    have := m2 (by omega)
    omega
  · have hm := dayOfMonthStart_mono _ hl (m - (k + 1)).toNat (k + 1) (by omega) (by omega)
    have e : k + 1 + (((m - (k + 1)).toNat : Nat) : Int) = m := by omega
    rw [e] at hm
    have := h2 (by omega)
    omega

/-- The day of the month lies between 1 and 31. -/
theorem dateFromTime_bounds (t : Int) : 1 ≤ DateFromTime t ∧ DateFromTime t ≤ 31 := by
  obtain ⟨_, _, h1, h2, _⟩ := monthFromTime_table t
  unfold DateFromTime
  constructor <;> omega

/-- The year of a time value is the only year that contains its day. -/
theorem yearFromTime_eq (t y : Int) (h1 : DayFromYear y ≤ Day t)
    (h2 : Day t < DayFromYear (y + 1)) : YearFromTime t = y := by
  have hs := yearFromTime_spec t
  have b1 := dayFromYear_bounds y
  have b2 := dayFromYear_bounds (y + 1)
  have b3 := dayFromYear_bounds (YearFromTime t)
  have b4 := dayFromYear_bounds (YearFromTime t + 1)
  generalize YearFromTime t = Y at hs b3 b4 ⊢
  have hcases : Y = y - 1 ∨ Y = y ∨ Y = y + 1 := by omega
  rcases hcases with h | h | h
  · subst h
    have e : y - 1 + 1 = y := by ring
    rw [e] at hs
    omega
  · exact h
  · subst h
    omega

theorem makeDay_of_month (yr k d : Int) (hk0 : 0 ≤ k) (hk11 : k ≤ 11) :
    MakeDay yr k d = DayFromYear yr + dayOfMonthStart (InLeapYear yr) k + d - 1 := by
  have h1 : k / 12 = 0 := by omega
  have h2 : k % 12 = k := by omega
  unfold MakeDay
  simp only []
  rw [h1, h2, add_zero]

theorem makeDay_twelve (yr d : Int) : MakeDay yr 12 d = DayFromYear (yr + 1) + d - 1 := by
  have h1 : (12 : Int) / 12 = 1 := by decide
  have h2 : (12 : Int) % 12 = 0 := by decide
  unfold MakeDay
  simp only []
  rw [h1, h2, (dayOfMonthStart_table _).1, add_zero]

/-- The day of the month of the day before the first of the next month is the
length of the month: `new Date(year, month, 0).getDate()`. -/
theorem dateFromTime_month_end (t yr m : Int) (h1 : 1 ≤ m) (h12 : m ≤ 12)
    (hday : Day t = MakeDay yr m 0) : DateFromTime t = (daysInCalendarMonth yr m : Int) := by
  have hlen := makeDay_month_length yr m h1 h12
  have hpos := daysInCalendarMonth_pos yr m
  have hprev := makeDay_of_month yr (m - 1) 1 (by omega) (by omega)
  have hl := inLeapYear_bounds yr
  have hsucc := dayFromYear_succ yr
  have hdiy := daysInYear_eq yr
  have hsb := dayOfMonthStart_bounds (InLeapYear yr) (m - 1) hl.1 hl.2
  -- the first of the next month, counted from the start of the year
  have hnext : MakeDay yr m 1 = MakeDay yr m 0 + 1 := by
    unfold MakeDay
    simp only []
    omega
  have hN : MakeDay yr m 1 - DayFromYear yr ≤ 365 + InLeapYear yr ∧
      (m ≤ 11 → MakeDay yr m 1 - DayFromYear yr = dayOfMonthStart (InLeapYear yr) m) := by
    by_cases hm : m ≤ 11
    · have h := makeDay_of_month yr m 1 (by omega) hm
      have hb := dayOfMonthStart_bounds (InLeapYear yr) m hl.1 hl.2
      generalize dayOfMonthStart (InLeapYear yr) m = sm at h hb ⊢
      generalize dayOfMonthStart (InLeapYear yr) (m - 1) = sp at hprev hsb
      constructor
      · omega
      · intro _; omega
    · have hm' : m = 12 := by omega
      subst hm'
      have h := makeDay_twelve yr 1
      generalize dayOfMonthStart (InLeapYear yr) (12 - 1) = sp at hprev hsb
      constructor
      · omega
      · intro hc; omega
  have hyear : YearFromTime t = yr := by
    apply yearFromTime_eq
    · rw [hday]
      generalize dayOfMonthStart (InLeapYear yr) (m - 1) = sp at hprev hsb
      omega
    · rw [hday]
      have := hN.1
      omega
  have hdwy : DayWithinYear t = dayOfMonthStart (InLeapYear yr) (m - 1)
      + (daysInCalendarMonth yr m : Int) - 1 := by
    unfold DayWithinYear
    rw [hyear, hday]
    generalize dayOfMonthStart (InLeapYear yr) (m - 1) = sp at hprev hsb
    omega
  have hmonth : MonthFromTime t = m - 1 := by
    apply monthFromTime_eq t (m - 1) (by omega) (by omega)
    · rw [hyear, hdwy]
      generalize dayOfMonthStart (InLeapYear yr) (m - 1) = sp
      omega
    · intro hlt
      have e : m - 1 + 1 = m := by ring
      rw [hyear, hdwy, e, ← hN.2 (by omega)]
      generalize dayOfMonthStart (InLeapYear yr) (m - 1) = sp at hprev hsb
      omega
  unfold DateFromTime
  rw [hmonth, hyear, hdwy]
  generalize dayOfMonthStart (InLeapYear yr) (m - 1) = sp
  omega

theorem weekDay_bounds (t : Int) : 0 ≤ WeekDay t ∧ WeekDay t ≤ 6 := by
  unfold WeekDay
  omega

/-! ## The Dashboard -/

/-- The day of the month is at least 1, so the average per elapsed day is a
quotient by a positive number. -/
theorem dashboardInsights_defined (tz now : Int) (stats : StatsData) :
    1 ≤ (dashboardInsights tz now stats).daysElapsed ∧
    (dashboardInsights tz now stats).avgDailySpend
      = JSVal.num (stats.totals.expenses / ((dashboardInsights tz now stats).daysElapsed : ℚ)) := by
  have hb := (dateFromTime_bounds (now + tz)).1
  refine ⟨hb, ?_⟩
  show (JSVal.num stats.totals.expenses).div (JSVal.num ((DateFromTime (now + tz) : Int) : ℚ))
    = JSVal.num (stats.totals.expenses / ((DateFromTime (now + tz) : Int) : ℚ))
  apply div_num_num
  have : (0 : ℚ) < ((DateFromTime (now + tz) : Int) : ℚ) := by exact_mod_cast hb
  exact ne_of_gt this

/-- Claim C29 for a month without transactions, rendered on 15 January 2024.  The
statistics of January 2024 count 31 no-spend days, the Dashboard divides them by
the 15 days elapsed, and the share it shows is 620/3 percent, above 100. -/
theorem dashboard_noSpendShare_above_100 :
    ∃ stats, getTransactionStats 0 1 2024 [] = some stats ∧
      stats.noSpendDays = 31 ∧
      (dashboardInsights 0 1705320000000 stats).daysElapsed = 15 ∧
      (dashboardInsights 0 1705320000000 stats).noSpendShare = JSVal.num (620 / 3) ∧
      (100 : ℚ) < 620 / 3 := by
  have hs : newDate 0 2024 (1 - 1) 1 = some 1704067200000 := by decide
  have he : newDate 0 2024 1 1 = some 1706745600000 := by decide
  have hstats : getTransactionStats 0 1 2024 []
      = some (transactionStats 0 1704067200000 1706745600000 []) := by
    unfold getTransactionStats
    rw [hs, he]
  have hn : (transactionStats 0 1704067200000 1706745600000 []).noSpendDays = 31 := by decide
  have hd : DateFromTime (1705320000000 + 0) = 15 := by decide
  refine ⟨_, hstats, hn, hd, ?_, by norm_num⟩
  show ((JSVal.num (((transactionStats 0 1704067200000 1706745600000 []).noSpendDays : Int) : ℚ)).div
      (JSVal.num ((DateFromTime (1705320000000 + 0) : Int) : ℚ))).mul (JSVal.num 100)
    = JSVal.num (620 / 3)
  rw [hn, hd, div_num_num _ _ (by norm_num), mul_num_num]
  congr 1
  norm_num

/-! ## The calendar -/

/-- Claim C30, for a month from 1 to 12 and a year whose two dates
`new Date(year, month - 1, 1)` and `new Date(year, month, 0)` are valid, a year
from 0 to 99 being read as 1900 + year by the constructor: `getDaysInMonth` is the
length of the calendar month, `getFirstDayOfMonth` is a day of the week from 0 to
6, and `generateCalendar` returns that many cells with `day = null`, income 0
and expense 0, followed by the cells of the days 1, 2, ... up to the length of the
month; its length is the sum of the two. -/
theorem generateCalendar_cells (tz : Int) (transactions : List Transaction)
    (month year s e : Int) (hm1 : 1 ≤ month) (hm12 : month ≤ 12)
    (hstart : newDate tz year (month - 1) 1 = some s)
    (hlast : newDate tz year month 0 = some e) :
    getDaysInMonth tz month year = some ((daysInCalendarMonth (fullYear year) month : Nat) : Int) ∧
    ∃ firstDay : Nat, getFirstDayOfMonth tz month year = some (firstDay : Int) ∧ firstDay ≤ 6 ∧
      generateCalendar tz transactions month year
        = List.replicate firstDay (CalendarCell.mk none 0 0 none) ++
          (List.range (daysInCalendarMonth (fullYear year) month)).map
            (fun i : Nat => dayCell (getDailyTotals transactions) month year ((i : Int) + 1)) ∧
      ((generateCalendar tz transactions month year).drop firstDay).map (fun c => c.day)
        = (List.range (daysInCalendarMonth (fullYear year) month)).map
            (fun i : Nat => some ((i : Int) + 1)) ∧
      (generateCalendar tz transactions month year).length
        = firstDay + daysInCalendarMonth (fullYear year) month := by
  have he := (newDate_eq_some tz year month 0 e hlast).1
  have hday : Day (e + tz) = MakeDay (fullYear year) month 0 := by
    rw [he]
    unfold Day msPerDay
    omega
  have hdim : getDaysInMonth tz month year
      = some ((daysInCalendarMonth (fullYear year) month : Nat) : Int) := by
    unfold getDaysInMonth
    rw [hlast, Option.map_some', dateFromTime_month_end (e + tz) (fullYear year) month hm1 hm12 hday]
  have hwd := weekDay_bounds (s + tz)
  have hfd : getFirstDayOfMonth tz month year = some (((WeekDay (s + tz)).toNat : Nat) : Int) := by
    unfold getFirstDayOfMonth
    rw [hstart, Option.map_some', Int.toNat_of_nonneg hwd.1]
  have hcal : generateCalendar tz transactions month year
      = List.replicate (WeekDay (s + tz)).toNat (CalendarCell.mk none 0 0 none) ++
        (List.range (daysInCalendarMonth (fullYear year) month)).map
          (fun i : Nat => dayCell (getDailyTotals transactions) month year ((i : Int) + 1)) := by
    unfold generateCalendar
    simp only []
    rw [hdim, hfd]
    simp only [Option.getD_some, Int.toNat_ofNat]
  refine ⟨hdim, (WeekDay (s + tz)).toNat, hfd, by omega, hcal, ?_, ?_⟩
  · rw [hcal, List.drop_left' (List.length_replicate _ _), List.map_map]
    rfl
  · rw [hcal, List.length_append, List.length_replicate, List.length_map, List.length_range]

/-- Claim C30 for February 2024: 29 day cells after 4 empty cells. -/
theorem generateCalendar_cells_witness :
    getDaysInMonth 0 2 2024 = some ((daysInCalendarMonth (fullYear 2024) 2 : Nat) : Int) ∧
    daysInCalendarMonth (fullYear 2024) 2 = 29 ∧
    getFirstDayOfMonth 0 2 2024 = some 4 :=
  ⟨(generateCalendar_cells 0 [] 2 2024 1706745600000 1709164800000 (by decide) (by decide)
      (by decide) (by decide)).1, by decide, by decide⟩

/-- Counterexample to C30 as stated: for the year 300000 the dates are Invalid
Dates, `getDaysInMonth` is `NaN` and the calendar is empty; and for the year 0,
which the constructor reads as 1900, February has 28 days where the year 0 is a
leap year. -/
theorem generateCalendar_invalid_year :
    getDaysInMonth 0 2 300000 = none ∧ generateCalendar 0 [] 2 300000 = [] ∧
    getDaysInMonth 0 2 0 = some 28 ∧ daysInCalendarMonth 0 2 = 29 := by
  refine ⟨by decide, by decide, by decide, by decide⟩

/-! ## Rounding to binary64 -/

theorem roundHalfEven_intCast (n : Int) : roundHalfEven (n : ℚ) = n := by
  unfold roundHalfEven
  rw [Int.floor_intCast, sub_self, if_pos (by norm_num)]

theorem floor_le_roundHalfEven (q : ℚ) : ⌊q⌋ ≤ roundHalfEven q := by
  unfold roundHalfEven
  split_ifs <;> omega

theorem roundHalfEven_le_floor_succ (q : ℚ) : roundHalfEven q ≤ ⌊q⌋ + 1 := by
  unfold roundHalfEven
  split_ifs <;> omega

/-- A value at or above an integer is rounded to at least that integer. -/
theorem le_roundHalfEven (n : Int) (q : ℚ) (h : (n : ℚ) ≤ q) : n ≤ roundHalfEven q :=
  le_trans (Int.le_floor.mpr h) (floor_le_roundHalfEven q)

/-- A value at or below an integer is rounded to at most that integer. -/
theorem roundHalfEven_le (n : Int) (q : ℚ) (h : q ≤ (n : ℚ)) : roundHalfEven q ≤ n := by
  rcases eq_or_lt_of_le h with h | h
  · rw [h, roundHalfEven_intCast]
  · have h1 : ⌊q⌋ < n := Int.floor_lt.mpr h
    have h2 := roundHalfEven_le_floor_succ q
    omega

theorem roundHalfEven_mono (p q : ℚ) (h : p ≤ q) : roundHalfEven p ≤ roundHalfEven q := by
  have hfl : ⌊p⌋ ≤ ⌊q⌋ := Int.floor_mono h
  rcases eq_or_lt_of_le hfl with hf | hf
  · unfold roundHalfEven
    rw [hf]
    have h' : p - (⌊q⌋ : ℚ) ≤ q - (⌊q⌋ : ℚ) := by linarith
    split_ifs <;> first | omega | (exfalso; linarith)
  · have h1 := roundHalfEven_le_floor_succ p
    have h2 := floor_le_roundHalfEven q
    omega

theorem roundHalfEven_neg (q : ℚ) : roundHalfEven (-q) = -roundHalfEven q := by
  by_cases hq : (⌊q⌋ : ℚ) = q
  · rw [← hq, ← Int.cast_neg, roundHalfEven_intCast, roundHalfEven_intCast]
  · have hlt : (⌊q⌋ : ℚ) < q := lt_of_le_of_ne (Int.floor_le q) hq
    have hlt2 : q < (⌊q⌋ : ℚ) + 1 := Int.lt_floor_add_one q
    have hfl : ⌊-q⌋ = -⌊q⌋ - 1 := by
      rw [Int.floor_eq_iff]
      push_cast
      constructor <;> linarith
    unfold roundHalfEven
    rw [hfl]
    push_cast
    split_ifs <;> first | omega | (exfalso; linarith)

/-- The value rounded is within a half of its rounding. -/
theorem abs_roundHalfEven_sub_le (q : ℚ) : |(roundHalfEven q : ℚ) - q| ≤ 1 / 2 := by
  have hlt : (⌊q⌋ : ℚ) ≤ q := Int.floor_le q
  have hlt2 : q < (⌊q⌋ : ℚ) + 1 := Int.lt_floor_add_one q
  rw [abs_le]
  unfold roundHalfEven
  split_ifs <;> push_cast <;> constructor <;> linarith

/-- An integer within less than a half of a value is its rounding. -/
theorem roundHalfEven_eq_of_near (q : ℚ) (m : Int) (h : |q - (m : ℚ)| < 1 / 2) :
    roundHalfEven q = m := by
  have h1 := abs_roundHalfEven_sub_le q
  rw [abs_lt] at h
  rw [abs_le] at h1
  have h2 : ((roundHalfEven q - m : Int) : ℚ) < 1 := by push_cast; linarith
  have h3 : (-1 : ℚ) < ((roundHalfEven q - m : Int) : ℚ) := by push_cast; linarith
  have h4 : roundHalfEven q - m < 1 := by exact_mod_cast h2
  have h5 : -1 < roundHalfEven q - m := by exact_mod_cast h3
  omega

/-- A value half way between an even integer and the next is rounded to the
even one. -/
theorem roundHalfEven_tie_even (m : Int) (hm : m % 2 = 0) :
    roundHalfEven ((m : ℚ) + 1 / 2) = m := by
  have hfl : ⌊(m : ℚ) + 1 / 2⌋ = m := by
    rw [Int.floor_eq_iff]
    constructor <;> linarith
  unfold roundHalfEven
  rw [hfl]
  rw [if_neg (by norm_num), if_neg (by norm_num), if_pos hm]

/-- A value half way between an odd integer and the next is rounded to the
next. -/
theorem roundHalfEven_tie_odd (m : Int) (hm : m % 2 = 1) :
    roundHalfEven ((m : ℚ) + 1 / 2) = m + 1 := by
  have hfl : ⌊(m : ℚ) + 1 / 2⌋ = m := by
    rw [Int.floor_eq_iff]
    constructor <;> linarith
  unfold roundHalfEven
  rw [hfl]
  rw [if_neg (by norm_num), if_neg (by norm_num), if_neg (by omega)]

theorem two_zpow_pos (e : Int) : (0 : ℚ) < (2 : ℚ) ^ e := zpow_pos (by norm_num) e

theorem two_zpow_mono (a b : Int) (h : a ≤ b) : (2 : ℚ) ^ a ≤ (2 : ℚ) ^ b :=
  zpow_le_zpow_right₀ (by norm_num) h

/-- The binary exponent of a value between two consecutive powers of 2. -/
theorem log_abs_eq (x : ℚ) (e : Int) (h1 : (2 : ℚ) ^ e ≤ |x|) (h2 : |x| < (2 : ℚ) ^ (e + 1)) :
    Int.log 2 |x| = e := by
  have hpos : 0 < |x| := lt_of_lt_of_le (two_zpow_pos e) h1
  have hb : 1 < 2 := by norm_num
  have h3 : e ≤ Int.log 2 |x| := by
    rw [← Int.zpow_le_iff_le_log hb hpos]
    exact_mod_cast h1
  have h4 : Int.log 2 |x| < e + 1 := by
    rw [← Int.lt_zpow_iff_log_lt hb hpos]
    exact_mod_cast h2
  omega

theorem ulpExponent_ge (x : ℚ) : -1074 ≤ ulpExponent x := by
  unfold ulpExponent
  have := le_max_right (Int.log 2 |x|) (-1022)
  omega

theorem ulpExponent_neg (x : ℚ) : ulpExponent (-x) = ulpExponent x := by
  unfold ulpExponent
  rw [abs_neg]

theorem abs_lt_zpow_ulpExponent (x : ℚ) : |x| < (2 : ℚ) ^ (ulpExponent x + 53) := by
  have h := Int.lt_zpow_succ_log_self (R := ℚ) (b := 2) (by norm_num) |x|
  have h' : |x| < (2 : ℚ) ^ (Int.log 2 |x| + 1) := by exact_mod_cast h
  refine lt_of_lt_of_le h' (two_zpow_mono _ _ ?_)
  unfold ulpExponent
  have := le_max_left (Int.log 2 |x|) (-1022)
  omega

/-- The unit in the last place of a value in the normal range. -/
theorem ulpExponent_eq (x : ℚ) (u : Int) (hu : -1074 ≤ u)
    (h1 : (2 : ℚ) ^ (u + 52) ≤ |x|) (h2 : |x| < (2 : ℚ) ^ (u + 53)) : ulpExponent x = u := by
  have h2' : |x| < (2 : ℚ) ^ (u + 52 + 1) := by
    have e : u + 52 + 1 = u + 53 := by ring
    rw [e]; exact h2
  unfold ulpExponent
  rw [log_abs_eq x (u + 52) h1 h2', max_eq_left (by omega)]
  omega

/-- A value that is an integer number of its units in the last place is a
binary64 number: rounding leaves it as it is. -/
theorem toDouble_of_units (y : ℚ) (n : Int) (h : y = (n : ℚ) * (2 : ℚ) ^ ulpExponent y) :
    toDouble y = y := by
  have hq : y / (2 : ℚ) ^ ulpExponent y = (n : ℚ) := by
    rw [div_eq_iff (ne_of_gt (two_zpow_pos _))]
    exact h
  unfold toDouble
  rw [hq, roundHalfEven_intCast]
  exact h.symm

theorem toDouble_zero : toDouble 0 = 0 :=
  toDouble_of_units 0 0 (by simp)

/-- The binary64 numbers: an integer of at most 53 bits times a power of 2 not
below the smallest unit. -/
theorem toDouble_of_mantissa (m u : Int) (hm : |m| ≤ 2 ^ 53) (hu : -1074 ≤ u) :
    toDouble ((m : ℚ) * (2 : ℚ) ^ u) = (m : ℚ) * (2 : ℚ) ^ u := by
  by_cases h0 : m = 0
  · subst h0
    simp only [Int.cast_zero, zero_mul]
    exact toDouble_zero
  have habs : |(m : ℚ) * (2 : ℚ) ^ u| = (|m| : Int) * (2 : ℚ) ^ u := by
    rw [abs_mul, abs_of_pos (two_zpow_pos u), Int.cast_abs]
  have hmpos : (1 : ℚ) ≤ ((|m| : Int) : ℚ) := by
    have : 1 ≤ |m| := Int.one_le_abs h0
    exact_mod_cast this
  rcases eq_or_lt_of_le hm with hm' | hm'
  · -- the mantissa 2^53: the next power of 2
    have hy : |(m : ℚ) * (2 : ℚ) ^ u| = (2 : ℚ) ^ (u + 53) := by
      rw [habs, hm', zpow_add₀ (by norm_num : (2 : ℚ) ≠ 0)]
      push_cast
      ring
    have hv : ulpExponent ((m : ℚ) * (2 : ℚ) ^ u) = u + 1 := by
      apply ulpExponent_eq _ _ (by omega)
      · rw [hy]
        exact two_zpow_mono _ _ (by omega)
      · rw [hy]
        have e : u + 1 + 53 = u + 53 + 1 := by ring
        rw [e, zpow_add_one₀ (by norm_num : (2 : ℚ) ≠ 0)]
        have := two_zpow_pos (u + 53)
        linarith
    have hdvd : (2 : Int) ∣ m := by
      have h2 : (2 : Int) ∣ |m| := by rw [hm']; exact ⟨2 ^ 52, by norm_num⟩
      exact (dvd_abs 2 m).mp h2
    obtain ⟨k, hk⟩ := hdvd
    apply toDouble_of_units _ k
    rw [hv, hk, zpow_add_one₀ (by norm_num : (2 : ℚ) ≠ 0)]
    push_cast
    ring
  · -- a mantissa below 2^53: the unit is at most 2^u
    have hlt : |(m : ℚ) * (2 : ℚ) ^ u| < (2 : ℚ) ^ (u + 53) := by
      rw [habs, zpow_add₀ (by norm_num : (2 : ℚ) ≠ 0), mul_comm ((2 : ℚ) ^ u)]
      apply mul_lt_mul_of_pos_right _ (two_zpow_pos u)
      exact_mod_cast hm'
    have hpos : 0 < |(m : ℚ) * (2 : ℚ) ^ u| := by
      rw [habs]
      exact mul_pos (by linarith) (two_zpow_pos u)
    have hlog : Int.log 2 |(m : ℚ) * (2 : ℚ) ^ u| < u + 53 := by
      rw [← Int.lt_zpow_iff_log_lt (by norm_num) hpos]
      exact_mod_cast hlt
    have hv : ulpExponent ((m : ℚ) * (2 : ℚ) ^ u) ≤ u := by
      unfold ulpExponent
      have := max_le (a := Int.log 2 |(m : ℚ) * (2 : ℚ) ^ u|) (b := -1022) (c := u + 52)
        (by omega) (by omega)
      omega
    obtain ⟨v, hvdef⟩ : ∃ v, v = ulpExponent ((m : ℚ) * (2 : ℚ) ^ u) := ⟨_, rfl⟩
    rw [← hvdef] at hv
    apply toDouble_of_units _ (m * 2 ^ (u - v).toNat)
    rw [← hvdef]
    have e : (2 : ℚ) ^ u = (2 : ℚ) ^ ((u - v).toNat : Int) * (2 : ℚ) ^ v := by
      rw [← zpow_add₀ (by norm_num : (2 : ℚ) ≠ 0)]
      congr 1
      omega
    rw [e, zpow_natCast]
    push_cast
    ring

theorem toDouble_intCast (n : Int) (hn : |n| ≤ 2 ^ 53) : toDouble (n : ℚ) = n := by
  have h := toDouble_of_mantissa n 0 hn (by norm_num)
  simpa using h

theorem abs_roundHalfEven_units_le (x : ℚ) :
    |roundHalfEven (x / (2 : ℚ) ^ ulpExponent x)| ≤ 2 ^ 53 := by
  have h := abs_lt_zpow_ulpExponent x
  have hpos := two_zpow_pos (ulpExponent x)
  have hq : |x / (2 : ℚ) ^ ulpExponent x| < (2 : ℚ) ^ (53 : Nat) := by
    rw [abs_div, abs_of_pos hpos, div_lt_iff₀ hpos, ← zpow_natCast,
      ← zpow_add₀ (by norm_num : (2 : ℚ) ≠ 0)]
    have e : ((53 : Nat) : Int) + ulpExponent x = ulpExponent x + 53 := by push_cast; ring
    rw [e]
    exact h
  rw [abs_lt] at hq
  rw [abs_le]
  constructor
  · have : ((-(2 ^ 53) : Int) : ℚ) ≤ x / (2 : ℚ) ^ ulpExponent x := by
      push_cast
      linarith
    exact le_roundHalfEven _ _ this
  · have : x / (2 : ℚ) ^ ulpExponent x ≤ ((2 ^ 53 : Int) : ℚ) := by
      push_cast
      linarith
    exact roundHalfEven_le _ _ this

/-- A rounded value is a binary64 number: rounding it again changes nothing. -/
theorem toDouble_toDouble (x : ℚ) : toDouble (toDouble x) = toDouble x := by
  unfold toDouble
  exact toDouble_of_mantissa _ _ (abs_roundHalfEven_units_le x) (ulpExponent_ge x)

theorem toDouble_neg (x : ℚ) : toDouble (-x) = -toDouble x := by
  unfold toDouble
  rw [ulpExponent_neg, neg_div, roundHalfEven_neg]
  push_cast
  ring

theorem toDouble_nonneg (x : ℚ) (hx : 0 ≤ x) : 0 ≤ toDouble x := by
  unfold toDouble
  have hq : ((0 : Int) : ℚ) ≤ x / (2 : ℚ) ^ ulpExponent x := by
    push_cast
    exact div_nonneg hx (le_of_lt (two_zpow_pos _))
  have h := le_roundHalfEven 0 _ hq
  have h' : (0 : ℚ) ≤ (roundHalfEven (x / (2 : ℚ) ^ ulpExponent x) : ℚ) := by exact_mod_cast h
  exact mul_nonneg h' (le_of_lt (two_zpow_pos _))

theorem ulpExponent_mono (x y : ℚ) (hx : 0 < x) (h : x ≤ y) : ulpExponent x ≤ ulpExponent y := by
  unfold ulpExponent
  have hl : Int.log 2 |x| ≤ Int.log 2 |y| := by
    rw [abs_of_pos hx, abs_of_pos (lt_of_lt_of_le hx h)]
    exact Int.log_mono_right hx h
  have := max_le_max hl (le_refl (-1022 : Int))
  omega

theorem toDouble_mono_of_pos (x y : ℚ) (hx : 0 < x) (h : x ≤ y) : toDouble x ≤ toDouble y := by
  have hy : 0 < y := lt_of_lt_of_le hx h
  have huv := ulpExponent_mono x y hx h
  rcases eq_or_lt_of_le huv with he | hlt
  · unfold toDouble
    rw [he]
    have hpos := two_zpow_pos (ulpExponent y)
    have hq : x / (2 : ℚ) ^ ulpExponent y ≤ y / (2 : ℚ) ^ ulpExponent y :=
      div_le_div_of_nonneg_right h (le_of_lt hpos)
    have hr := roundHalfEven_mono _ _ hq
    have hr' : (roundHalfEven (x / (2 : ℚ) ^ ulpExponent y) : ℚ)
        ≤ (roundHalfEven (y / (2 : ℚ) ^ ulpExponent y) : ℚ) := by exact_mod_cast hr
    exact mul_le_mul_of_nonneg_right hr' (le_of_lt hpos)
  · -- a power of 2 lies between the two values
    have hb : 1 < 2 := by norm_num
    have hlogy : ulpExponent y = Int.log 2 |y| - 52 ∧ Int.log 2 |x| < Int.log 2 |y| := by
      unfold ulpExponent at hlt ⊢
      have h1 := le_max_left (Int.log 2 |x|) (-1022)
      have h2 := le_max_right (Int.log 2 |x|) (-1022)
      rcases max_cases (Int.log 2 |y|) (-1022) with ⟨h3, _⟩ | ⟨h3, _⟩
      · rw [h3] at hlt ⊢
        constructor <;> omega
      · rw [h3] at hlt
        omega
    obtain ⟨hv, hlog⟩ := hlogy
    rw [abs_of_pos hx, abs_of_pos hy] at hlog
    rw [abs_of_pos hy] at hv
    have hye : (2 : ℚ) ^ Int.log 2 y ≤ y := by
      have := Int.zpow_log_le_self (R := ℚ) hb hy
      exact_mod_cast this
    have hxe : x < (2 : ℚ) ^ Int.log 2 y := by
      have := (Int.lt_zpow_iff_log_lt (R := ℚ) hb hx).mpr hlog
      exact_mod_cast this
    generalize Int.log 2 y = e at hv hlog hye hxe
    have hux := ulpExponent_ge x
    have h1 : toDouble x ≤ (2 : ℚ) ^ e := by
      unfold toDouble
      have hpos := two_zpow_pos (ulpExponent x)
      have hk : (2 : ℚ) ^ e = ((2 ^ (e - ulpExponent x).toNat : Int) : ℚ)
          * (2 : ℚ) ^ ulpExponent x := by
        push_cast
        rw [← zpow_natCast, ← zpow_add₀ (by norm_num : (2 : ℚ) ≠ 0)]
        congr 1
        omega
      have hq : x / (2 : ℚ) ^ ulpExponent x ≤ ((2 ^ (e - ulpExponent x).toNat : Int) : ℚ) := by
        rw [div_le_iff₀ hpos, ← hk]
        exact le_of_lt hxe
      have hr := roundHalfEven_le _ _ hq
      have hr' : (roundHalfEven (x / (2 : ℚ) ^ ulpExponent x) : ℚ)
          ≤ ((2 ^ (e - ulpExponent x).toNat : Int) : ℚ) := by exact_mod_cast hr
      rw [hk]
      exact mul_le_mul_of_nonneg_right hr' (le_of_lt hpos)
    have h2 : (2 : ℚ) ^ e ≤ toDouble y := by
      unfold toDouble
      have hpos := two_zpow_pos (ulpExponent y)
      have hk : (2 : ℚ) ^ e = ((2 ^ 52 : Int) : ℚ) * (2 : ℚ) ^ ulpExponent y := by
        have e52 : ((2 ^ 52 : Int) : ℚ) = (2 : ℚ) ^ (52 : Int) := by norm_num
        rw [e52, ← zpow_add₀ (by norm_num : (2 : ℚ) ≠ 0)]
        congr 1
        omega
      have hq : ((2 ^ 52 : Int) : ℚ) ≤ y / (2 : ℚ) ^ ulpExponent y := by
        rw [le_div_iff₀ hpos, ← hk]
        exact hye
      have hr := le_roundHalfEven _ _ hq
      have hr' : ((2 ^ 52 : Int) : ℚ)
          ≤ (roundHalfEven (y / (2 : ℚ) ^ ulpExponent y) : ℚ) := by exact_mod_cast hr
      rw [hk]
      exact mul_le_mul_of_nonneg_right hr' (le_of_lt hpos)
    exact le_trans h1 h2

/-- Rounding to binary64 keeps the order. -/
theorem toDouble_mono (x y : ℚ) (h : x ≤ y) : toDouble x ≤ toDouble y := by
  rcases lt_trichotomy 0 x with hx | hx | hx
  · exact toDouble_mono_of_pos x y hx h
  · subst hx
    rw [toDouble_zero]
    exact toDouble_nonneg y h
  · rcases le_or_lt 0 y with hy | hy
    · have h1 : toDouble x ≤ 0 := by
        have := toDouble_nonneg (-x) (by linarith)
        rw [toDouble_neg] at this
        linarith
      exact le_trans h1 (toDouble_nonneg y hy)
    · have := toDouble_mono_of_pos (-y) (-x) (by linarith) (by linarith)
      rw [toDouble_neg, toDouble_neg] at this
      linarith

/-- The rounding of a value of the normal range that lies within less than half
a unit of `m` units. -/
theorem toDouble_eq_of_near (x : ℚ) (m u : Int) (hu : -1074 ≤ u)
    (h1 : (2 : ℚ) ^ (u + 52) ≤ |x|) (h2 : |x| < (2 : ℚ) ^ (u + 53))
    (h3 : |x / (2 : ℚ) ^ u - (m : ℚ)| < 1 / 2) : toDouble x = (m : ℚ) * (2 : ℚ) ^ u := by
  unfold toDouble
  rw [ulpExponent_eq x u hu h1 h2, roundHalfEven_eq_of_near _ m h3]

/-- The rounding of a value of the normal range that lies half way between `m`
units and the next, for an even `m`. -/
theorem toDouble_eq_of_tie_even (x : ℚ) (m u : Int) (hu : -1074 ≤ u)
    (h1 : (2 : ℚ) ^ (u + 52) ≤ |x|) (h2 : |x| < (2 : ℚ) ^ (u + 53))
    (h3 : x / (2 : ℚ) ^ u = (m : ℚ) + 1 / 2) (hm : m % 2 = 0) :
    toDouble x = (m : ℚ) * (2 : ℚ) ^ u := by
  unfold toDouble
  rw [ulpExponent_eq x u hu h1 h2, h3, roundHalfEven_tie_even m hm]

/-! ## Daily spending in binary64 -/

theorem dailyStepDouble_eq (acc : List (IsoDate × ℚ)) (t : Transaction) :
    dailyStepDouble acc t
      = setOwn acc (isoDate t.date)
          (addDouble ((getOwn acc (isoDate t.date)).getD 0) t.amount) := by
  unfold dailyStepDouble
  cases h : getOwn acc (isoDate t.date) with
  | none =>
    simp only [h, getOwn_setOwn, if_true, setOwn_setOwn, Option.getD_none]
  | some v =>
    by_cases hv : v = 0
    · subst hv
      simp only [h, if_true, getOwn_setOwn, setOwn_setOwn, Option.getD_some]
    · simp only [h, if_neg hv, Option.getD_some]

/-- The entry of a day after the reduction: the amounts of the day, added from
the left to what the accumulator held for the day. -/
theorem getOwn_foldl_dailyStepDouble (ts : List Transaction) :
    ∀ (acc : List (IsoDate × ℚ)) (d : IsoDate),
      getOwn (ts.foldl dailyStepDouble acc) d
        = if (getOwn acc d).isSome ∨ ∃ t ∈ ts, isoDate t.date = d then
            some ((ts.filter (fun t => decide (isoDate t.date = d))).foldl
              (fun sum t => addDouble sum t.amount) ((getOwn acc d).getD 0))
          else none := by
  induction ts with
  | nil =>
    intro acc d
    cases h : getOwn acc d <;> simp [h]
  | cons t ts ih =>
    intro acc d
    rw [List.foldl_cons, ih, dailyStepDouble_eq, getOwn_setOwn]
    by_cases hk : isoDate t.date = d
    · have hc1 : (some (addDouble ((getOwn acc (isoDate t.date)).getD 0) t.amount)).isSome
          ∨ ∃ t' ∈ ts, isoDate t'.date = d := Or.inl rfl
      have hc2 : (getOwn acc d).isSome ∨ ∃ t' ∈ t :: ts, isoDate t'.date = d :=
        Or.inr ⟨t, List.mem_cons_self _ _, hk⟩
      rw [if_pos hk, if_pos hc1, if_pos hc2, List.filter_cons_of_pos (by simpa using hk),
        List.foldl_cons, Option.getD_some, hk]
    · rw [if_neg hk, List.filter_cons_of_neg (by simpa using hk)]
      have hiff : ((getOwn acc d).isSome ∨ ∃ t' ∈ ts, isoDate t'.date = d)
          ↔ ((getOwn acc d).isSome ∨ ∃ t' ∈ t :: ts, isoDate t'.date = d) := by
        constructor
        · rintro (h | ⟨t', ht', hd⟩)
          · exact Or.inl h
          · exact Or.inr ⟨t', List.mem_cons_of_mem _ ht', hd⟩
        · rintro (h | ⟨t', ht', hd⟩)
          · exact Or.inl h
          · rcases List.mem_cons.mp ht' with rfl | ht''
            · exact absurd hd hk
            · exact Or.inr ⟨t', ht'', hd⟩
      by_cases hc : (getOwn acc d).isSome ∨ ∃ t' ∈ ts, isoDate t'.date = d
      · rw [if_pos hc, if_pos (hiff.mp hc)]
      · rw [if_neg hc, if_neg (fun h => hc (hiff.mpr h))]

theorem foldl_dailyStepDouble_nodup (ts : List Transaction) :
    ∀ acc : List (IsoDate × ℚ), (acc.map (fun e => e.1)).Nodup →
      ((ts.foldl dailyStepDouble acc).map (fun e => e.1)).Nodup := by
  induction ts with
  | nil => intro acc h; exact h
  | cons t ts ih =>
    intro acc h
    rw [List.foldl_cons, dailyStepDouble_eq]
    exact ih _ (nodup_keys_setOwn _ _ _ h)

theorem dailySpendingArrayDouble_perm (transactions : List Transaction) :
    (dailySpendingArrayDouble transactions).Perm
      ((dailySpendingDouble transactions).map (fun e => DailyEntry.mk e.1 e.2)) :=
  List.perm_insertionSort _ _

/-- In binary64, the amount of an entry of `dailySpending` is the sum of the
expense amounts of its day, added in the order of the transactions. -/
theorem amount_dailySpendingArrayDouble (transactions : List Transaction) (e : DailyEntry)
    (he : e ∈ dailySpendingArrayDouble transactions) :
    e.amount = sumAmountsDouble (expensesOfDay e.date transactions) := by
  rw [(dailySpendingArrayDouble_perm transactions).mem_iff] at he
  obtain ⟨p, hp, rfl⟩ := List.mem_map.1 he
  obtain ⟨d, v⟩ := p
  have hnd := foldl_dailyStepDouble_nodup (expensesOf transactions) [] List.nodup_nil
  have hget := getOwn_eq_some_of_mem _ d v hnd hp
  have hfold := getOwn_foldl_dailyStepDouble (expensesOf transactions) [] d
  unfold dailySpendingDouble at hget
  rw [hget] at hfold
  have hfilter : (expensesOf transactions).filter (fun t => decide (isoDate t.date = d))
      = expensesOfDay d transactions := by
    unfold expensesOf expensesOfDay
    rw [List.filter_filter]
    apply List.filter_congr
    intro t _
    simp [Bool.and_comm]
  split at hfold
  · rw [hfilter] at hfold
    exact Option.some.inj hfold
  · cases hfold

/-! ### Whole amounts -/

/-- The sum of two whole numbers that stays within 2^53 is exact. -/
theorem addDouble_whole (a b : ℚ) (ha : ∃ n : Nat, a = n) (hb : ∃ n : Nat, b = n)
    (h : a + b ≤ 2 ^ 53) : addDouble a b = a + b ∧ ∃ n : Nat, a + b = n := by
  obtain ⟨m, rfl⟩ := ha
  obtain ⟨n, rfl⟩ := hb
  have hle : ((m + n : Nat) : Int) ≤ 2 ^ 53 := by
    have : ((m + n : Nat) : ℚ) ≤ 2 ^ 53 := by push_cast; exact h
    exact_mod_cast this
  have habs : |((m + n : Nat) : Int)| ≤ 2 ^ 53 := by
    rw [abs_of_nonneg (Int.natCast_nonneg _)]
    exact hle
  have h1 := toDouble_intCast ((m + n : Nat) : Int) habs
  refine ⟨?_, m + n, by push_cast; ring⟩
  unfold addDouble
  have e : ((m : ℚ) + (n : ℚ)) = (((m + n : Nat) : Int) : ℚ) := by push_cast; ring
  rw [e]
  exact h1

/-- Added from the left, whole numbers whose total stays within 2^53 give their
exact sum. -/
theorem foldl_addDouble_whole (xs : List ℚ) :
    ∀ s : ℚ, (∃ n : Nat, s = n) → (∀ x ∈ xs, ∃ n : Nat, x = n) → s + xs.sum ≤ 2 ^ 53 →
      xs.foldl addDouble s = s + xs.sum := by
  induction xs with
  | nil => intro s _ _ _; simp
  | cons x xs ih =>
    intro s hs hx hsum
    rw [List.sum_cons] at hsum
    have hx0 : ∃ n : Nat, x = n := hx x (List.mem_cons_self _ _)
    have hxs_nonneg : 0 ≤ xs.sum := by
      apply List.sum_nonneg
      intro y hy
      obtain ⟨n, rfl⟩ := hx y (List.mem_cons_of_mem _ hy)
      exact Nat.cast_nonneg n
    obtain ⟨hadd, hwhole⟩ := addDouble_whole s x hs hx0 (by linarith)
    rw [List.foldl_cons, hadd, ih (s + x) hwhole (fun y hy => hx y (List.mem_cons_of_mem _ hy))
      (by linarith), List.sum_cons]
    ring

theorem sumAmountsDouble_eq_foldl (ts : List Transaction) :
    sumAmountsDouble ts = (ts.map (fun t => t.amount)).foldl addDouble 0 := by
  unfold sumAmountsDouble
  rw [List.foldl_map]

theorem mem_setOwn {κ α : Type} [DecidableEq κ] (l : List (κ × α)) (k : κ) (v : α)
    (e : κ × α) (h : e ∈ setOwn l k v) : e ∈ l ∨ e = (k, v) := by
  induction l with
  | nil =>
    simp only [setOwn, List.mem_singleton] at h
    exact Or.inr h
  | cons a l ih =>
    obtain ⟨a1, a2⟩ := a
    by_cases hk : a1 = k
    · simp only [setOwn, if_pos hk, List.mem_cons] at h
      rcases h with h | h
      · exact Or.inr h
      · exact Or.inl (List.mem_cons_of_mem _ h)
    · simp only [setOwn, if_neg hk, List.mem_cons] at h
      rcases h with h | h
      · exact Or.inl (h ▸ List.mem_cons_self _ _)
      · rcases ih h with h' | h'
        · exact Or.inl (List.mem_cons_of_mem _ h')
        · exact Or.inr h'

/-- With whole amounts whose total stays within 2^53, every addition of the
reduction is exact: the values stay whole and add up to the amounts. -/
theorem foldl_dailyStepDouble_whole (ts : List Transaction) :
    ∀ acc : List (IsoDate × ℚ), (∀ e ∈ acc, ∃ n : Nat, e.2 = n) →
      (∀ t ∈ ts, ∃ n : Nat, t.amount = n) →
      (acc.map (fun e => e.2)).sum + amountSum ts ≤ 2 ^ 53 →
      (∀ e ∈ ts.foldl dailyStepDouble acc, ∃ n : Nat, e.2 = n) ∧
      ((ts.foldl dailyStepDouble acc).map (fun e => e.2)).sum
        = (acc.map (fun e => e.2)).sum + amountSum ts := by
  induction ts with
  | nil =>
    intro acc hacc _ _
    exact ⟨hacc, by simp [amountSum]⟩
  | cons t ts ih =>
    intro acc hacc hts hsum
    have hsplit : amountSum (t :: ts) = t.amount + amountSum ts := by simp [amountSum]
    rw [hsplit] at hsum ⊢
    have ht : ∃ n : Nat, t.amount = n := hts t (List.mem_cons_self _ _)
    have hts' : ∀ t' ∈ ts, ∃ n : Nat, t'.amount = n :=
      fun t' h => hts t' (List.mem_cons_of_mem _ h)
    have hrest : 0 ≤ amountSum ts := by
      unfold amountSum
      apply List.sum_nonneg
      intro y hy
      obtain ⟨t', ht', rfl⟩ := List.mem_map.1 hy
      obtain ⟨n, hn⟩ := hts' t' ht'
      rw [hn]
      exact Nat.cast_nonneg n
    have hnonneg : ∀ x ∈ acc.map (fun e => e.2), (0 : ℚ) ≤ x := by
      intro x hx
      obtain ⟨e, he, rfl⟩ := List.mem_map.1 hx
      obtain ⟨n, hn⟩ := hacc e he
      rw [hn]
      exact Nat.cast_nonneg n
    -- the value held for the day
    have hv : (∃ n : Nat, (getOwn acc (isoDate t.date)).getD 0 = n)
        ∧ (getOwn acc (isoDate t.date)).getD 0 ≤ (acc.map (fun e => e.2)).sum := by
      cases hg : getOwn acc (isoDate t.date) with
      | none =>
        exact ⟨⟨0, by simp⟩, by simpa using List.sum_nonneg hnonneg⟩
      | some v =>
        have hmem := mem_of_getOwn_eq_some acc _ v hg
        refine ⟨hacc _ hmem, ?_⟩
        simp only [Option.getD_some]
        exact List.single_le_sum hnonneg v (List.mem_map_of_mem (fun e => e.2) hmem)
    obtain ⟨hadd, hwhole⟩ := addDouble_whole _ _ hv.1 ht (by linarith [hv.2])
    rw [List.foldl_cons, dailyStepDouble_eq, hadd]
    have hacc' : ∀ e ∈ setOwn acc (isoDate t.date)
        ((getOwn acc (isoDate t.date)).getD 0 + t.amount), ∃ n : Nat, e.2 = n := by
      intro e he
      rcases mem_setOwn _ _ _ e he with h | h
      · exact hacc e h
      · rw [h]; exact hwhole
    have hsum' : ((setOwn acc (isoDate t.date)
        ((getOwn acc (isoDate t.date)).getD 0 + t.amount)).map (fun e => e.2)).sum
        = (acc.map (fun e => e.2)).sum + t.amount := by
      rw [sum_values_setOwn]
      ring
    obtain ⟨h1, h2⟩ := ih _ hacc' hts' (by rw [hsum']; linarith)
    refine ⟨h1, ?_⟩
    rw [h2, hsum']
    ring

/-- Claim C5, in the arithmetic of the handler.  The amount of every entry of
`dailySpending` is the sum of the expense amounts of its day, added in the order
of the transactions with every sum rounded to binary64.  When the expense
amounts are whole numbers whose total is at most 2^53, no sum is rounded, and
the amounts of the entries add up to `totals.expenses`, both added one after the
other in binary64 and added exactly. -/
theorem dailySpending_amounts (transactions : List Transaction) :
    (∀ e ∈ dailySpendingArrayDouble transactions,
      e.amount = sumAmountsDouble (expensesOfDay e.date transactions)) ∧
    ((∀ t ∈ transactions, t.type = TransactionType.expense → ∃ n : Nat, t.amount = n) →
      amountSum (expensesOf transactions) ≤ 2 ^ 53 →
      ((dailySpendingArrayDouble transactions).map (fun e => e.amount)).foldl addDouble 0
          = totalExpensesDouble transactions ∧
        ((dailySpendingArrayDouble transactions).map (fun e => e.amount)).sum
          = totalExpensesDouble transactions) := by
  refine ⟨amount_dailySpendingArrayDouble transactions, ?_⟩
  intro hwhole hsum
  have hexp : ∀ t ∈ expensesOf transactions, ∃ n : Nat, t.amount = n := by
    intro t ht
    unfold expensesOf at ht
    rw [List.mem_filter] at ht
    exact hwhole t ht.1 (by simpa using ht.2)
  -- the total is exact
  have htotal : totalExpensesDouble transactions = amountSum (expensesOf transactions) := by
    unfold totalExpensesDouble
    rw [sumAmountsDouble_eq_foldl, foldl_addDouble_whole _ 0 ⟨0, by simp⟩ ?_ ?_, zero_add]
    · rfl
    · intro x hx
      obtain ⟨t, ht, rfl⟩ := List.mem_map.1 hx
      exact hexp t ht
    · rw [zero_add]
      exact hsum
  -- the entries are whole and add up to the total
  obtain ⟨hvals, hvsum⟩ := foldl_dailyStepDouble_whole (expensesOf transactions) []
    (by intro e he; simp at he) hexp (by simpa using hsum)
  have hperm := (dailySpendingArrayDouble_perm transactions).map (fun e => e.amount)
  rw [List.map_map] at hperm
  have hmapeq : (List.map ((fun e : DailyEntry => e.amount) ∘ fun e : IsoDate × ℚ =>
      DailyEntry.mk e.1 e.2) (dailySpendingDouble transactions))
      = (dailySpendingDouble transactions).map (fun e => e.2) := by
    apply List.map_congr_left
    intro e _
    rfl
  rw [hmapeq] at hperm
  have hexact : ((dailySpendingArrayDouble transactions).map (fun e => e.amount)).sum
      = amountSum (expensesOf transactions) := by
    rw [hperm.sum_eq]
    unfold dailySpendingDouble
    rw [hvsum]
    simp
  refine ⟨?_, by rw [hexact, htotal]⟩
  rw [foldl_addDouble_whole _ 0 ⟨0, by simp⟩ ?_ ?_, zero_add, hexact, htotal]
  · intro x hx
    have hx' := hperm.mem_iff.mp hx
    obtain ⟨e, he, rfl⟩ := List.mem_map.1 hx'
    exact hvals e he
  · rw [zero_add, hexact]
    exact hsum

/-- The shape of the example of three expenses, two on a first day and one on
the day after, whatever the sums are. -/
theorem dailySpending_three_expenses (a b a2 s1 total : ℚ)
    (h0a : addDouble 0 a = a) (hab : addDouble a b = s1) (haa : addDouble a a = a2)
    (ha2b : addDouble a2 b = total) :
    dailySpendingArrayDouble
        [Transaction.mk 1 a TransactionType.expense "Food" 1704067200000,
         Transaction.mk 1 a TransactionType.expense "Food" 1704153600000,
         Transaction.mk 1 b TransactionType.expense "Food" 1704070800000]
      = [DailyEntry.mk 19723 s1, DailyEntry.mk 19724 a] ∧
    totalExpensesDouble
        [Transaction.mk 1 a TransactionType.expense "Food" 1704067200000,
         Transaction.mk 1 a TransactionType.expense "Food" 1704153600000,
         Transaction.mk 1 b TransactionType.expense "Food" 1704070800000]
      = total := by
  have d1 : isoDate 1704067200000 = 19723 := by decide
  have d2 : isoDate 1704153600000 = 19724 := by decide
  have d3 : isoDate 1704070800000 = 19723 := by decide
  have hne : ¬ ((19723 : IsoDate) = 19724) := by decide
  have hle : parseIsoDate 19723 ≤ parseIsoDate 19724 := by decide
  constructor
  · unfold dailySpendingArrayDouble dailySpendingDouble expensesOf
    simp only [List.filter_cons_of_pos, List.filter_nil, decide_True, List.foldl_cons,
      List.foldl_nil, dailyStepDouble_eq, d1, d2, d3, getOwn, setOwn, Option.getD_none,
      if_neg hne, if_true, Option.getD_some, h0a, hab, List.map_cons, List.map_nil,
      List.insertionSort, List.orderedInsert, if_pos hle]
  · unfold totalExpensesDouble sumAmountsDouble expensesOf
    simp only [List.filter_cons_of_pos, List.filter_nil, decide_True, List.foldl_cons,
      List.foldl_nil, h0a, haa, ha2b]

/-- The binary64 numbers 0.01 and 0.04. -/
theorem toDouble_cents :
    toDouble (1 / 100) = 5764607523034235 * (2 : ℚ) ^ (-59 : Int) ∧
    toDouble (1 / 25) = 5764607523034235 * (2 : ℚ) ^ (-57 : Int) := by
  constructor
  · have h := toDouble_eq_of_near (1 / 100) 5764607523034235 (-59) (by norm_num)
      (by norm_num [abs_of_pos]) (by norm_num [abs_of_pos]) (by norm_num [abs_lt])
    exact_mod_cast h
  · have h := toDouble_eq_of_near (1 / 25) 5764607523034235 (-57) (by norm_num)
      (by norm_num [abs_of_pos]) (by norm_num [abs_of_pos]) (by norm_num [abs_lt])
    exact_mod_cast h

/-- The sums of the example in binary64: 0 + 0.01, 0.01 + 0.04 = 0.05,
0.01 + 0.01 = 0.02, 0.02 + 0.04 = 0.06 (a tie, rounded to the even neighbour),
0 + 0.05 and 0.05 + 0.01 = 0.060000000000000005. -/
theorem addDouble_cents :
    addDouble 0 (5764607523034235 * (2 : ℚ) ^ (-59 : Int))
      = 5764607523034235 * (2 : ℚ) ^ (-59 : Int) ∧
    addDouble (5764607523034235 * (2 : ℚ) ^ (-59 : Int))
        (5764607523034235 * (2 : ℚ) ^ (-57 : Int))
      = 7205759403792794 * (2 : ℚ) ^ (-57 : Int) ∧
    addDouble (5764607523034235 * (2 : ℚ) ^ (-59 : Int))
        (5764607523034235 * (2 : ℚ) ^ (-59 : Int))
      = 5764607523034235 * (2 : ℚ) ^ (-58 : Int) ∧
    addDouble (5764607523034235 * (2 : ℚ) ^ (-58 : Int))
        (5764607523034235 * (2 : ℚ) ^ (-57 : Int))
      = 8646911284551352 * (2 : ℚ) ^ (-57 : Int) ∧
    addDouble 0 (7205759403792794 * (2 : ℚ) ^ (-57 : Int))
      = 7205759403792794 * (2 : ℚ) ^ (-57 : Int) ∧
    addDouble (7205759403792794 * (2 : ℚ) ^ (-57 : Int))
        (5764607523034235 * (2 : ℚ) ^ (-59 : Int))
      = 8646911284551353 * (2 : ℚ) ^ (-57 : Int) := by
  refine ⟨?_, ?_, ?_, ?_, ?_, ?_⟩
  · unfold addDouble
    rw [zero_add]
    have h := toDouble_of_mantissa 5764607523034235 (-59) (by norm_num) (by norm_num)
    exact_mod_cast h
  · unfold addDouble
    have h := toDouble_eq_of_near
      (5764607523034235 * (2 : ℚ) ^ (-59 : Int) + 5764607523034235 * (2 : ℚ) ^ (-57 : Int))
      7205759403792794 (-57) (by norm_num)
      (by norm_num [abs_of_pos]) (by norm_num [abs_of_pos]) (by norm_num [abs_lt])
    exact_mod_cast h
  · unfold addDouble
    have e : (5764607523034235 * (2 : ℚ) ^ (-59 : Int) + 5764607523034235 * (2 : ℚ) ^ (-59 : Int))
        = ((5764607523034235 : Int) : ℚ) * (2 : ℚ) ^ (-58 : Int) := by norm_num
    rw [e]
    have h := toDouble_of_mantissa 5764607523034235 (-58) (by norm_num) (by norm_num)
    exact_mod_cast h
  · unfold addDouble
    have h := toDouble_eq_of_tie_even
      (5764607523034235 * (2 : ℚ) ^ (-58 : Int) + 5764607523034235 * (2 : ℚ) ^ (-57 : Int))
      8646911284551352 (-57) (by norm_num)
      (by norm_num [abs_of_pos]) (by norm_num [abs_of_pos]) (by norm_num) (by decide)
    exact_mod_cast h
  · unfold addDouble
    rw [zero_add]
    have h := toDouble_of_mantissa 7205759403792794 (-57) (by norm_num) (by norm_num)
    exact_mod_cast h
  · unfold addDouble
    have h := toDouble_eq_of_near
      (7205759403792794 * (2 : ℚ) ^ (-57 : Int) + 5764607523034235 * (2 : ℚ) ^ (-59 : Int))
      8646911284551353 (-57) (by norm_num)
      (by norm_num [abs_of_pos]) (by norm_num [abs_of_pos]) (by norm_num [abs_lt])
    exact_mod_cast h

/-- Counterexample to C5 as stated: the expenses 0.01 and 0.04 on 1 January 2024
and 0.01 on 2 January 2024, stored in the order 0.01 (day 1), 0.01 (day 2), 0.04
(day 1).  The entries of `dailySpending` are 0.05 and 0.01, `totals.expenses` is
(0.01 + 0.01) + 0.04 = 0.06, and the amounts of the entries add up to
0.05 + 0.01 = 0.060000000000000005 in binary64; their exact sum differs from
`totals.expenses` as well. -/
theorem dailySpending_amounts_rounded :
    dailySpendingArrayDouble
        [Transaction.mk 1 (toDouble (1 / 100)) TransactionType.expense "Food" 1704067200000,
         Transaction.mk 1 (toDouble (1 / 100)) TransactionType.expense "Food" 1704153600000,
         Transaction.mk 1 (toDouble (1 / 25)) TransactionType.expense "Food" 1704070800000]
      = [DailyEntry.mk 19723 (7205759403792794 * (2 : ℚ) ^ (-57 : Int)),
         DailyEntry.mk 19724 (5764607523034235 * (2 : ℚ) ^ (-59 : Int))] ∧
    totalExpensesDouble
        [Transaction.mk 1 (toDouble (1 / 100)) TransactionType.expense "Food" 1704067200000,
         Transaction.mk 1 (toDouble (1 / 100)) TransactionType.expense "Food" 1704153600000,
         Transaction.mk 1 (toDouble (1 / 25)) TransactionType.expense "Food" 1704070800000]
      = 8646911284551352 * (2 : ℚ) ^ (-57 : Int) ∧
    ([7205759403792794 * (2 : ℚ) ^ (-57 : Int),
        5764607523034235 * (2 : ℚ) ^ (-59 : Int)].foldl addDouble 0
      = 8646911284551353 * (2 : ℚ) ^ (-57 : Int)) ∧
    (8646911284551353 * (2 : ℚ) ^ (-57 : Int) ≠ 8646911284551352 * (2 : ℚ) ^ (-57 : Int)) ∧
    ([7205759403792794 * (2 : ℚ) ^ (-57 : Int),
        5764607523034235 * (2 : ℚ) ^ (-59 : Int)].sum
      ≠ 8646911284551352 * (2 : ℚ) ^ (-57 : Int)) := by
  obtain ⟨hA, hB⟩ := toDouble_cents
  obtain ⟨h0a, hab, haa, ha2b, h0c, hca⟩ := addDouble_cents
  rw [hA, hB]
  obtain ⟨h1, h2⟩ := dailySpending_three_expenses _ _ _ _ _ h0a hab haa ha2b
  refine ⟨h1, h2, ?_, by norm_num, by norm_num⟩
  simp only [List.foldl_cons, List.foldl_nil, h0c, hca]

/-- Claim C5 on whole amounts: the expenses 40 and 20 of scenario A. -/
theorem dailySpending_amounts_witness :
    ((dailySpendingArrayDouble scenarioA).map (fun e => e.amount)).foldl addDouble 0
        = totalExpensesDouble scenarioA ∧
      ((dailySpendingArrayDouble scenarioA).map (fun e => e.amount)).sum
        = totalExpensesDouble scenarioA :=
  (dailySpending_amounts scenarioA).2
    (by
      intro t ht hty
      simp only [scenarioA, scenarioAOn, List.mem_cons, List.mem_singleton,
        List.not_mem_nil, or_false] at ht
      rcases ht with rfl | rfl | rfl
      · exact ⟨100, by norm_num⟩
      · exact ⟨40, by norm_num⟩
      · exact ⟨20, by norm_num⟩)
    (by
      simp [scenarioA, scenarioAOn, expensesOf, amountSum]
      norm_num)

/-! ## The flag `isOnTrack` in binary64 -/

theorem currentSavingsDouble_nonneg (income expenses : ℚ) :
    0 ≤ currentSavingsDouble income expenses := le_max_right _ _

theorem toDouble_max_zero (x : ℚ) :
    toDouble (Max.max (toDouble x) 0) = Max.max (toDouble x) 0 := by
  rcases max_cases (toDouble x) 0 with ⟨h, _⟩ | ⟨h, _⟩
  · rw [h, toDouble_toDouble]
  · rw [h, toDouble_zero]

/-- The flag in terms of the two rounded quotients. -/
theorem isOnTrackDouble_eq (now : Int) (currentSavings : ℚ) (g : SavingsGoal) :
    isOnTrackDouble now currentSavings g
      = if ceilDiv (g.targetDate - now) (1000 * 60 * 60 * 24) > 0 then
          decide (toDouble (amountNeededDouble g
              / ((ceilDiv (g.targetDate - now) (1000 * 60 * 60 * 24) : Int) : ℚ))
            ≤ toDouble (currentSavings
              / ((ceilDiv (g.targetDate - now) (1000 * 60 * 60 * 24) : Int) : ℚ)))
        else decide (amountNeededDouble g ≤ toDouble currentSavings) := by
  unfold isOnTrackDouble
  simp only
  by_cases hd : ceilDiv (g.targetDate - now) (1000 * 60 * 60 * 24) > 0
  · rw [if_pos hd, if_pos hd, max_eq_left (by omega)]
  · rw [if_neg hd, if_neg hd, max_eq_right (by omega)]
    simp

/-- The flag for a goal and current savings that are binary64 numbers. -/
theorem isOnTrackDouble_spec (now : Int) (cs : ℚ) (g : SavingsGoal) (hcs : toDouble cs = cs) :
    (amountNeededDouble g ≤ cs → isOnTrackDouble now cs g = true) ∧
    (ceilDiv (g.targetDate - now) (1000 * 60 * 60 * 24) ≤ 1 →
      (isOnTrackDouble now cs g = true ↔ amountNeededDouble g ≤ cs)) := by
  have hneed : toDouble (amountNeededDouble g) = amountNeededDouble g := toDouble_max_zero _
  have himp : amountNeededDouble g ≤ cs → isOnTrackDouble now cs g = true := by
    intro h
    rw [isOnTrackDouble_eq]
    by_cases hd : ceilDiv (g.targetDate - now) (1000 * 60 * 60 * 24) > 0
    · rw [if_pos hd, decide_eq_true_eq]
      apply toDouble_mono
      have hq : (0 : ℚ) < ((ceilDiv (g.targetDate - now) (1000 * 60 * 60 * 24) : Int) : ℚ) := by
        exact_mod_cast hd
      exact div_le_div_of_nonneg_right h (le_of_lt hq)
    · rw [if_neg hd, decide_eq_true_eq, hcs]
      exact h
  refine ⟨himp, fun hd1 => ⟨fun hf => ?_, himp⟩⟩
  rw [isOnTrackDouble_eq] at hf
  by_cases hd : ceilDiv (g.targetDate - now) (1000 * 60 * 60 * 24) > 0
  · have hone : ceilDiv (g.targetDate - now) (1000 * 60 * 60 * 24) = 1 := by omega
    rw [hone, if_pos (by norm_num), decide_eq_true_eq] at hf
    simp only [Int.cast_one, div_one] at hf
    rw [hcs, hneed] at hf
    exact hf
  · rw [if_neg hd, decide_eq_true_eq, hcs] at hf
    exact hf

/-- Claim C25, in the arithmetic of the handler.  For a user with a goal, with
`currentSavings` and `amountNeeded` as binary64 computes them: the flag
`isOnTrack` is true whenever `amountNeeded ≤ currentSavings`, whatever the time
and the target date, in particular whenever `goalAmount ≤ 2 * currentSavings`;
and with at most one day remaining it is true exactly when
`amountNeeded ≤ currentSavings`. -/
theorem getSavingsGoal_isOnTrack (now : Int) (goals : List SavingsGoal) (userId : Nat)
    (g : SavingsGoal) (income expenses : ℚ) (hfind : findGoal goals userId = some g) :
    ∃ flag, getSavingsGoalOnTrack now goals userId income expenses = some flag ∧
      (amountNeededDouble { g with currentAmount := currentSavingsDouble income expenses }
          ≤ currentSavingsDouble income expenses → flag = true) ∧
      (g.goalAmount ≤ 2 * currentSavingsDouble income expenses → flag = true) ∧
      (ceilDiv (g.targetDate - now) (1000 * 60 * 60 * 24) ≤ 1 →
        (flag = true ↔
          amountNeededDouble { g with currentAmount := currentSavingsDouble income expenses }
            ≤ currentSavingsDouble income expenses)) := by
  have hcs : toDouble (currentSavingsDouble income expenses)
      = currentSavingsDouble income expenses := toDouble_max_zero _
  have hnn := currentSavingsDouble_nonneg income expenses
  have hflag : getSavingsGoalOnTrack now goals userId income expenses
      = some (isOnTrackDouble now (currentSavingsDouble income expenses)
          { g with currentAmount := currentSavingsDouble income expenses }) := by
    unfold getSavingsGoalOnTrack
    rw [hfind]
  obtain ⟨himp, hiff⟩ := isOnTrackDouble_spec now (currentSavingsDouble income expenses)
    { g with currentAmount := currentSavingsDouble income expenses } hcs
  refine ⟨_, hflag, himp, ?_, hiff⟩
  intro h2
  apply himp
  unfold amountNeededDouble
  apply max_le _ hnn
  show toDouble (g.goalAmount - currentSavingsDouble income expenses) ≤ _
  calc toDouble (g.goalAmount - currentSavingsDouble income expenses)
      ≤ toDouble (currentSavingsDouble income expenses) := toDouble_mono _ _ (by linarith)
    _ = currentSavingsDouble income expenses := hcs

/-- Claim C25 on a goal of 1000 with an income of 600 in the year. -/
theorem getSavingsGoal_isOnTrack_witness :
    ∃ flag, getSavingsGoalOnTrack 1704067200000
        [SavingsGoal.mk 1 1000 0 1735689600000 false] 1 600 0 = some flag ∧
      (amountNeededDouble { SavingsGoal.mk 1 1000 0 1735689600000 false with
            currentAmount := currentSavingsDouble 600 0 }
          ≤ currentSavingsDouble 600 0 → flag = true) :=
  have h := getSavingsGoal_isOnTrack 1704067200000
    [SavingsGoal.mk 1 1000 0 1735689600000 false] 1
    (SavingsGoal.mk 1 1000 0 1735689600000 false) 600 0 (by decide)
  h.elim (fun flag hf => ⟨flag, hf.1, hf.2.1⟩)

/-- The numbers of the example in binary64: 512.04, the difference
512.04 - 0.04 = 511.99999999999994, 1024 - 511.99999999999994 = 512 (a tie,
rounded to the even neighbour), and the two thirds 512 / 3 and
511.99999999999994 / 3, which are rounded to the same number. -/
theorem toDouble_on_track_example :
    toDouble (51204 / 100) = 4503951471091384 * (2 : ℚ) ^ (-43 : Int) ∧
    toDouble (4503951471091384 * (2 : ℚ) ^ (-43 : Int)
        - 5764607523034235 * (2 : ℚ) ^ (-57 : Int))
      = 9007199254740991 * (2 : ℚ) ^ (-44 : Int) ∧
    toDouble (1024 - 9007199254740991 * (2 : ℚ) ^ (-44 : Int)) = 512 ∧
    toDouble (512 / 3) = 6004799503160661 * (2 : ℚ) ^ (-45 : Int) ∧
    toDouble (9007199254740991 * (2 : ℚ) ^ (-44 : Int) / 3)
      = 6004799503160661 * (2 : ℚ) ^ (-45 : Int) ∧
    toDouble 512 = 512 ∧
    toDouble (9007199254740991 * (2 : ℚ) ^ (-44 : Int))
      = 9007199254740991 * (2 : ℚ) ^ (-44 : Int) := by
  refine ⟨?_, ?_, ?_, ?_, ?_, ?_, ?_⟩
  · have h := toDouble_eq_of_near (51204 / 100) 4503951471091384 (-43) (by norm_num)
      (by norm_num [abs_of_pos]) (by norm_num [abs_of_pos]) (by norm_num [abs_lt])
    exact_mod_cast h
  · have h := toDouble_eq_of_near
      (4503951471091384 * (2 : ℚ) ^ (-43 : Int) - 5764607523034235 * (2 : ℚ) ^ (-57 : Int))
      9007199254740991 (-44) (by norm_num)
      (by norm_num [abs_of_pos]) (by norm_num [abs_of_pos]) (by norm_num [abs_lt])
    exact_mod_cast h
  · have h := toDouble_eq_of_tie_even (1024 - 9007199254740991 * (2 : ℚ) ^ (-44 : Int))
      4503599627370496 (-43) (by norm_num)
      (by norm_num [abs_of_pos]) (by norm_num [abs_of_pos]) (by norm_num) (by decide)
    rw [h]
    norm_num
  · have h := toDouble_eq_of_near (512 / 3) 6004799503160661 (-45) (by norm_num)
      (by norm_num [abs_of_pos]) (by norm_num [abs_of_pos]) (by norm_num [abs_lt])
    exact_mod_cast h
  · have h := toDouble_eq_of_near (9007199254740991 * (2 : ℚ) ^ (-44 : Int) / 3)
      6004799503160661 (-45) (by norm_num)
      (by norm_num [abs_of_pos]) (by norm_num [abs_of_pos]) (by norm_num [abs_lt])
    exact_mod_cast h
  · have h := toDouble_intCast 512 (by norm_num)
    exact_mod_cast h
  · have h := toDouble_of_mantissa 9007199254740991 (-44) (by norm_num) (by norm_num)
    exact_mod_cast h

/-- Counterexample to C25 as stated: a goal of 1024 with an income of 512.04
and an expense of 0.04 in the year, at midnight UTC of 1 January 2024.
`currentSavings` is 511.99999999999994 and `amountNeeded` is 512, which is more.
With the target date one day ahead the flag `isOnTrack` is false, and with the
target date three days ahead it is true: the two quotients by 3 are rounded to
the same number. -/
theorem isOnTrack_depends_on_days :
    currentSavingsDouble (toDouble (51204 / 100)) (toDouble (1 / 25))
      = 9007199254740991 * (2 : ℚ) ^ (-44 : Int) ∧
    amountNeededDouble (SavingsGoal.mk 1 1024
        (9007199254740991 * (2 : ℚ) ^ (-44 : Int)) 1704153600000 false) = 512 ∧
    ¬ ((512 : ℚ) ≤ 9007199254740991 * (2 : ℚ) ^ (-44 : Int)) ∧
    ceilDiv (1704153600000 - 1704067200000) (1000 * 60 * 60 * 24) = 1 ∧
    ceilDiv (1704326400000 - 1704067200000) (1000 * 60 * 60 * 24) = 3 ∧
    getSavingsGoalOnTrack 1704067200000 [SavingsGoal.mk 1 1024 0 1704153600000 false] 1
        (toDouble (51204 / 100)) (toDouble (1 / 25)) = some false ∧
    getSavingsGoalOnTrack 1704067200000 [SavingsGoal.mk 1 1024 0 1704326400000 false] 1
        (toDouble (51204 / 100)) (toDouble (1 / 25)) = some true := by
  obtain ⟨hinc, hcs, hneed, h3a, h3b, h512, hcsd⟩ := toDouble_on_track_example
  have hexp := toDouble_cents.2
  have hsav : currentSavingsDouble (toDouble (51204 / 100)) (toDouble (1 / 25))
      = 9007199254740991 * (2 : ℚ) ^ (-44 : Int) := by
    unfold currentSavingsDouble
    rw [hinc, hexp, hcs]
    norm_num
  have hamount : ∀ target : Int, amountNeededDouble (SavingsGoal.mk 1 1024
      (9007199254740991 * (2 : ℚ) ^ (-44 : Int)) target false) = 512 := by
    intro target
    unfold amountNeededDouble
    show Max.max (toDouble (1024 - 9007199254740991 * (2 : ℚ) ^ (-44 : Int))) 0 = 512
    rw [hneed]
    norm_num
  have hd1 : ceilDiv (1704153600000 - 1704067200000) (1000 * 60 * 60 * 24) = 1 := by decide
  have hd3 : ceilDiv (1704326400000 - 1704067200000) (1000 * 60 * 60 * 24) = 3 := by decide
  have hlt : ¬ ((512 : ℚ) ≤ 9007199254740991 * (2 : ℚ) ^ (-44 : Int)) := by norm_num
  refine ⟨hsav, hamount _, hlt, hd1, hd3, ?_, ?_⟩
  · have hf : findGoal [SavingsGoal.mk 1 1024 0 1704153600000 false] 1
        = some (SavingsGoal.mk 1 1024 0 1704153600000 false) := by decide
    unfold getSavingsGoalOnTrack
    rw [hf, hsav]
    show some (isOnTrackDouble 1704067200000 _ (SavingsGoal.mk 1 1024
      (9007199254740991 * (2 : ℚ) ^ (-44 : Int)) 1704153600000 false)) = some false
    rw [isOnTrackDouble_eq]
    show some (if ceilDiv (1704153600000 - 1704067200000) (1000 * 60 * 60 * 24) > 0 then
        decide (toDouble (amountNeededDouble _
          / ((ceilDiv (1704153600000 - 1704067200000) (1000 * 60 * 60 * 24) : Int) : ℚ)) ≤
          toDouble (_ / ((ceilDiv (1704153600000 - 1704067200000) (1000 * 60 * 60 * 24) : Int)
            : ℚ)))
      else _) = some false
    rw [hd1, if_pos (by norm_num), hamount]
    simp only [Int.cast_one, div_one]
    rw [h512, hcsd, decide_eq_false hlt]
  · have hf : findGoal [SavingsGoal.mk 1 1024 0 1704326400000 false] 1
        = some (SavingsGoal.mk 1 1024 0 1704326400000 false) := by decide
    unfold getSavingsGoalOnTrack
    rw [hf, hsav]
    show some (isOnTrackDouble 1704067200000 _ (SavingsGoal.mk 1 1024
      (9007199254740991 * (2 : ℚ) ^ (-44 : Int)) 1704326400000 false)) = some true
    rw [isOnTrackDouble_eq]
    show some (if ceilDiv (1704326400000 - 1704067200000) (1000 * 60 * 60 * 24) > 0 then
        decide (toDouble (amountNeededDouble _
          / ((ceilDiv (1704326400000 - 1704067200000) (1000 * 60 * 60 * 24) : Int) : ℚ)) ≤
          toDouble (_ / ((ceilDiv (1704326400000 - 1704067200000) (1000 * 60 * 60 * 24) : Int)
            : ℚ)))
      else _) = some true
    rw [hd3, if_pos (by norm_num), hamount]
    have e3 : ((3 : Int) : ℚ) = 3 := by norm_num
    rw [e3, h3a, h3b, decide_eq_true (le_refl _)]

/-! ## The recommendations and the transactions of the user -/

/-- The stage `$match` lets through exactly the expenses of the user in the
window. -/
theorem matchedExpenses_eq (threeMonthsAgo endDate : Int) (transactions : List Transaction)
    (userId : Nat) :
    matchedExpenses threeMonthsAgo endDate transactions userId
      = userExpensesBetween threeMonthsAgo endDate transactions userId := by
  unfold matchedExpenses userExpensesBetween
  apply List.filter_congr
  intro t _
  rw [Bool.eq_iff_iff]
  simp only [Bool.and_eq_true, decide_eq_true_eq]
  tauto

theorem mem_userExpensesBetween (since before : Int) (transactions : List Transaction)
    (userId : Nat) (t : Transaction) :
    t ∈ userExpensesBetween since before transactions userId
      ↔ t ∈ transactions ∧ t.userId = userId ∧ t.type = TransactionType.expense ∧
        since ≤ t.date ∧ t.date < before := by
  unfold userExpensesBetween
  rw [List.mem_filter, decide_eq_true_eq]

/-- Claim C17.  `getBudgetRecommendations` returns exactly one recommendation for
every category in which the user has an expense dated in the window
`[threeMonthsAgo, endDate)`, and none for any other category.  Its
`historicalAverage` is the mean, over the months in which the user has an
expense of the category in the window, of the sum of these expenses of the month,
and its `recommendedAmount` is that average times 1.1, rounded. -/
theorem budgetRecommendations_spec (threeMonthsAgo endDate : Int)
    (transactions : List Transaction) (userId : Nat) :
    ((budgetRecommendations threeMonthsAgo endDate transactions userId).map
        (fun r => r.category)).Nodup
      ∧ (∀ c : String,
          c ∈ (budgetRecommendations threeMonthsAgo endDate transactions userId).map
              (fun r => r.category)
            ↔ ∃ t ∈ transactions, t.userId = userId ∧ t.type = TransactionType.expense ∧
                threeMonthsAgo ≤ t.date ∧ t.date < endDate ∧ t.category = c)
      ∧ ∀ r ∈ budgetRecommendations threeMonthsAgo endDate transactions userId,
          r.historicalAverage
              = (∑ m in monthsOfCategory r.category
                    (userExpensesBetween threeMonthsAgo endDate transactions userId),
                  monthlySumOf r.category m
                    (userExpensesBetween threeMonthsAgo endDate transactions userId))
                / ((monthsOfCategory r.category
                    (userExpensesBetween threeMonthsAgo endDate transactions userId)).card : ℚ)
            ∧ r.recommendedAmount = round (r.historicalAverage * (11 / 10)) := by
  obtain ⟨h1, h2, h3⟩ := budgetRecommendations_of_matched threeMonthsAgo endDate transactions
    userId
  rw [matchedExpenses_eq] at h3
  refine ⟨h1, ?_, h3⟩
  intro c
  rw [h2 c, matchedExpenses_eq]
  constructor
  · rintro ⟨t, ht, hc⟩
    obtain ⟨hm, hu, hty, hs, hb⟩ := (mem_userExpensesBetween _ _ _ _ t).mp ht
    exact ⟨t, hm, hu, hty, hs, hb, hc⟩
  · rintro ⟨t, hm, hu, hty, hs, hb, hc⟩
    exact ⟨t, (mem_userExpensesBetween _ _ _ _ t).mpr ⟨hm, hu, hty, hs, hb⟩, hc⟩

/-- Claim C17 on the window from 1 March to 1 July 2024, for a user with the
expenses 100 in April and 200 and 30 in May in the category Food, next to an
expense of another user and an income: there is a recommendation for Food, and
none for the category of the other user. -/
theorem budgetRecommendations_spec_witness :
    "Food" ∈ (budgetRecommendations 1709251200000 1719792000000
        [Transaction.mk 1 100 TransactionType.expense "Food" 1712707200000,
         Transaction.mk 1 200 TransactionType.expense "Food" 1715299200000,
         Transaction.mk 1 30 TransactionType.expense "Food" 1716163200000,
         Transaction.mk 2 500 TransactionType.expense "Travel" 1715299200000,
         Transaction.mk 1 900 TransactionType.income "Salary" 1715299200000] 1).map
        (fun r => r.category) ∧
    "Travel" ∉ (budgetRecommendations 1709251200000 1719792000000
        [Transaction.mk 1 100 TransactionType.expense "Food" 1712707200000,
         Transaction.mk 1 200 TransactionType.expense "Food" 1715299200000,
         Transaction.mk 1 30 TransactionType.expense "Food" 1716163200000,
         Transaction.mk 2 500 TransactionType.expense "Travel" 1715299200000,
         Transaction.mk 1 900 TransactionType.income "Salary" 1715299200000] 1).map
        (fun r => r.category) :=
  have h := (budgetRecommendations_spec 1709251200000 1719792000000
    [Transaction.mk 1 100 TransactionType.expense "Food" 1712707200000,
     Transaction.mk 1 200 TransactionType.expense "Food" 1715299200000,
     Transaction.mk 1 30 TransactionType.expense "Food" 1716163200000,
     Transaction.mk 2 500 TransactionType.expense "Travel" 1715299200000,
     Transaction.mk 1 900 TransactionType.income "Salary" 1715299200000] 1).2.1
  ⟨(h "Food").mpr ⟨_, List.mem_cons_self _ _, rfl, rfl, by decide, by decide, rfl⟩,
    fun hc => by
      obtain ⟨t, ht, hu, hty, _, _, hcat⟩ := (h "Travel").mp hc
      simp only [List.mem_cons, List.mem_singleton, List.not_mem_nil, or_false] at ht
      rcases ht with rfl | rfl | rfl | rfl | rfl
      · exact absurd hcat (by decide)
      · exact absurd hcat (by decide)
      · exact absurd hcat (by decide)
      · exact absurd hu (by decide)
      · exact absurd hty (by decide)⟩

end SpendLog
